import Mathlib

/-!
DataTransformer (caffe-dynamic-conv/src/caffe/data_transformer.cpp)

A shallow embedding of `caffe::DataTransformer<Dtype>` and proofs about it.

Conventions of the embedding

* `Dtype` and `float` are the rationals: all arithmetic is exact.  A float
  operation whose IEEE result would be NaN or infinite, and every out-of-range
  memory access, is the fault `Fault.undefined`.
* C++ `int` is `Int` (no wrap-around is modelled).
* A failing `CHECK...` / `LOG(FATAL)` is the fault `Fault.check line`, where `line`
  is the line of the check in data_transformer.cpp.
* A member function is a function from the object before the call to
  `Except Fault` of its results and the object after the call.
* A `Dtype*` destination is the list of the elements from the pointer to the
  end of the allocation; a write past the end is `Fault.undefined`.
-/

namespace caffe

/-- The template parameter `Dtype`, in exact arithmetic. -/
abbrev Dtype := ℚ

/-- The enum `caffe::Phase`. -/
inductive Phase where
  | TRAIN
  | TEST
  deriving DecidableEq

/-- The ways a call can end without returning. -/
inductive Fault where
  /-- A `CHECK` or `LOG(FATAL)` at the given source line failed. -/
  | check (line : Nat)
  /-- Undefined behaviour: out-of-range access, or a float that is not finite
  converted to `int`. -/
  | undefined
  /-- An exception raised inside an OpenCV call. -/
  | cvException
  deriving DecidableEq

/-- The message `TransformationParameter`, with the fields the source reads.
`crop_size` is the value the source holds in `const int crop_size`. -/
structure TransformationParameter where
  crop_size : Int
  scale : Dtype
  mirror : Bool
  has_mean_file : Bool
  mean_value : List Dtype
  force_color : Bool
  force_gray : Bool
  random_crop : Bool
  crop_area : List ℚ
  aspect_ratio : List ℚ

/-- The message `Datum`: `data` holds the bytes of the string field,
`float_data` the repeated float field. -/
structure Datum where
  channels : Int
  height : Int
  width : Int
  data : List Nat
  float_data : List Dtype
  encoded : Bool

/-- Modelled from the spec: the tensor container `Blob<Dtype>` (blob.hpp), an
external collaborator "offering shape, contiguous element storage, and
reshape", addressed as (batch_index, channel, row, col).  `data` is the
contiguous storage from `mutable_cpu_data()` on. -/
structure Blob where
  num : Int
  channels : Int
  height : Int
  width : Int
  data : List Dtype

/-- Modelled from the spec: `Blob::count()`, the element count of the shape. -/
def Blob.count (b : Blob) : Int :=
  b.num * b.channels * b.height * b.width

/-- Modelled from the spec: `Blob::offset(n, c, h, w)`, the linear offset of
the element (n, c, h, w). -/
def Blob.offset (b : Blob) (n : Int) (c : Int) (h : Int) (w : Int) : Int :=
  ((n * b.channels + c) * b.height + h) * b.width + w

/-- The generator behind `rng_` (and the one behind libc `rand()`): its
algorithm is external, so it is the stream of its raw outputs and the number
of outputs consumed so far. -/
structure RNG where
  stream : Nat → Nat
  pos : Nat

/-- The next raw output of a generator and the generator after the draw. -/
def RNG.next (g : RNG) : Nat × RNG :=
  (g.stream g.pos, { g with pos := g.pos + 1 })

/-- The macro `RAND_MAX` of <stdlib.h> (the glibc value). -/
def RAND_MAX : Nat := 2147483647

/-- An OpenCV matrix `cv::Mat` of interleaved bytes: `data = none` is the null
data pointer, otherwise the list of rows, each `cols * channels` bytes. -/
structure Mat where
  rows : Int
  cols : Int
  channels : Int
  depth : Int
  data : Option (List (List Nat))

/-- The OpenCV depth code `CV_8U`. -/
def CV_8U : Int := 0

/-- The library calls the source makes that are not part of it: the codec
(`DecodeDatumToCVMat`, `DecodeDatumToCVMatNative`), the sub-matrix operator
`cv_img(cv::Rect(x, y, width, height))` and `cv::resize`.  `none` is an
exception thrown by the library. -/
structure OpenCV where
  DecodeDatumToCVMat : Datum → Bool → Mat
  DecodeDatumToCVMatNative : Datum → Mat
  roi : Mat → Int → Int → Int → Int → Option Mat
  resize : Mat → Int → Int → Option Mat

/-- The object state of `DataTransformer<Dtype>`: its members `param_`,
`phase_`, `data_mean_`, `mean_values_`, `crop_area_`, `aspect_ratio_`, `rng_`,
and the process-wide state of libc `rand()`, which `Randfloat` advances. -/
structure DataTransformer where
  param_ : TransformationParameter
  phase_ : Phase
  data_mean_ : Blob
  mean_values_ : List Dtype
  crop_area_ : List ℚ
  aspect_ratio_ : List ℚ
  rng_ : Option RNG
  libc_rand : RNG

/-- A failing check at a source line. -/
def CHECK (line : Nat) (cond : Bool) : Except Fault Unit :=
  if cond then pure () else throw (Fault.check line)

/-- Element `i` of a contiguous array (`a[i]`), undefined out of range. -/
def readAt {α : Type} (a : List α) (i : Int) : Except Fault α :=
  if 0 ≤ i then
    match a[i.toNat]? with
    | some x => pure x
    | none => throw Fault.undefined
  else throw Fault.undefined

/-- The assignment `a[i] = v`, undefined out of range. -/
def writeAt {α : Type} (a : List α) (i : Int) (v : α) : Except Fault (List α) :=
  if 0 ≤ i ∧ i < a.length then pure (a.set i.toNat v) else throw Fault.undefined

/-- The loop `for (int i = 0; i < n; ++i) body`, threading the state the body
updates. -/
def forLoop {σ : Type} (n : Int) (body : σ → Int → Except Fault σ) (init : σ) :
    Except Fault σ :=
  (List.range n.toNat).foldlM (fun s (i : Nat) => body s (i : Int)) init

/-- The value of `(int) x` for a finite float `x`: truncation toward zero. -/
def truncToInt (x : ℚ) : Int :=
  Int.tdiv x.num (x.den : Int)

/-- The largest `k` not above the bound with `k * k ≤ n`. -/
def isqrtUpTo (n : Nat) : Nat → Nat
  | 0 => 0
  | k + 1 => if (k + 1) * (k + 1) ≤ n then k + 1 else isqrtUpTo n k

/-- The value of `int r = sqrt(x)`: the integer part of the square root; the
square root of a negative number is NaN, whose conversion is undefined. -/
def sqrtToInt (x : ℚ) : Except Fault Int :=
  if x < 0 then throw Fault.undefined
  else pure ((isqrtUpTo (Rat.floor x).toNat (Rat.floor x).toNat : Nat) : Int)

namespace DataTransformer

/-- The function `DataTransformer::Rand(int n)`, lines 809-816. -/
def Rand (self : DataTransformer) (n : Int) : Except Fault (Int × DataTransformer) :=
  match self.rng_ with
  | none => throw (Fault.check 811)
  | some g =>
    if n > 0 then
      pure ((((g.next.1 % 2 ^ 32 : Nat) : Int) % n), { self with rng_ := some g.next.2 })
    else throw (Fault.check 812)

/-- The function `DataTransformer::Randfloat(float n, float m)`, lines 817-823. -/
def Randfloat (self : DataTransformer) (n : ℚ) (m : ℚ) :
    Except Fault (ℚ × DataTransformer) :=
  if m > n then
    let random : ℚ := ((self.libc_rand.next.1 % (RAND_MAX + 1) : Nat) : ℚ) / (RAND_MAX : ℚ)
    let result : ℚ := random * (m - n) + n
    pure (result, { self with libc_rand := self.libc_rand.next.2 })
  else throw (Fault.check 819)

/-- The function `DataTransformer::InitRand()`, lines 797-807; `seeded` is the
generator `new Caffe::RNG(caffe_rng_rand())` yields. -/
def InitRand (self : DataTransformer) (seeded : RNG) : DataTransformer :=
  let needs_rand : Bool :=
    self.param_.mirror || (self.phase_ = Phase.TRAIN && self.param_.crop_size ≠ 0)
  if needs_rand then { self with rng_ := some seeded } else { self with rng_ := none }

/-- Line 54 (and 329, 481, 636): `param_.mirror() && Rand(2)`. -/
def drawMirror (self : DataTransformer) : Except Fault (Bool × DataTransformer) :=
  if self.param_.mirror then do
    let (r, self) ← self.Rand 2
    pure (decide (r ≠ 0), self)
  else pure (false, self)

/-- Lines 59-69 of `Transform(const Datum&, Dtype*)`: the checks on the datum
and on the mean blob. -/
def checkDatum (self : DataTransformer) (datum : Datum) : Except Fault Unit := do
  CHECK 59 (decide (datum.channels > 0))
  CHECK 60 (decide (datum.height ≥ self.param_.crop_size))
  CHECK 61 (decide (datum.width ≥ self.param_.crop_size))
  if self.param_.has_mean_file then do
    CHECK 65 (decide (datum.channels = self.data_mean_.channels))
    CHECK 66 (decide (datum.height = self.data_mean_.height))
    CHECK 67 (decide (datum.width = self.data_mean_.width))
  else pure ()

/-- Lines 70-79: the check on the number of mean values (`line` is the line
of the check: 71, 345, 497) and the replication of a single mean value. -/
def replicateMeanValues (self : DataTransformer) (line : Nat) (channels : Int) :
    Except Fault DataTransformer :=
  if self.mean_values_.length > 0 then do
    CHECK line (decide (self.mean_values_.length = 1 ∨
      (self.mean_values_.length : Int) = channels))
    if channels > 1 ∧ self.mean_values_.length = 1 then
      pure { self with mean_values_ :=
        ((List.range (channels - 1).toNat).foldl (fun v _ => v ++ [v.headD 0])
          self.mean_values_) }
    else pure self
  else pure self

/-- The locals `height`, `width`, `h_off`, `w_off` and `do_mirror` of a
transform. -/
structure CropSpec where
  height : Int
  width : Int
  h_off : Int
  w_off : Int
  do_mirror : Bool
  deriving DecidableEq

/-- Lines 81-97: output extent and crop origin. -/
def cropOffsets (self : DataTransformer) (datum_height : Int) (datum_width : Int)
    (do_mirror : Bool) : Except Fault (CropSpec × DataTransformer) :=
  let crop_size := self.param_.crop_size
  if crop_size ≠ 0 then
    if self.phase_ = Phase.TRAIN then do
      let (h_off, self) ← self.Rand (datum_height - crop_size + 1)
      let (w_off, self) ← self.Rand (datum_width - crop_size + 1)
      pure (⟨crop_size, crop_size, h_off, w_off, do_mirror⟩, self)
    else
      pure (⟨crop_size, crop_size, Int.tdiv (datum_height - crop_size) 2,
        Int.tdiv (datum_width - crop_size) 2, do_mirror⟩, self)
  else pure (⟨datum_height, datum_width, 0, 0, do_mirror⟩, self)

/-- Lines 132-136 and 188-193: the source element at `data_index`. -/
def datumElement (datum : Datum) (data_index : Int) : Except Fault Dtype :=
  if datum.data.length > 0 then do
    let b ← readAt datum.data data_index
    pure ((b % 256 : Nat) : Dtype)
  else readAt datum.float_data data_index

/-- Lines 137-145 and 194-204: the value stored for the source element at
`data_index` of channel `c`. -/
def normalized (self : DataTransformer) (datum : Datum) (c : Int) (data_index : Int) :
    Except Fault Dtype := do
  let datum_element ← datumElement datum data_index
  if self.param_.has_mean_file then do
    let m ← readAt self.data_mean_.data data_index
    pure ((datum_element - m) * self.param_.scale)
  else if self.mean_values_.length > 0 then do
    let m ← readAt self.mean_values_ c
    pure ((datum_element - m) * self.param_.scale)
  else pure (datum_element * self.param_.scale)

/-- Lines 126 and 182: `data_index`. -/
def dataIndex (datum : Datum) (h_off : Int) (w_off : Int) (c : Int) (h : Int) (w : Int) :
    Int :=
  (c * datum.height + h_off + h) * datum.width + w_off + w

/-- Lines 127-131 and 183-187: the mirror-aware destination index in a
`height` by `width` plane. -/
def mirrorIndex (do_mirror : Bool) (height : Int) (width : Int) (c : Int) (h : Int)
    (w : Int) : Int :=
  if do_mirror then (c * height + h) * width + (width - 1 - w)
  else (c * height + h) * width + w

/-- Lines 179-207: the direct copy of the crop into the destination. -/
def directCopy (self : DataTransformer) (datum : Datum) (g : CropSpec)
    (transformed_data : List Dtype) : Except Fault (List Dtype) :=
  forLoop datum.channels (fun td c =>
    forLoop g.height (fun td h =>
      forLoop g.width (fun td w => do
        let data_index := dataIndex datum g.h_off g.w_off c h w
        let top_index := mirrorIndex g.do_mirror g.height g.width c h w
        let v ← normalized self datum c data_index
        writeAt td top_index v) td) td) transformed_data

/-- Lines 104-109 (and 382-387, 538-543): the configured ranges are appended
to `crop_area_` and `aspect_ratio_`. -/
def pushCropRanges (self : DataTransformer) : Except Fault DataTransformer :=
  if self.param_.crop_area.length > 0 then
    forLoop self.param_.crop_area.length (fun self c => do
      let a ← readAt self.param_.crop_area c
      let self := { self with crop_area_ := self.crop_area_ ++ [a] }
      let r ← readAt self.param_.aspect_ratio c
      pure { self with aspect_ratio_ := self.aspect_ratio_ ++ [r] }) self
  else pure self

/-- Lines 110-113 (and 388-391, 544-547): the range checks (at lines `l1` and
`l2`) and the draws of `area` and `ratio`. -/
def drawAreaRatio (self : DataTransformer) (l1 : Nat) (l2 : Nat) (height : Int)
    (width : Int) : Except Fault ((ℚ × ℚ) × DataTransformer) := do
  let a0 ← readAt self.crop_area_ 0
  let a1 ← readAt self.crop_area_ 1
  CHECK l1 (decide (a1 > a0))
  let r0 ← readAt self.aspect_ratio_ 0
  let r1 ← readAt self.aspect_ratio_ 1
  CHECK l2 (decide (r1 > r0))
  let (x, self) ← self.Randfloat a0 a1
  let area : ℚ := x * (height : ℚ) * (width : ℚ)
  let (ratio, self) ← self.Randfloat r0 r1
  pure ((area, ratio), self)

/-- Lines 115-116 (and 393, 395, 549-550): `crop_h = sqrt(area * ratio)` and
`crop_w = sqrt(area / ratio)`; a division by zero gives no finite float. -/
def cropExtent (area : ℚ) (ratio : ℚ) : Except Fault (Int × Int) := do
  let crop_h ← sqrtToInt (area * ratio)
  let crop_w ← (if ratio = 0 then throw Fault.undefined else sqrtToInt (area / ratio))
  pure (crop_h, crop_w)

/-- The float quotient `static_cast<float>(a) / b` of two ints, when finite. -/
def floatRatio (a : Int) (b : Int) : Option ℚ :=
  if b = 0 then none else some ((a : ℚ) / (b : ℚ))

/-- The product `r * i` of lines 153 and 159; a ratio that is not finite
makes the conversion of the product to `int` undefined. -/
def scaledCoord (r : Option ℚ) (i : Int) : Except Fault ℚ :=
  match r with
  | some x => pure (x * (i : ℚ))
  | none => throw Fault.undefined

/-- Lines 149-176: the interpolation of the scratch buffer `tmp` into the
destination. -/
def bilinear (datum_channels : Int) (crop_h : Int) (crop_w : Int) (height : Int)
    (width : Int) (tmp : List Dtype) (transformed_data : List Dtype) :
    Except Fault (List Dtype) :=
  let rheight := floatRatio (crop_h - 1) (height - 1)
  let rwidth := floatRatio (crop_w - 1) (width - 1)
  forLoop height (fun td h2 => do
    let h1r ← scaledCoord rheight h2
    let h1 : Int := truncToInt h1r
    let h1p : Int := if h1 < crop_h - 1 then 1 else 0
    let h1lambda : Dtype := h1r - (h1 : ℚ)
    let h0lambda : Dtype := 1 - h1lambda
    forLoop width (fun td w2 => do
      let w1r ← scaledCoord rwidth w2
      let w1 : Int := truncToInt w1r
      let w1p : Int := if w1 < crop_w - 1 then 1 else 0
      let w1lambda : Dtype := w1r - (w1 : ℚ)
      let w0lambda : Dtype := 1 - w1lambda
      let tmp_index : Int := h1 * crop_h + w1
      let top_index : Int := h2 * height + w2
      forLoop datum_channels (fun td c => do
        let pos1 : Int := tmp_index + c * (crop_w * crop_h)
        let pos2 : Int := top_index + c * (height * width)
        let p00 ← readAt tmp pos1
        let p01 ← readAt tmp (pos1 + w1p)
        let p10 ← readAt tmp (pos1 + h1p * crop_w)
        let p11 ← readAt tmp (pos1 + (h1p * crop_w + w1p))
        writeAt td pos2
          (h0lambda * (w0lambda * p00 + w1lambda * p01) +
            h1lambda * (w0lambda * p10 + w1lambda * p11))) td) td) transformed_data

/-- What `Transform(const Datum&, Dtype*)` leaves behind: the object, the
destination, and the values of its locals `height`, `width`, `h_off`, `w_off`
and `do_mirror`. -/
structure TransformResult where
  self : DataTransformer
  transformed_data : List Dtype
  crop : CropSpec

/-- Lines 104-177: the random-area path.  `new Dtype(n)` at line 122 allocates
one element holding the value `n`. -/
def randomAreaCrop (self : DataTransformer) (datum : Datum) (g : CropSpec)
    (transformed_data : List Dtype) : Except Fault TransformResult := do
  let self ← self.pushCropRanges
  let ((area, ratio), self) ← self.drawAreaRatio 110 111 datum.height datum.width
  let (crop_h, crop_w) ← cropExtent area ratio
  let (g, self) ← (if self.phase_ = Phase.TRAIN then do
      let (h_off, self) ← self.Rand (datum.height - crop_h + 1)
      let (w_off, self) ← self.Rand (datum.width - crop_w + 1)
      pure (({ g with h_off := h_off, w_off := w_off } : CropSpec), self)
    else pure (g, self))
  let tmp : List Dtype := [((datum.channels * crop_h * crop_w : Int) : Dtype)]
  let tmp ← directCopy self datum ⟨crop_h, crop_w, g.h_off, g.w_off, g.do_mirror⟩ tmp
  let td ← bilinear datum.channels crop_h crop_w g.height g.width tmp transformed_data
  pure ⟨self, td, g⟩

/-- Lines 81-208 of `Transform(const Datum&, Dtype*)`: the crop origin, then
the random-area path or the direct copy. -/
def cropAndCopy (self : DataTransformer) (datum : Datum) (do_mirror : Bool)
    (transformed_data : List Dtype) : Except Fault TransformResult := do
  let (g, self) ← self.cropOffsets datum.height datum.width do_mirror
  if self.param_.random_crop ∧ self.phase_ = Phase.TRAIN then
    randomAreaCrop self datum g transformed_data
  else do
    let td ← directCopy self datum g transformed_data
    pure ⟨self, td, g⟩

/-- The function `Transform(const Datum& datum, Dtype* transformed_data)`,
lines 44-209. -/
def Transform (self : DataTransformer) (datum : Datum) (transformed_data : List Dtype) :
    Except Fault TransformResult := do
  let (do_mirror, self) ← self.drawMirror
  checkDatum self datum
  let self ← self.replicateMeanValues 71 datum.channels
  cropAndCopy self datum do_mirror transformed_data

/-- Lines 249-260 (and 321-324 with 359-360, 372-373): the checks of the
destination shape against the source and `crop_size`. -/
def checkBlobShape (self : DataTransformer) (datum : Datum) (transformed_blob : Blob) :
    Except Fault Unit := do
  CHECK 249 (decide (transformed_blob.channels = datum.channels))
  CHECK 250 (decide (transformed_blob.height ≤ datum.height))
  CHECK 251 (decide (transformed_blob.width ≤ datum.width))
  CHECK 252 (decide (transformed_blob.num ≥ 1))
  if self.param_.crop_size ≠ 0 then do
    CHECK 255 (decide (self.param_.crop_size = transformed_blob.height))
    CHECK 256 (decide (self.param_.crop_size = transformed_blob.width))
  else do
    CHECK 258 (decide (datum.height = transformed_blob.height))
    CHECK 259 (decide (datum.width = transformed_blob.width))

/-- Lines 407-433: the copy of the cropped image into the destination. -/
def matCopy (self : DataTransformer) (cv_cropped_img : Mat) (img_channels : Int)
    (img_height : Int) (img_width : Int) (g : CropSpec) (transformed_data : List Dtype) :
    Except Fault (List Dtype) :=
  forLoop g.height (fun td h => do
    let rows ← (match cv_cropped_img.data with
      | some rows => pure rows
      | none => throw Fault.undefined)
    let ptr ← readAt rows h
    let (td, _) ← forLoop g.width (fun (s : List Dtype × Int) w =>
      forLoop img_channels (fun (s : List Dtype × Int) c => do
        let top_index := mirrorIndex g.do_mirror g.height g.width c h w
        let b ← readAt ptr s.2
        let pixel : Dtype := ((b % 256 : Nat) : Dtype)
        if self.param_.has_mean_file then do
          let mean_index : Int := (c * img_height + g.h_off + h) * img_width + g.w_off + w
          let m ← readAt self.data_mean_.data mean_index
          let td ← writeAt s.1 top_index ((pixel - m) * self.param_.scale)
          pure (td, s.2 + 1)
        else if self.mean_values_.length > 0 then do
          let m ← readAt self.mean_values_ c
          let td ← writeAt s.1 top_index ((pixel - m) * self.param_.scale)
          pure (td, s.2 + 1)
        else do
          let td ← writeAt s.1 top_index (pixel * self.param_.scale)
          pure (td, s.2 + 1)) s) (td, 0)
    pure td) transformed_data

/-- A call into OpenCV that may throw. -/
def cvCall {α : Type} (r : Option α) : Except Fault α :=
  match r with
  | some x => pure x
  | none => throw Fault.cvException

/-- Lines 393-396 of `Transform(const cv::Mat&, Blob<Dtype>*)`: the extents of
the random-area crop, each clamped to the image. -/
def matCropExtent (area : ℚ) (ratio : ℚ) (img_height : Int) (img_width : Int) :
    Except Fault (Int × Int) := do
  let (crop_h, crop_w) ← cropExtent area ratio
  let crop_h : Int := if crop_h > img_height then img_height else crop_h
  let crop_w : Int := if crop_w > img_width then img_width else crop_w
  pure (crop_h, crop_w)

/-- The function `Transform(const cv::Mat& cv_img, Blob<Dtype>*)`, lines
307-434. -/
def TransformMat (cv : OpenCV) (self : DataTransformer) (cv_img : Mat)
    (transformed_blob : Blob) : Except Fault (DataTransformer × Blob) := do
  let crop_size := self.param_.crop_size
  let img_channels := cv_img.channels
  let img_height := cv_img.rows
  let img_width := cv_img.cols
  let height := transformed_blob.height
  let width := transformed_blob.width
  CHECK 321 (decide (transformed_blob.channels = img_channels))
  CHECK 322 (decide (height ≤ img_height))
  CHECK 323 (decide (width ≤ img_width))
  CHECK 324 (decide (transformed_blob.num ≥ 1))
  CHECK 326 (decide (cv_img.depth = CV_8U))
  let (do_mirror, self) ← self.drawMirror
  CHECK 333 (decide (img_channels > 0))
  CHECK 334 (decide (img_height ≥ crop_size))
  CHECK 335 (decide (img_width ≥ crop_size))
  (if self.param_.has_mean_file then do
    CHECK 339 (decide (img_channels = self.data_mean_.channels))
    CHECK 340 (decide (img_height = self.data_mean_.height))
    CHECK 341 (decide (img_width = self.data_mean_.width))
  else pure ())
  let self ← self.replicateMeanValues 345 img_channels
  let (h_off, w_off, cv_cropped_img, self) ← (if crop_size ≠ 0 then do
      CHECK 359 (decide (crop_size = height))
      CHECK 360 (decide (crop_size = width))
      let (g, self) ← self.cropOffsets img_height img_width do_mirror
      let cropped ← cvCall (cv.roi cv_img g.w_off g.h_off crop_size crop_size)
      pure (g.h_off, g.w_off, cropped, self)
    else do
      CHECK 372 (decide (img_height = height))
      CHECK 373 (decide (img_width = width))
      pure ((0 : Int), (0 : Int), cv_img, self))
  CHECK 376 cv_cropped_img.data.isSome
  let (h_off, w_off, cv_cropped_img, self) ←
    (if self.param_.random_crop ∧ self.phase_ = Phase.TRAIN then do
      let self ← self.pushCropRanges
      let ((area, ratio), self) ← self.drawAreaRatio 388 389 img_height img_width
      let (crop_h, crop_w) ← matCropExtent area ratio img_height img_width
      let (h_off, self) ← self.Rand (img_height - crop_h + 1)
      let (w_off, self) ← self.Rand (img_width - crop_w + 1)
      let tmp ← cvCall (cv.roi cv_img w_off h_off crop_w crop_h)
      let resized ← cvCall (cv.resize tmp crop_size crop_size)
      pure (h_off, w_off, resized, self)
    else pure (h_off, w_off, cv_cropped_img, self))
  let td ← matCopy self cv_cropped_img img_channels img_height img_width
    ⟨height, width, h_off, w_off, do_mirror⟩ transformed_blob.data
  pure (self, { transformed_blob with data := td })

/-- The function `Transform(const Datum& datum, Blob<Dtype>*)`, lines 212-264,
compiled with `USE_OPENCV`. -/
def TransformDatumBlob (cv : OpenCV) (self : DataTransformer) (datum : Datum)
    (transformed_blob : Blob) : Except Fault (DataTransformer × Blob) :=
  if datum.encoded then do
    CHECK 218 (!(self.param_.force_color && self.param_.force_gray))
    let cv_img : Mat :=
      if self.param_.force_color || self.param_.force_gray then
        cv.DecodeDatumToCVMat datum self.param_.force_color
      else cv.DecodeDatumToCVMatNative datum
    TransformMat cv self cv_img transformed_blob
  else do
    checkBlobShape self datum transformed_blob
    let r ← Transform self datum transformed_blob.data
    pure (r.self, { transformed_blob with data := r.transformed_data })

/-- The pointer `transformed_blob->mutable_cpu_data() + offset`: the storage
from `offset` on. -/
def dataFrom (data : List Dtype) (offset : Int) : Except Fault (List Dtype) :=
  if 0 ≤ offset ∧ offset ≤ data.length then pure (data.drop offset.toNat)
  else throw Fault.undefined

/-- Lines 278-283 (and 299-304): the loop over the items; `uni_blob` shares
the storage of `transformed_blob` from the offset of the item on. -/
def transformItems {α : Type}
    (single : DataTransformer → α → Blob → Except Fault (DataTransformer × Blob))
    (self : DataTransformer) (items : List α) (transformed_blob : Blob) :
    Except Fault (DataTransformer × Blob) :=
  forLoop items.length (fun (s : DataTransformer × Blob) item_id => do
    let offset := transformed_blob.offset item_id 0 0 0
    let view ← dataFrom s.2.data offset
    let uni_blob : Blob :=
      ⟨1, transformed_blob.channels, transformed_blob.height, transformed_blob.width, view⟩
    let item ← readAt items item_id
    let (self, uni_blob) ← single s.1 item uni_blob
    pure (self, { s.2 with data := s.2.data.take offset.toNat ++ uni_blob.data }))
    (self, transformed_blob)

/-- The function `Transform(const vector<Datum>&, Blob<Dtype>*)`, lines
266-284. -/
def TransformDatumVector (cv : OpenCV) (self : DataTransformer) (datum_vector : List Datum)
    (transformed_blob : Blob) : Except Fault (DataTransformer × Blob) := do
  let datum_num : Int := datum_vector.length
  let num := transformed_blob.num
  CHECK 275 (decide (datum_num > 0))
  CHECK 276 (decide (datum_num ≤ num))
  transformItems (TransformDatumBlob cv) self datum_vector transformed_blob

/-- The function `Transform(const vector<cv::Mat>&, Blob<Dtype>*)`, lines
287-305. -/
def TransformMatVector (cv : OpenCV) (self : DataTransformer) (mat_vector : List Mat)
    (transformed_blob : Blob) : Except Fault (DataTransformer × Blob) := do
  let mat_num : Int := mat_vector.length
  let num := transformed_blob.num
  CHECK 296 (decide (mat_num > 0))
  CHECK 297 (decide (mat_num = num))
  transformItems (TransformMat cv) self mat_vector transformed_blob

end DataTransformer

/-- One iteration of a copy loop: compute the value, store it at the index. -/
def writeStep {ι : Type} (val : ι → Except Fault Dtype) (idx : ι → Int) (td : List Dtype)
    (i : ι) : Except Fault (List Dtype) := do
  let v ← val i
  writeAt td (idx i) v

/-- The iteration space of three nested loops `c < C`, `h < H`, `w < W`, in
the order the loops visit it. -/
def box (C : Int) (H : Int) (W : Int) : List (Nat × Nat × Nat) :=
  List.range C.toNat ×ˢ (List.range H.toNat ×ˢ List.range W.toNat)

/-- The value the copy loop of lines 179-207 stores at iteration `(c, h, w)`. -/
def copyVal (self : DataTransformer) (datum : Datum) (g : DataTransformer.CropSpec)
    (p : Nat × Nat × Nat) : Except Fault Dtype :=
  DataTransformer.normalized self datum (p.1 : Int)
    (DataTransformer.dataIndex datum g.h_off g.w_off (p.1 : Int) (p.2.1 : Int) (p.2.2 : Int))

/-- The index the copy loop of lines 179-207 stores to at iteration
`(c, h, w)`. -/
def copyIdx (g : DataTransformer.CropSpec) (p : Nat × Nat × Nat) : Int :=
  DataTransformer.mirrorIndex g.do_mirror g.height g.width (p.1 : Int) (p.2.1 : Int)
    (p.2.2 : Int)

/-- The source elements of a datum as `Dtype`, in storage order: the bytes of
`data` when there are any, else `float_data`. -/
def Datum.elements (datum : Datum) : List Dtype :=
  if datum.data.length > 0 then datum.data.map (fun b => ((b % 256 : Nat) : Dtype))
  else datum.float_data

/-- The locals `height`, `width`, `h_off`, `w_off`, `do_mirror` of a transform
that draws nothing: the extent of lines 81-88 and the centre origin of lines
94-95, not mirrored. -/
def centerCrop (crop_size : Int) (datum_height : Int) (datum_width : Int) :
    DataTransformer.CropSpec :=
  if crop_size ≠ 0 then
    ⟨crop_size, crop_size, Int.tdiv (datum_height - crop_size) 2,
      Int.tdiv (datum_width - crop_size) 2, false⟩
  else ⟨datum_height, datum_width, 0, 0, false⟩

/-- The specification's broadcast-expansion of the mean constants: a single
constant stands for every channel. -/
def expandMeanValues (mean_values : List Dtype) (channels : Int) : List Dtype :=
  if mean_values.length = 1 then List.replicate channels.toNat (mean_values.headD 0)
  else mean_values

/-- The specification's `mean(channel, spatial_index)`: the mean-map value at
the source index if a map is configured, else the per-channel constant after
broadcast-expansion if constants are configured, else 0. -/
def specMean (t : DataTransformer) (channels : Int) (c : Int) (index : Int) :
    Option Dtype :=
  if t.param_.has_mean_file then t.data_mean_.data[index.toNat]?
  else if t.mean_values_.length > 0 then (expandMeanValues t.mean_values_ channels)[c.toNat]?
  else some 0

namespace Examples

/-- A mean blob with no content. -/
def noMean : Blob := ⟨0, 0, 0, 0, []⟩

/-- A generator whose raw outputs are all zero. -/
def zeroRng : RNG := ⟨fun _ => 0, 0⟩

/-- A 3 by 3 single-channel byte datum. -/
def datum3x3 : Datum := ⟨1, 3, 3, [1, 2, 3, 4, 5, 6, 7, 8, 9], [], false⟩

/-- TEST phase, `crop_size` 2, `scale` 2, one mean value 1, no mirror. -/
def cropTwo : DataTransformer :=
  ⟨⟨2, 2, false, false, [1], false, false, false, [], []⟩, Phase.TEST, noMean, [1], [], [],
    none, zeroRng⟩

/-- The result of `cropTwo` on `datum3x3`. -/
def cropTwoResult : DataTransformer.TransformResult :=
  ⟨cropTwo, [0, 2, 6, 8], ⟨2, 2, 0, 0, false⟩⟩

/-- A 10 by 10 single-channel byte datum whose element at (row, col) is
`10 * row + col`. -/
def datum10x10 : Datum := ⟨1, 10, 10, List.range 100, [], false⟩

/-- TEST phase, `crop_size` 4, `scale` 1, no mean, no mirror, and no
generator. -/
def evalCropFour : DataTransformer :=
  ⟨⟨4, 1, false, false, [], false, false, false, [], []⟩, Phase.TEST, noMean, [], [], [],
    none, zeroRng⟩

/-- A 2 by 2 single-channel byte datum. -/
def datum2x2 : Datum := ⟨1, 2, 2, [10, 20, 30, 40], [], false⟩

/-- A 2 by 3 (height 2, width 3) single-channel byte datum. -/
def datum2x3 : Datum := ⟨1, 2, 3, [10, 20, 30, 40, 50, 60], [], false⟩

/-- A 3 by 2 (height 3, width 2) single-channel byte datum. -/
def datum3x2 : Datum := ⟨1, 3, 2, [10, 20, 30, 40, 50, 60], [], false⟩

/-- A generator whose second raw output is 1 and whose other outputs are 0,
after `pos` draws. -/
def secondOneRng (pos : Nat) : RNG := ⟨fun i => if i = 1 then 1 else 0, pos⟩

/-- TRAIN phase, `crop_size` 0, mirror and random_crop enabled, area range
(1/4, 3/8), aspect range (1, 3/2), with the ranges already pushed `pushed`
times, the generator after `pos` draws and libc `rand()` after `fpos` draws.
On a source of 6 pixels every draw gives a 1 by 1 crop. -/
def randomArea (pushed : Nat) (pos : Nat) (fpos : Nat) : DataTransformer :=
  ⟨⟨0, 1, true, false, [], false, false, true, [1 / 4, 3 / 8], [1, 3 / 2]⟩, Phase.TRAIN,
    noMean, [], (List.replicate pushed [1 / 4, 3 / 8]).flatten,
    (List.replicate pushed [1, 3 / 2]).flatten, some (secondOneRng pos), ⟨fun _ => 0, fpos⟩⟩

/-- The result of `randomArea 0 0 0` on `datum2x3` with a zeroed destination:
the crop is the single source element at row 1, column 0. -/
def randomAreaResult : DataTransformer.TransformResult :=
  ⟨randomArea 1 3 2, [40, 40, 40, 40, 40, 0], ⟨2, 3, 1, 0, false⟩⟩

/-- An OpenCV that decodes to empty matrices and throws on every other
call. -/
def noCodec : OpenCV :=
  ⟨fun _ _ => ⟨0, 0, 0, 0, none⟩, fun _ => ⟨0, 0, 0, 0, none⟩, fun _ _ _ _ _ => none,
    fun _ _ _ => none⟩

/-- TEST phase, `crop_size` 0, mirror enabled, with generator `g`. -/
def mirrorOn (g : RNG) : DataTransformer :=
  ⟨⟨0, 1, true, false, [], false, false, false, [], []⟩, Phase.TEST, noMean, [], [], [],
    some g, zeroRng⟩

/-- A 1 by 2 single-channel byte datum. -/
def datum1x2 : Datum := ⟨1, 1, 2, [5, 6], [], false⟩

/-- TEST phase, `crop_size` 0, `scale` 1, a 2 by 2 mean map equal to
`datum2x2`. -/
def ownMean : DataTransformer :=
  ⟨⟨0, 1, false, true, [], false, false, false, [], []⟩, Phase.TEST,
    ⟨1, 1, 2, 2, [10, 20, 30, 40]⟩, [], [], [], none, zeroRng⟩

/-- A 1 by 1 three-channel byte datum. -/
def datum3ch : Datum := ⟨3, 1, 1, [7, 8, 9], [], false⟩

end Examples

/-- The call does not end in a failed check at one of the lines `L`. -/
def Avoids {α : Type} (L : List Nat) (x : Except Fault α) : Prop :=
  ∀ l : Nat, x = Except.error (Fault.check l) → l ∉ L

/-- The lines of the batch-size checks of the two batch transforms. -/
def batchCheckLines : List Nat := [275, 276, 296, 297]

end caffe

namespace caffe

/-- Modelled from the spec: `Blob::Reshape(n, c, h, w)` (blob.hpp) on a blob
without elements: the shape is set and fresh zeroed storage of the new
element count is allocated. -/
def Blob.Reshape (_b : Blob) (n : Int) (c : Int) (h : Int) (w : Int) : Blob :=
  ⟨n, c, h, w, List.replicate (n * c * h * w).toNat 0⟩

/-- Modelled from the spec: `caffe_sub(n, a, b, a)` (util/math_functions.hpp),
the mean-subtraction "at the tensor level": `a[i] -= b[i]` for `i < n`, where
`a` starts `offset` elements into `data`. -/
def caffe_sub (n : Int) (data : List Dtype) (offset : Int) (b : List Dtype) :
    Except Fault (List Dtype) :=
  forLoop n (fun d i => do
    let x ← readAt d (offset + i)
    let m ← readAt b i
    writeAt d (offset + i) (x - m)) data

/-- Modelled from the spec: `caffe_add_scalar(n, alpha, y)`
(util/math_functions.hpp): `y[i] += alpha` for `i < n`, where `y` starts
`offset` elements into `data`. -/
def caffe_add_scalar (n : Int) (alpha : Dtype) (data : List Dtype) (offset : Int) :
    Except Fault (List Dtype) :=
  forLoop n (fun d i => do
    let x ← readAt d (offset + i)
    writeAt d (offset + i) (x + alpha)) data

/-- Modelled from the spec: `caffe_scal(n, alpha, x)` (util/math_functions.hpp):
`x[i] *= alpha` for `i < n`. -/
def caffe_scal (n : Int) (alpha : Dtype) (data : List Dtype) : Except Fault (List Dtype) :=
  forLoop n (fun d i => do
    let x ← readAt d i
    writeAt d i (x * alpha)) data

namespace DataTransformer

/-- Lines 449-455 of `Find_center`: the walk over the running sum from index
`i` on, for `fuel` more indices; leaving the loop reaches the end of the
function without a `return`, which is undefined. -/
def findCenterLoop (seed : ℚ) : Nat → Nat → List ℚ → Except Fault (Int × List ℚ)
  | 0, _, _ => throw Fault.undefined
  | fuel + 1, i, array => do
    let a ← readAt array (i : Int)
    let b ← readAt array ((i : Int) - 1)
    let array ← writeAt array (i : Int) (a + b)
    if seed ≤ a + b then pure ((i : Int), array)
    else findCenterLoop seed fuel (i + 1) array

/-- The function `DataTransformer::Find_center(float* array, int len)`, lines
439-456; the result is the index, the array after the call and the object
after the call. -/
def Find_center (self : DataTransformer) (array : List ℚ) (len : Int) :
    Except Fault (Int × List ℚ × DataTransformer) := do
  let count ← forLoop len (fun (count : ℚ) k => do
    let a ← readAt array k
    pure (count + a)) 0
  let (seed, self) ← self.Randfloat 0 count
  let a0 ← readAt array 0
  if seed ≤ a0 then pure (0, array, self)
  else do
    let (i, array) ← findCenterLoop seed (len - 1).toNat 1 array
    pure (i, array, self)

/-- Lines 524-531 of `Attention_Transform`: the row sums of the weight map. -/
def rowMarginals (attention_array : List ℚ) (img_height : Int) (img_width : Int) :
    Except Fault (List ℚ) := do
  let (attention_array_h, _) ← forLoop img_height (fun (s : List ℚ × Int) h => do
    let ah ← writeAt s.1 h 0
    forLoop img_width (fun (s : List ℚ × Int) _ => do
      let x ← readAt s.1 h
      let y ← readAt attention_array s.2
      let ah ← writeAt s.1 h (x + y)
      pure (ah, s.2 + 1)) (ah, s.2)) (List.replicate img_height.toNat (0 : ℚ), (0 : Int))
  pure attention_array_h

/-- Lines 524-534 of `Attention_Transform`: the attention centre
`(pos_h, pos_w)`, the weight array after the call (the second `Find_center`
sums the selected row in place) and the object after the call. -/
def attentionCenter (self : DataTransformer) (attention_array : List ℚ) (img_height : Int)
    (img_width : Int) : Except Fault ((Int × Int) × List ℚ × DataTransformer) := do
  let attention_array_h ← rowMarginals attention_array img_height img_width
  let (pos_h, _, self) ← self.Find_center attention_array_h img_height
  let row ← dataFrom attention_array (pos_h * img_width)
  let (pos_w, row, self) ← self.Find_center row img_width
  pure ((pos_h, pos_w),
    attention_array.take (pos_h * img_width).toNat ++ row, self)

/-- Lines 548-557 of `Attention_Transform`: crop origin and extent around the
centre. -/
def attentionCrop (pos_h : Int) (pos_w : Int) (crop_h : Int) (crop_w : Int)
    (img_height : Int) (img_width : Int) : Int × Int × Int × Int :=
  let h_off : Int := pos_h - Int.tdiv crop_h 2
  let h_off : Int := if h_off > 0 then h_off else 0
  let w_off : Int := pos_w - Int.tdiv crop_w 2
  let w_off : Int := if w_off > 0 then w_off else 0
  let crop_h : Int := if h_off + crop_h > img_height then img_height - h_off else crop_h
  let crop_w : Int := if w_off + crop_w > img_width then img_width - w_off else crop_w
  (h_off, w_off, crop_h, crop_w)

/-- What `Attention_Transform` leaves behind: the object, the destination,
the weight array, and the values of its locals `pos_h`, `pos_w`, `h_off`,
`w_off`. -/
structure AttentionResult where
  self : DataTransformer
  transformed_blob : Blob
  attention_array : List ℚ
  pos_h : Int
  pos_w : Int
  h_off : Int
  w_off : Int

/-- The function `Attention_Transform(const cv::Mat&, Blob<Dtype>*, float*)`,
lines 458-599. -/
def Attention_Transform (cv : OpenCV) (self : DataTransformer) (cv_img : Mat)
    (transformed_blob : Blob) (attention_array : List ℚ) : Except Fault AttentionResult := do
  let crop_size := self.param_.crop_size
  let img_channels := cv_img.channels
  let img_height := cv_img.rows
  let img_width := cv_img.cols
  let height := transformed_blob.height
  let width := transformed_blob.width
  CHECK 473 (decide (transformed_blob.channels = img_channels))
  CHECK 474 (decide (height ≤ img_height))
  CHECK 475 (decide (width ≤ img_width))
  CHECK 476 (decide (transformed_blob.num ≥ 1))
  CHECK 478 (decide (cv_img.depth = CV_8U))
  let (do_mirror, self) ← self.drawMirror
  CHECK 485 (decide (img_channels > 0))
  CHECK 486 (decide (img_height ≥ crop_size))
  CHECK 487 (decide (img_width ≥ crop_size))
  (if self.param_.has_mean_file then do
    CHECK 491 (decide (img_channels = self.data_mean_.channels))
    CHECK 492 (decide (img_height = self.data_mean_.height))
    CHECK 493 (decide (img_width = self.data_mean_.width))
  else pure ())
  let self ← self.replicateMeanValues 497 img_channels
  (if crop_size ≠ 0 then do
    CHECK 511 (decide (crop_size = height))
    CHECK 512 (decide (crop_size = width))
  else do
    CHECK 514 (decide (img_height = height))
    CHECK 515 (decide (img_width = width)))
  CHECK 519 cv_img.data.isSome
  let ((pos_h, pos_w), attention_array, self) ←
    self.attentionCenter attention_array img_height img_width
  let (h_off, w_off, cv_cropped_img, self) ←
    (if self.param_.random_crop ∧ self.phase_ = Phase.TRAIN then do
      let self ← self.pushCropRanges
      let ((area, ratio), self) ← self.drawAreaRatio 544 545 img_height img_width
      let (crop_h, crop_w) ← cropExtent area ratio
      let (h_off, w_off, crop_h, crop_w) :=
        attentionCrop pos_h pos_w crop_h crop_w img_height img_width
      let tmp ← cvCall (cv.roi cv_img w_off h_off crop_w crop_h)
      let resized ← cvCall (cv.resize tmp crop_size crop_size)
      pure (h_off, w_off, resized, self)
    else do
      let h_off : Int := Int.tdiv (img_height - crop_size) 2
      let w_off : Int := Int.tdiv (img_width - crop_size) 2
      let cropped ← cvCall (cv.roi cv_img w_off h_off crop_size crop_size)
      pure (h_off, w_off, cropped, self))
  let td ← matCopy self cv_cropped_img img_channels img_height img_width
    ⟨height, width, h_off, w_off, do_mirror⟩ transformed_blob.data
  pure ⟨self, { transformed_blob with data := td }, attention_array, pos_h, pos_w, h_off,
    w_off⟩

/-- What `Transform(Blob<Dtype>*, Blob<Dtype>*)` leaves behind: the object,
the source tensor (which the call writes to), the destination tensor, and the
values of its locals `height`, `width`, `h_off`, `w_off`, `do_mirror`. -/
structure BlobTransformResult where
  self : DataTransformer
  input_blob : Blob
  transformed_blob : Blob
  crop : CropSpec

/-- Lines 612-621: an empty destination takes its shape from the source and
`crop_size`. -/
def shapeDestination (self : DataTransformer) (input_blob : Blob) (transformed_blob : Blob) :
    Blob :=
  if transformed_blob.count = 0 then
    if self.param_.crop_size ≠ 0 then
      transformed_blob.Reshape input_blob.num input_blob.channels self.param_.crop_size
        self.param_.crop_size
    else
      transformed_blob.Reshape input_blob.num input_blob.channels input_blob.height
        input_blob.width
  else transformed_blob

/-- Lines 659-668: the mean blob is subtracted from every sample of the
source, in place. -/
def subtractMeanFile (self : DataTransformer) (input_blob : Blob) :
    Except Fault (List Dtype) :=
  if self.param_.has_mean_file then do
    CHECK 660 (decide (input_blob.channels = self.data_mean_.channels))
    CHECK 661 (decide (input_blob.height = self.data_mean_.height))
    CHECK 662 (decide (input_blob.width = self.data_mean_.width))
    forLoop input_blob.num (fun input_data n =>
      caffe_sub self.data_mean_.count input_data (input_blob.offset n 0 0 0)
        self.data_mean_.data) input_blob.data
  else pure input_blob.data

/-- Lines 670-684: the mean values are subtracted from the source, in
place. -/
def subtractMeanValues (self : DataTransformer) (input_blob : Blob)
    (input_data : List Dtype) : Except Fault (List Dtype) :=
  if self.mean_values_.length > 0 then do
    CHECK 671 (decide (self.mean_values_.length = 1 ∨
      (self.mean_values_.length : Int) = input_blob.channels))
    if self.mean_values_.length = 1 then do
      let m ← readAt self.mean_values_ 0
      caffe_add_scalar input_blob.count (-m) input_data 0
    else
      forLoop input_blob.num (fun input_data n =>
        forLoop input_blob.channels (fun input_data c => do
          let m ← readAt self.mean_values_ c
          caffe_add_scalar (input_blob.height * input_blob.width) (-m) input_data
            (input_blob.offset n c 0 0)) input_data) input_data
  else pure input_data

/-- Lines 688-709: the mirror-aware copy of the crop of every sample. -/
def blobCopy (input_num : Int) (channels : Int) (input_height : Int) (input_width : Int)
    (g : CropSpec) (input_data : List Dtype) (transformed_data : List Dtype) :
    Except Fault (List Dtype) :=
  forLoop input_num (fun td n =>
    let top_index_n : Int := n * channels
    let data_index_n : Int := n * channels
    forLoop channels (fun td c =>
      let top_index_c : Int := (top_index_n + c) * g.height
      let data_index_c : Int := (data_index_n + c) * input_height + g.h_off
      forLoop g.height (fun td h =>
        let top_index_h : Int := (top_index_c + h) * g.width
        let data_index_h : Int := (data_index_c + h) * input_width + g.w_off
        if g.do_mirror then
          let top_index_w : Int := top_index_h + g.width - 1
          forLoop g.width (fun td w => do
            let x ← readAt input_data (data_index_h + w)
            writeAt td (top_index_w - w) x) td
        else
          forLoop g.width (fun td w => do
            let x ← readAt input_data (data_index_h + w)
            writeAt td (top_index_h + w) x) td) td) td) transformed_data

/-- The function `Transform(Blob<Dtype>* input_blob, Blob<Dtype>*
transformed_blob)`, lines 603-714. -/
def TransformBlob (self : DataTransformer) (input_blob : Blob) (transformed_blob : Blob) :
    Except Fault BlobTransformResult := do
  let crop_size := self.param_.crop_size
  let transformed_blob := shapeDestination self input_blob transformed_blob
  let height := transformed_blob.height
  let width := transformed_blob.width
  let size := transformed_blob.count
  CHECK 629 (decide (input_blob.num ≤ transformed_blob.num))
  CHECK 630 (decide (input_blob.channels = transformed_blob.channels))
  CHECK 631 (decide (input_blob.height ≥ height))
  CHECK 632 (decide (input_blob.width ≥ width))
  let (do_mirror, self) ← self.drawMirror
  let (g, self) ← (if crop_size ≠ 0 then do
      CHECK 643 (decide (crop_size = height))
      CHECK 644 (decide (crop_size = width))
      self.cropOffsets input_blob.height input_blob.width do_mirror
    else do
      CHECK 654 (decide (input_blob.height = height))
      CHECK 655 (decide (input_blob.width = width))
      pure ((⟨height, width, 0, 0, do_mirror⟩ : CropSpec), self))
  let input_data ← subtractMeanFile self input_blob
  let input_data ← subtractMeanValues self input_blob input_data
  let td ← blobCopy input_blob.num transformed_blob.channels input_blob.height
    input_blob.width g input_data transformed_blob.data
  let td ← (if self.param_.scale ≠ 1 then caffe_scal size self.param_.scale td else pure td)
  pure ⟨self, { input_blob with data := input_data }, { transformed_blob with data := td }, g⟩

/-- The function `InferBlobShape(const cv::Mat& cv_img)`, lines 765-782. -/
def InferBlobShapeMat (self : DataTransformer) (cv_img : Mat) : Except Fault (List Int) := do
  let crop_size := self.param_.crop_size
  CHECK 772 (decide (cv_img.channels > 0))
  CHECK 773 (decide (cv_img.rows ≥ crop_size))
  CHECK 774 (decide (cv_img.cols ≥ crop_size))
  pure [1, cv_img.channels, if crop_size ≠ 0 then crop_size else cv_img.rows,
    if crop_size ≠ 0 then crop_size else cv_img.cols]

/-- The function `InferBlobShape(const Datum& datum)`, lines 716-750, compiled
with `USE_OPENCV`. -/
def InferBlobShape (cv : OpenCV) (self : DataTransformer) (datum : Datum) :
    Except Fault (List Int) :=
  if datum.encoded then do
    CHECK 720 (!(self.param_.force_color && self.param_.force_gray))
    let cv_img : Mat :=
      if self.param_.force_color || self.param_.force_gray then
        cv.DecodeDatumToCVMat datum self.param_.force_color
      else cv.DecodeDatumToCVMatNative datum
    InferBlobShapeMat self cv_img
  else do
    let crop_size := self.param_.crop_size
    CHECK 740 (decide (datum.channels > 0))
    CHECK 741 (decide (datum.height ≥ crop_size))
    CHECK 742 (decide (datum.width ≥ crop_size))
    pure [1, datum.channels, if crop_size ≠ 0 then crop_size else datum.height,
      if crop_size ≠ 0 then crop_size else datum.width]

end DataTransformer

end caffe

namespace caffe

namespace Examples

/-- TEST phase, `crop_size` 0, no mirror, libc `rand()` returning `RAND_MAX`
on every call. -/
def maxRand (fpos : Nat) : DataTransformer :=
  ⟨⟨0, 1, false, false, [], false, false, false, [], []⟩, Phase.TEST, noMean, [], [], [],
    none, ⟨fun _ => RAND_MAX, fpos⟩⟩

end Examples

end caffe

namespace caffe

/-- One iteration of a loop that updates its array in place: for the
iteration `i` the element at `idx i` is read, `f i` gives the new value from
it, and the new value is stored at `idx i`. -/
def modStep {ι : Type} (f : ι → Dtype → Except Fault Dtype) (idx : ι → Int) (d : List Dtype)
    (i : ι) : Except Fault (List Dtype) := do
  let x ← readAt d (idx i)
  let v ← f i x
  writeAt d (idx i) v

/-- The value the copy loop of lines 688-709 stores at iteration
`(n, c, h, w)`. -/
def blobVal (channels : Int) (input_height : Int) (input_width : Int)
    (g : DataTransformer.CropSpec) (input_data : List Dtype) (p : Nat × Nat × Nat × Nat) :
    Except Fault Dtype :=
  readAt input_data
    ((((p.1 : Int) * channels + (p.2.1 : Int)) * input_height + g.h_off + (p.2.2.1 : Int)) *
      input_width + g.w_off + (p.2.2.2 : Int))

/-- The index the copy loop of lines 688-709 stores to at iteration
`(n, c, h, w)`. -/
def blobIdx (channels : Int) (g : DataTransformer.CropSpec) (p : Nat × Nat × Nat × Nat) : Int :=
  if g.do_mirror then
    (((p.1 : Int) * channels + (p.2.1 : Int)) * g.height + (p.2.2.1 : Int)) * g.width + g.width -
      1 - (p.2.2.2 : Int)
  else
    (((p.1 : Int) * channels + (p.2.1 : Int)) * g.height + (p.2.2.1 : Int)) * g.width +
      (p.2.2.2 : Int)

namespace DataTransformer

/-- The interpolation of lines 149-176 with the addressing the specification
states: the four scratch samples are at the planar positions
`(c * crop_h + row) * crop_w + col` for row in `h1`, `min(h1 + 1, crop_h - 1)`
and col in `w1`, `min(w1 + 1, crop_w - 1)`, and the value is written to the
destination index `(c * height + h2) * width + w2`. -/
def specBilinear (datum_channels : Int) (crop_h : Int) (crop_w : Int) (height : Int)
    (width : Int) (tmp : List Dtype) (transformed_data : List Dtype) :
    Except Fault (List Dtype) :=
  let rheight := floatRatio (crop_h - 1) (height - 1)
  let rwidth := floatRatio (crop_w - 1) (width - 1)
  forLoop height (fun td h2 => do
    let h1r ← scaledCoord rheight h2
    let h1 : Int := truncToInt h1r
    let h1n : Int := min (h1 + 1) (crop_h - 1)
    let h1lambda : Dtype := h1r - (h1 : ℚ)
    let h0lambda : Dtype := 1 - h1lambda
    forLoop width (fun td w2 => do
      let w1r ← scaledCoord rwidth w2
      let w1 : Int := truncToInt w1r
      let w1n : Int := min (w1 + 1) (crop_w - 1)
      let w1lambda : Dtype := w1r - (w1 : ℚ)
      let w0lambda : Dtype := 1 - w1lambda
      forLoop datum_channels (fun td c => do
        let p00 ← readAt tmp ((c * crop_h + h1) * crop_w + w1)
        let p01 ← readAt tmp ((c * crop_h + h1) * crop_w + w1n)
        let p10 ← readAt tmp ((c * crop_h + h1n) * crop_w + w1)
        let p11 ← readAt tmp ((c * crop_h + h1n) * crop_w + w1n)
        writeAt td ((c * height + h2) * width + w2)
          (h0lambda * (w0lambda * p00 + w1lambda * p01) +
            h1lambda * (w0lambda * p10 + w1lambda * p11))) td) td) transformed_data

end DataTransformer

namespace Examples

/-- A source tensor of one 3 by 3 single-channel sample. -/
def blob3x3 : Blob := ⟨1, 1, 3, 3, [1, 2, 3, 4, 5, 6, 7, 8, 9]⟩

/-- A destination tensor without elements. -/
def emptyBlob : Blob := ⟨0, 0, 0, 0, []⟩

/-- The result of `Transform(Blob, Blob)` by `cropTwo` on `blob3x3` with an
empty destination: the source has lost the mean value 1 in place and the
destination is the scaled 2 by 2 crop at the origin. -/
def cropTwoBlobResult : DataTransformer.BlobTransformResult :=
  ⟨cropTwo, ⟨1, 1, 3, 3, [0, 1, 2, 3, 4, 5, 6, 7, 8]⟩, ⟨1, 1, 2, 2, [0, 2, 6, 8]⟩,
    ⟨2, 2, 0, 0, false⟩⟩

/-- TRAIN phase, `crop_size` 0, mirror and random_crop enabled, area range
(1, 2), aspect range (1, 2), with the ranges already pushed `pushed` times, a
generator of zeros after `pos` draws and libc `rand()` returning 0 after
`fpos` draws: every draw gives the whole source area with aspect 1. -/
def wholeArea (pushed : Nat) (pos : Nat) (fpos : Nat) : DataTransformer :=
  ⟨⟨0, 1, true, false, [], false, false, true, [1, 2], [1, 2]⟩, Phase.TRAIN,
    noMean, [], (List.replicate pushed [1, 2]).flatten,
    (List.replicate pushed [1, 2]).flatten, some ⟨fun _ => 0, pos⟩, ⟨fun _ => 0, fpos⟩⟩

/-- TRAIN phase, `crop_size` 0, random_crop enabled, area range (1/100, 1/50),
aspect range (1, 2), with the ranges already pushed `pushed` times, no
generator behind `rng_`, and libc `rand()` returning 0 after `fpos` draws.  On
a 2 by 2 source the drawn area is 1/25 of a pixel. -/
def tinyArea (pushed : Nat) (fpos : Nat) : DataTransformer :=
  ⟨⟨0, 1, false, false, [], false, false, true, [1 / 100, 1 / 50], [1, 2]⟩, Phase.TRAIN,
    noMean, [], (List.replicate pushed [1 / 100, 1 / 50]).flatten,
    (List.replicate pushed [1, 2]).flatten, none, ⟨fun _ => 0, fpos⟩⟩

end Examples

end caffe

namespace caffe

namespace Examples

/-- A 2 by 2 single-channel image of bytes. -/
def image2x2 : Mat := ⟨2, 2, 1, CV_8U, some [[1, 2], [3, 4]]⟩

/-- TRAIN phase, `crop_size` 2, random_crop enabled, no mirror, area range
(1, 2), aspect range (1, 2), with the ranges already pushed `pushed` times, no
generator behind `rng_`, and libc `rand()` returning 0 after `fpos` draws. -/
def attentionWhole (pushed : Nat) (fpos : Nat) : DataTransformer :=
  ⟨⟨2, 1, false, false, [], false, false, true, [1, 2], [1, 2]⟩, Phase.TRAIN,
    noMean, [], (List.replicate pushed [1, 2]).flatten,
    (List.replicate pushed [1, 2]).flatten, none, ⟨fun _ => 0, fpos⟩⟩

end Examples

end caffe

namespace caffe

namespace Examples

/-- TEST phase, `crop_size` 0, `scale` 0, one mean value 1, no mirror. -/
def zeroScale : DataTransformer :=
  ⟨⟨0, 0, false, false, [1], false, false, false, [], []⟩, Phase.TEST, noMean, [1], [], [],
    none, zeroRng⟩

/-- A source tensor of one 1 by 2 single-channel sample. -/
def blob1x2 : Blob := ⟨1, 1, 1, 2, [5, 6]⟩

/-- The result of `Transform(Blob, Blob)` by `cropTwo` on the source tensor
that `cropTwoBlobResult` holds, with an empty destination: the source has lost
the mean value 1 a second time. -/
def cropTwoBlobSecond : DataTransformer.BlobTransformResult :=
  ⟨cropTwo, ⟨1, 1, 3, 3, [-1, 0, 1, 2, 3, 4, 5, 6, 7]⟩, ⟨1, 1, 2, 2, [-2, 0, 4, 6]⟩,
    ⟨2, 2, 0, 0, false⟩⟩

end Examples

end caffe

namespace caffe

namespace DataTransformer

/-- The object with normalisation switched off: `scale` 1, no mean file and no
mean constants, so that the copy loop of lines 123-148 stores the raw source
element. -/
def unnormalized (self : DataTransformer) : DataTransformer :=
  { self with
    param_ := { self.param_ with scale := 1, has_mean_file := false }
    mean_values_ := [] }

end DataTransformer

end caffe

namespace caffe

namespace DataTransformer

/-- The specification's order for the random-area path, in the addressing the
specification states: the raw crop samples `raw` (planar, row stride `crop_w`)
are interpolated at the four positions `(c, h1, w1)`,
`(c, h1, min(w1 + 1, crop_w - 1))`, `(c, min(h1 + 1, crop_h - 1), w1)`,
`(c, min(h1 + 1, crop_h - 1), min(w1 + 1, crop_w - 1))` with the weights of
lines 153-162, and the interpolated value `B` of channel `c` is then
normalised to `(B - mean_values_[c]) * scale`, or to `B * scale` when no mean
constants are configured, and written to the destination index
`(c * height + h2) * width + w2`. -/
def resampleThenNormalize (self : DataTransformer) (datum_channels : Int) (crop_h : Int)
    (crop_w : Int) (height : Int) (width : Int) (raw : List Dtype)
    (transformed_data : List Dtype) : Except Fault (List Dtype) :=
  let rheight := floatRatio (crop_h - 1) (height - 1)
  let rwidth := floatRatio (crop_w - 1) (width - 1)
  forLoop height (fun td h2 => do
    let h1r ← scaledCoord rheight h2
    let h1 : Int := truncToInt h1r
    let h1n : Int := min (h1 + 1) (crop_h - 1)
    let h1lambda : Dtype := h1r - (h1 : ℚ)
    let h0lambda : Dtype := 1 - h1lambda
    forLoop width (fun td w2 => do
      let w1r ← scaledCoord rwidth w2
      let w1 : Int := truncToInt w1r
      let w1n : Int := min (w1 + 1) (crop_w - 1)
      let w1lambda : Dtype := w1r - (w1 : ℚ)
      let w0lambda : Dtype := 1 - w1lambda
      forLoop datum_channels (fun td c => do
        let p00 ← readAt raw ((c * crop_h + h1) * crop_w + w1)
        let p01 ← readAt raw ((c * crop_h + h1) * crop_w + w1n)
        let p10 ← readAt raw ((c * crop_h + h1n) * crop_w + w1)
        let p11 ← readAt raw ((c * crop_h + h1n) * crop_w + w1n)
        let B : Dtype := h0lambda * (w0lambda * p00 + w1lambda * p01) +
          h1lambda * (w0lambda * p10 + w1lambda * p11)
        if self.mean_values_.length > 0 then do
          let m ← readAt self.mean_values_ c
          writeAt td ((c * height + h2) * width + w2) ((B - m) * self.param_.scale)
        else writeAt td ((c * height + h2) * width + w2) (B * self.param_.scale)) td) td)
    transformed_data

end DataTransformer

namespace Examples

/-- An OpenCV whose sub-matrix operator returns the rows and columns of the
rectangle when it lies inside the image and throws otherwise, whose
`cv::resize` to the size the matrix already has returns it and throws
otherwise, and whose codec decodes to empty matrices. -/
def subMatrixCodec : OpenCV :=
  ⟨fun _ _ => ⟨0, 0, 0, 0, none⟩, fun _ => ⟨0, 0, 0, 0, none⟩,
    fun m x y w h =>
      if 0 ≤ x ∧ 0 ≤ w ∧ x + w ≤ m.cols ∧ 0 ≤ y ∧ 0 ≤ h ∧ y + h ≤ m.rows then
        some ⟨h, w, m.channels, m.depth,
          m.data.map (fun rows => ((rows.drop y.toNat).take h.toNat).map
            (fun r => (r.drop (x * m.channels).toNat).take (w * m.channels).toNat))⟩
      else none,
    fun m w h => if w = m.cols ∧ h = m.rows then some m else none⟩

/-- A 3 by 3 single-channel image of bytes. -/
def image3x3 : Mat := ⟨3, 3, 1, CV_8U, some [[1, 2, 3], [4, 5, 6], [7, 8, 9]]⟩

/-- TRAIN phase, `crop_size` 2, random_crop enabled, no mirror, area range
(1/2, 1), aspect range (1/2, 1), with the ranges already pushed `pushed`
times, no generator behind `rng_`, and libc `rand()` returning `RAND_MAX`
after `fpos` draws: every draw of `Randfloat` gives its upper bound. -/
def attentionCut (pushed : Nat) (fpos : Nat) : DataTransformer :=
  ⟨⟨2, 1, false, false, [], false, false, true, [1 / 2, 1], [1 / 2, 1]⟩, Phase.TRAIN,
    noMean, [], (List.replicate pushed [1 / 2, 1]).flatten,
    (List.replicate pushed [1 / 2, 1]).flatten, none, ⟨fun _ => RAND_MAX, fpos⟩⟩

/-- The result of `Attention_Transform` by `attentionCut 0 0` on `image3x3`
with the weight map whose only nonzero cell is (2, 2): the centre is (2, 2),
the sampled extent 3 by 3 is cut to 2 by 2 at the origin (1, 1). -/
def attentionCutResult : DataTransformer.AttentionResult :=
  ⟨attentionCut 1 4, ⟨1, 1, 2, 2, [5, 6, 8, 9]⟩, [0, 0, 0, 0, 0, 0, 0, 0, 1], 2, 2, 1, 1⟩

/-- As `randomArea`, with the mean constant 1 and `scale` 2. -/
def randomAreaMean (pushed : Nat) (pos : Nat) (fpos : Nat) : DataTransformer :=
  ⟨⟨0, 2, true, false, [1], false, false, true, [1 / 4, 3 / 8], [1, 3 / 2]⟩, Phase.TRAIN,
    noMean, [1], (List.replicate pushed [1 / 4, 3 / 8]).flatten,
    (List.replicate pushed [1, 3 / 2]).flatten, some (secondOneRng pos), ⟨fun _ => 0, fpos⟩⟩

end Examples

end caffe
namespace caffe

theorem bind_ok_eq {α β : Type} (a : α) (f : α → Except Fault β) :
    (Except.ok a >>= f) = f a := rfl

theorem bind_error_eq {α β : Type} (e : Fault) (f : α → Except Fault β) :
    ((Except.error e : Except Fault α) >>= f) = Except.error e := rfl

theorem bind_eq_ok_iff {α β : Type} {x : Except Fault α} {f : α → Except Fault β} {b : β} :
    (x >>= f) = Except.ok b ↔ ∃ a, x = Except.ok a ∧ f a = Except.ok b := by
  cases x with
  | error e => simp [bind_error_eq]
  | ok a => simp [bind_ok_eq]

theorem foldlM_product {α β σ : Type} (l₁ : List α) (l₂ : List β)
    (f : σ → α × β → Except Fault σ) (s : σ) :
    (l₁ ×ˢ l₂).foldlM f s = l₁.foldlM (fun s a => l₂.foldlM (fun s b => f s (a, b)) s) s := by
  induction l₁ generalizing s with
  | nil => rfl
  | cons a l ih =>
    rw [List.product_cons, List.foldlM_append, List.foldlM_map, List.foldlM_cons]
    congr 1
    funext s1
    exact ih s1


theorem writeAt_eq_ok {a : List Dtype} {i : Int} {v : Dtype} {b : List Dtype}
    (h : writeAt a i v = Except.ok b) : 0 ≤ i ∧ i < a.length ∧ b = a.set i.toNat v := by
  unfold writeAt at h
  split at h
  · rename_i hi
    cases h
    exact ⟨hi.1, hi.2, rfl⟩
  · cases h

theorem readAt_eq_ok {α : Type} {a : List α} {i : Int} {x : α}
    (h : readAt a i = Except.ok x) : 0 ≤ i ∧ a[i.toNat]? = some x := by
  unfold readAt at h
  split at h
  · rename_i hi
    split at h
    · rename_i y hy
      cases h
      exact ⟨hi, hy⟩
    · cases h
  · cases h

theorem foldlM_writeStep_spec {ι : Type} (val : ι → Except Fault Dtype) (idx : ι → Int)
    (l : List ι) (td td' : List Dtype)
    (h : l.foldlM (writeStep val idx) td = Except.ok td') :
    td'.length = td.length ∧
    (∀ i ∈ l, ∃ v, val i = Except.ok v ∧ 0 ≤ idx i ∧ idx i < td.length) ∧
    (∀ j : Nat, (∀ i ∈ l, idx i ≠ (j : Int)) → td'[j]? = td[j]?) ∧
    (l.Nodup → (∀ i ∈ l, ∀ k ∈ l, idx i = idx k → i = k) →
      ∀ i ∈ l, ∀ v, val i = Except.ok v → td'[(idx i).toNat]? = some v) := by
  induction l generalizing td with
  | nil =>
    cases h
    simp
  | cons a l ih =>
    rw [List.foldlM_cons, bind_eq_ok_iff] at h
    obtain ⟨td1, h1, h2⟩ := h
    unfold writeStep at h1
    rw [bind_eq_ok_iff] at h1
    obtain ⟨v, hv, hw⟩ := h1
    obtain ⟨hi0, hi1, rfl⟩ := writeAt_eq_ok hw
    obtain ⟨hlen, hall, hframe, hval⟩ := ih _ h2
    have hlen' : (td.set (idx a).toNat v).length = td.length := by simp
    refine ⟨by rw [hlen, hlen'], ?_, ?_, ?_⟩
    · intro i hi
      rcases List.mem_cons.1 hi with rfl | hi
      · exact ⟨v, hv, hi0, hi1⟩
      · obtain ⟨v', hv', h0, h1⟩ := hall i hi
        exact ⟨v', hv', h0, by rw [hlen'] at h1; exact h1⟩
    · intro j hj
      rw [hframe j (fun i hi => hj i (List.mem_cons_of_mem _ hi))]
      rw [List.getElem?_set]
      have : idx a ≠ (j : Int) := hj a (List.mem_cons_self _ _)
      have hne : (idx a).toNat ≠ j := by omega
      simp [hne]
    · intro hnd hinj i hi v' hv'
      rcases List.mem_cons.1 hi with rfl | hi
      · have hv2 : v' = v := by rw [hv] at hv'; cases hv'; rfl
        subst hv2
        have hnot : ∀ k ∈ l, idx k ≠ (((idx i).toNat : Nat) : Int) := by
          intro k hk hkeq
          have : idx k = idx i := by omega
          have hki : k = i := hinj k (List.mem_cons_of_mem _ hk) i (List.mem_cons_self _ _) this
          subst hki
          exact (List.nodup_cons.1 hnd).1 hk
        rw [hframe _ hnot, List.getElem?_set]
        have : (idx i).toNat < td.length := by omega
        simp [this]
      · exact hval (List.nodup_cons.1 hnd).2
          (fun i hi k hk => hinj i (List.mem_cons_of_mem _ hi) k (List.mem_cons_of_mem _ hk))
          i hi v' hv'

theorem foldlM_writeStep_ok {ι : Type} (val : ι → Except Fault Dtype) (idx : ι → Int)
    (l : List ι) (td : List Dtype)
    (h : ∀ i ∈ l, ∃ v, val i = Except.ok v ∧ 0 ≤ idx i ∧ idx i < td.length) :
    ∃ td', l.foldlM (writeStep val idx) td = Except.ok td' := by
  induction l generalizing td with
  | nil => exact ⟨td, rfl⟩
  | cons a l ih =>
    obtain ⟨v, hv, h0, h1⟩ := h a (List.mem_cons_self _ _)
    have hstep : writeStep val idx td a = Except.ok (td.set (idx a).toNat v) := by
      unfold writeStep
      rw [hv, bind_ok_eq]
      unfold writeAt
      rw [if_pos ⟨h0, h1⟩]
      rfl
    rw [List.foldlM_cons, hstep, bind_ok_eq]
    apply ih
    intro i hi
    obtain ⟨v', hv', h0', h1'⟩ := h i (List.mem_cons_of_mem _ hi)
    exact ⟨v', hv', h0', by simpa using h1'⟩

end caffe

namespace caffe

open DataTransformer

theorem directCopy_eq_foldlM (self : DataTransformer) (datum : Datum) (g : CropSpec)
    (td : List Dtype) :
    directCopy self datum g td =
      (box datum.channels g.height g.width).foldlM
        (writeStep (copyVal self datum g) (copyIdx g)) td := by
  unfold directCopy forLoop box
  rw [foldlM_product]
  simp only [foldlM_product]
  rfl

theorem mem_box {C H W : Int} {p : Nat × Nat × Nat} :
    p ∈ box C H W ↔ (p.1 : Int) < C ∧ (p.2.1 : Int) < H ∧ (p.2.2 : Int) < W := by
  obtain ⟨c, h, w⟩ := p
  simp only [box, List.mem_product, List.mem_range]
  omega

theorem nodup_box (C H W : Int) : (box C H W).Nodup :=
  List.Nodup.product (List.nodup_range _)
    (List.Nodup.product (List.nodup_range _) (List.nodup_range _))

theorem stride_unique {W a b x y : Int} (hx : 0 ≤ x) (hxW : x < W) (hy : 0 ≤ y)
    (hyW : y < W) (h : a * W + x = b * W + y) : a = b ∧ x = y := by
  have hab : a = b := by
    rcases lt_trichotomy a b with hlt | heq | hgt
    · exfalso
      have : (b - a) * W ≥ 1 * W := Int.mul_le_mul_of_nonneg_right (by omega) (by omega)
      nlinarith
    · exact heq
    · exfalso
      have : (a - b) * W ≥ 1 * W := Int.mul_le_mul_of_nonneg_right (by omega) (by omega)
      nlinarith
  subst hab
  exact ⟨rfl, by linarith⟩

theorem mirrorIndex_eq (m : Bool) (H W c h w : Int) :
    mirrorIndex m H W c h w = (c * H + h) * W + (if m then W - 1 - w else w) := by
  unfold mirrorIndex
  cases m <;> simp

theorem mirrorIndex_inj {m : Bool} {H W c h w c' h' w' : Int}
    (hh : 0 ≤ h) (hhH : h < H) (hw : 0 ≤ w) (hwW : w < W)
    (hh' : 0 ≤ h') (hhH' : h' < H) (hw' : 0 ≤ w') (hwW' : w' < W)
    (heq : mirrorIndex m H W c h w = mirrorIndex m H W c' h' w') :
    c = c' ∧ h = h' ∧ w = w' := by
  rw [mirrorIndex_eq, mirrorIndex_eq] at heq
  have h1 : c * H + h = c' * H + h' ∧
      (if m then W - 1 - w else w) = (if m then W - 1 - w' else w') := by
    apply stride_unique _ _ _ _ heq <;> cases m <;> simp <;> omega
  obtain ⟨h2, h3⟩ := stride_unique hh hhH hh' hhH' h1.1
  refine ⟨h2, h3, ?_⟩
  have := h1.2
  cases m <;> simp at this <;> omega

theorem mirrorIndex_bounds {m : Bool} {C H W c h w : Int}
    (hc : 0 ≤ c) (hcC : c < C) (hh : 0 ≤ h) (hhH : h < H) (hw : 0 ≤ w) (hwW : w < W) :
    0 ≤ mirrorIndex m H W c h w ∧ mirrorIndex m H W c h w < C * H * W := by
  rw [mirrorIndex_eq]
  have hx : 0 ≤ (if m then W - 1 - w else w) ∧ (if m then W - 1 - w else w) ≤ W - 1 := by
    cases m <;> simp <;> omega
  have h1 : 0 ≤ c * H := mul_nonneg hc (by omega)
  have h2 : 0 ≤ (c * H + h) * W := mul_nonneg (by omega) (by omega)
  have h3 : c * H + h ≤ C * H - 1 := by nlinarith
  have h4 : (c * H + h) * W ≤ (C * H - 1) * W := Int.mul_le_mul_of_nonneg_right h3 (by omega)
  constructor
  · omega
  · nlinarith

theorem copyIdx_inj (g : CropSpec) (C : Int) :
    ∀ i ∈ box C g.height g.width, ∀ k ∈ box C g.height g.width,
      copyIdx g i = copyIdx g k → i = k := by
  rintro ⟨c, h, w⟩ hi ⟨c', h', w'⟩ hk heq
  rw [mem_box] at hi hk
  simp only at hi hk
  unfold copyIdx at heq
  simp only at heq
  obtain ⟨h1, h2, h3⟩ := mirrorIndex_inj (by omega) hi.2.1 (by omega) hi.2.2 (by omega) hk.2.1
    (by omega) hk.2.2 heq
  simp only [Prod.mk.injEq]
  omega

/-- What a successful direct copy leaves in the destination. -/
theorem directCopy_spec {self : DataTransformer} {datum : Datum} {g : CropSpec}
    {td td' : List Dtype} (h : directCopy self datum g td = Except.ok td') :
    td'.length = td.length ∧
    (∀ c h w : Int, 0 ≤ c → c < datum.channels → 0 ≤ h → h < g.height → 0 ≤ w → w < g.width →
      ∃ v, normalized self datum c (dataIndex datum g.h_off g.w_off c h w) = Except.ok v ∧
        mirrorIndex g.do_mirror g.height g.width c h w < td.length ∧
        td'[(mirrorIndex g.do_mirror g.height g.width c h w).toNat]? = some v) ∧
    (∀ j : Nat, datum.channels * g.height * g.width ≤ (j : Int) → td'[j]? = td[j]?) := by
  rw [directCopy_eq_foldlM] at h
  obtain ⟨hlen, hall, hframe, hval⟩ := foldlM_writeStep_spec _ _ _ _ _ h
  refine ⟨hlen, ?_, ?_⟩
  · intro c h w hc hcC hh hhH hw hwW
    have hmem : (c.toNat, h.toNat, w.toNat) ∈ box datum.channels g.height g.width := by
      rw [mem_box]
      simp only
      omega
    obtain ⟨v, hv, h0, h1⟩ := hall _ hmem
    have hval' := hval (nodup_box _ _ _) (copyIdx_inj g _) _ hmem v hv
    have e1 : ((c.toNat : Nat) : Int) = c := Int.toNat_of_nonneg hc
    have e2 : ((h.toNat : Nat) : Int) = h := Int.toNat_of_nonneg hh
    have e3 : ((w.toNat : Nat) : Int) = w := Int.toNat_of_nonneg hw
    simp only [copyVal, copyIdx, e1, e2, e3] at hv h1 hval'
    exact ⟨v, hv, h1, hval'⟩
  · intro j hj
    apply hframe
    rintro ⟨c, h, w⟩ hi heq
    rw [mem_box] at hi
    simp only at hi
    have := (mirrorIndex_bounds (m := g.do_mirror) (C := datum.channels) (H := g.height)
      (W := g.width) (c := (c : Int)) (h := (h : Int)) (w := (w : Int))
      (by omega) hi.1 (by omega) hi.2.1 (by omega) hi.2.2).2
    simp only [copyIdx] at heq
    omega

/-- A direct copy whose reads and writes are in range returns. -/
theorem directCopy_ok {self : DataTransformer} {datum : Datum} {g : CropSpec}
    {td : List Dtype}
    (hread : ∀ c h w : Int, 0 ≤ c → c < datum.channels → 0 ≤ h → h < g.height → 0 ≤ w →
      w < g.width →
      ∃ v, normalized self datum c (dataIndex datum g.h_off g.w_off c h w) = Except.ok v)
    (hlen : datum.channels * g.height * g.width ≤ td.length) :
    ∃ td', directCopy self datum g td = Except.ok td' := by
  rw [directCopy_eq_foldlM]
  apply foldlM_writeStep_ok
  rintro ⟨c, h, w⟩ hi
  rw [mem_box] at hi
  simp only at hi
  obtain ⟨v, hv⟩ := hread c h w (by omega) hi.1 (by omega) hi.2.1 (by omega) hi.2.2
  have hb := mirrorIndex_bounds (m := g.do_mirror) (C := datum.channels) (H := g.height)
      (W := g.width) (c := (c : Int)) (h := (h : Int)) (w := (w : Int))
      (by omega) hi.1 (by omega) hi.2.1 (by omega) hi.2.2
  exact ⟨v, hv, hb.1, by simp only [copyIdx]; omega⟩

end caffe

namespace caffe

open DataTransformer

theorem pure_eq_ok {α : Type} (a : α) : (pure a : Except Fault α) = Except.ok a := rfl

theorem throw_eq_error {α : Type} (e : Fault) : (throw e : Except Fault α) = Except.error e :=
  rfl

theorem CHECK_eq_ok_iff {line : Nat} {cond : Bool} :
    CHECK line cond = Except.ok () ↔ cond = true := by
  unfold CHECK
  cases cond <;> simp [pure_eq_ok, throw_eq_error]

theorem CHECK_bind_eq_ok_iff {β : Type} {line : Nat} {cond : Bool}
    {f : Unit → Except Fault β} {b : β} :
    (CHECK line cond >>= f) = Except.ok b ↔ cond = true ∧ f () = Except.ok b := by
  unfold CHECK
  cases cond <;> simp [pure_eq_ok, throw_eq_error, bind_ok_eq, bind_error_eq]

theorem CHECK_true (line : Nat) : CHECK line true = Except.ok () := rfl

theorem CHECK_false (line : Nat) : CHECK line false = Except.error (Fault.check line) := rfl

theorem Rand_eq_ok {t t' : DataTransformer} {n r : Int} (h : t.Rand n = Except.ok (r, t')) :
    t' = { t with rng_ := t'.rng_ } ∧ t.rng_ ≠ none ∧ 0 < n ∧ 0 ≤ r ∧ r < n := by
  unfold DataTransformer.Rand at h
  split at h
  · cases h
  · rename_i g hg
    split at h
    · rename_i hn
      simp only [pure_eq_ok, Except.ok.injEq, Prod.mk.injEq] at h
      obtain ⟨h1, h2⟩ := h
      subst h1 h2
      refine ⟨rfl, by simp [hg], hn, Int.emod_nonneg _ (by omega), Int.emod_lt_of_pos _ hn⟩
    · cases h

theorem drawMirror_eq_ok {t t' : DataTransformer} {b : Bool}
    (h : t.drawMirror = Except.ok (b, t')) :
    t' = { t with rng_ := t'.rng_ } ∧ (t.param_.mirror = false → b = false ∧ t' = t) := by
  unfold drawMirror at h
  split at h
  · rename_i hm
    rw [bind_eq_ok_iff] at h
    obtain ⟨⟨r, s⟩, h1, h2⟩ := h
    simp only [pure_eq_ok, Except.ok.injEq, Prod.mk.injEq] at h2
    obtain ⟨-, rfl⟩ := h2
    exact ⟨(Rand_eq_ok h1).1, fun hf => by simp [hf] at hm⟩
  · simp only [pure_eq_ok, Except.ok.injEq, Prod.mk.injEq] at h
    obtain ⟨rfl, rfl⟩ := h
    exact ⟨rfl, fun _ => ⟨rfl, rfl⟩⟩

theorem drawMirror_of_not_mirror {t : DataTransformer} (h : t.param_.mirror = false) :
    t.drawMirror = Except.ok (false, t) := by
  unfold drawMirror
  simp [h, pure_eq_ok]

theorem checkDatum_eq_ok_iff {t : DataTransformer} {datum : Datum} :
    checkDatum t datum = Except.ok () ↔
      (0 < datum.channels ∧ t.param_.crop_size ≤ datum.height ∧
        t.param_.crop_size ≤ datum.width ∧
        (t.param_.has_mean_file = true →
          datum.channels = t.data_mean_.channels ∧ datum.height = t.data_mean_.height ∧
            datum.width = t.data_mean_.width)) := by
  unfold checkDatum
  simp only [CHECK_bind_eq_ok_iff, decide_eq_true_eq, gt_iff_lt, ge_iff_le]
  by_cases hm : t.param_.has_mean_file = true
  · simp only [hm, if_true, CHECK_bind_eq_ok_iff, CHECK_eq_ok_iff, decide_eq_true_eq,
      forall_true_left]
  · simp only [hm, if_false, pure_eq_ok, and_true, false_implies, Bool.false_eq_true]

theorem checkDatum_error {t : DataTransformer} {datum : Datum} {e : Fault}
    (h : checkDatum t datum = Except.error e) :
    e = Fault.check 59 ∨ e = Fault.check 60 ∨ e = Fault.check 61 ∨ e = Fault.check 65 ∨
      e = Fault.check 66 ∨ e = Fault.check 67 := by
  unfold checkDatum CHECK at h
  simp only [pure_eq_ok, throw_eq_error] at h
  repeat' split at h
  all_goals simp_all [bind_ok_eq, bind_error_eq]

theorem foldl_push_head_aux (m : Dtype) (l : List Nat) (k : Nat) :
    l.foldl (fun (v : List Dtype) _ => v ++ [v.headD 0]) (List.replicate (k + 1) m) =
      List.replicate (k + 1 + l.length) m := by
  induction l generalizing k with
  | nil => rfl
  | cons a l ih =>
    have hstep : List.replicate (k + 1) m ++ [(List.replicate (k + 1) m).headD 0] =
        List.replicate (k + 1 + 1) m := by
      rw [List.replicate_succ' (n := k + 1)]
      simp [List.replicate_succ]
    rw [List.foldl_cons, hstep, ih (k + 1), List.length_cons]
    congr 1
    omega

theorem foldl_push_head (m : Dtype) (n : Nat) :
    (List.range n).foldl (fun (v : List Dtype) _ => v ++ [v.headD 0]) [m] =
      List.replicate (n + 1) m := by
  have h := foldl_push_head_aux m (List.range n) 0
  simp only [List.length_range] at h
  rw [show [m] = List.replicate (0 + 1) m from rfl, h]
  congr 1
  omega

theorem replicateMeanValues_eq_ok {t t' : DataTransformer} {line : Nat} {C : Int}
    (hC : 0 < C) (h : t.replicateMeanValues line C = Except.ok t') :
    t' = { t with mean_values_ := expandMeanValues t.mean_values_ C } ∧
      (t.mean_values_.length > 0 →
        (t.mean_values_.length = 1 ∨ (t.mean_values_.length : Int) = C)) := by
  unfold replicateMeanValues at h
  split at h
  · rw [bind_eq_ok_iff] at h
    obtain ⟨_, h1, h2⟩ := h
    rw [CHECK_eq_ok_iff] at h1
    have hchk := of_decide_eq_true h1
    refine ⟨?_, fun _ => hchk⟩
    split at h2
    · rename_i hc
      cases h2
      obtain ⟨m, hm⟩ := List.length_eq_one.1 hc.2
      congr 1
      unfold expandMeanValues
      rw [if_pos hc.2, hm, foldl_push_head]
      simp only [List.headD_cons]
      congr 1
      omega
    · rename_i hc
      cases h2
      unfold expandMeanValues
      split
      · rename_i hlen
        obtain ⟨m, hm⟩ := List.length_eq_one.1 hlen
        have hC1 : C = 1 := by
          by_contra hne
          exact hc ⟨by omega, hlen⟩
        subst hC1
        have hrep : List.replicate (Int.toNat 1) (t.mean_values_.headD 0) = t.mean_values_ := by
          rw [hm]
          rfl
        rw [hrep]
      · rfl
  · rename_i hlen
    cases h
    refine ⟨?_, fun hpos => absurd hpos hlen⟩
    unfold expandMeanValues
    have : t.mean_values_.length ≠ 1 := by omega
    rw [if_neg this]

theorem cropOffsets_eq_ok {t t' : DataTransformer} {H W : Int} {b : Bool} {g : CropSpec}
    (h : t.cropOffsets H W b = Except.ok (g, t')) :
    t' = { t with rng_ := t'.rng_ } ∧ g.do_mirror = b ∧
      g.height = (if t.param_.crop_size ≠ 0 then t.param_.crop_size else H) ∧
      g.width = (if t.param_.crop_size ≠ 0 then t.param_.crop_size else W) ∧
      (t.param_.crop_size = 0 → g.h_off = 0 ∧ g.w_off = 0 ∧ t' = t) ∧
      (t.phase_ ≠ Phase.TRAIN → t.param_.crop_size ≠ 0 →
        g.h_off = Int.tdiv (H - t.param_.crop_size) 2 ∧
          g.w_off = Int.tdiv (W - t.param_.crop_size) 2 ∧ t' = t) := by
  unfold cropOffsets at h
  simp only at h
  split at h
  · rename_i hc
    split at h
    · rename_i hp
      rw [bind_eq_ok_iff] at h
      obtain ⟨⟨r1, s1⟩, h1, h2⟩ := h
      simp only at h2
      rw [bind_eq_ok_iff] at h2
      obtain ⟨⟨r2, s2⟩, h3, h4⟩ := h2
      simp only [pure_eq_ok, Except.ok.injEq, Prod.mk.injEq] at h4
      obtain ⟨rfl, rfl⟩ := h4
      have e1 := (Rand_eq_ok h1).1
      have e2 := (Rand_eq_ok h3).1
      refine ⟨?_, rfl, by simp [hc], by simp [hc], fun h0 => absurd h0 hc,
        fun hp' => absurd hp hp'⟩
      rw [e2, e1]
    · rename_i hp
      simp only [pure_eq_ok, Except.ok.injEq, Prod.mk.injEq] at h
      obtain ⟨rfl, rfl⟩ := h
      exact ⟨rfl, rfl, by simp [hc], by simp [hc], fun h0 => absurd h0 hc,
        fun _ _ => ⟨rfl, rfl, rfl⟩⟩
  · rename_i hc
    simp only [pure_eq_ok, Except.ok.injEq, Prod.mk.injEq] at h
    obtain ⟨rfl, rfl⟩ := h
    have hc0 : t.param_.crop_size = 0 := by
      by_contra hne
      exact hc hne
    exact ⟨rfl, rfl, by simp [hc0], by simp [hc0], fun _ => ⟨rfl, rfl, rfl⟩,
      fun _ hne => absurd hc0 hne⟩

/-- The stages a returning call of `Transform` on the direct-copy path went
through. -/
theorem Transform_direct_inv {t : DataTransformer} {datum : Datum} {buf : List Dtype}
    {r : TransformResult}
    (hpath : ¬ (t.param_.random_crop = true ∧ t.phase_ = Phase.TRAIN))
    (h : t.Transform datum buf = Except.ok r) :
    ∃ t1 : DataTransformer,
      t.drawMirror = Except.ok (r.crop.do_mirror, t1) ∧
      checkDatum t1 datum = Except.ok () ∧
      ({ t1 with mean_values_ := expandMeanValues t.mean_values_ datum.channels } :
          DataTransformer).cropOffsets datum.height datum.width r.crop.do_mirror =
        Except.ok (r.crop, r.self) ∧
      (t.mean_values_.length > 0 →
        (t.mean_values_.length = 1 ∨ (t.mean_values_.length : Int) = datum.channels)) ∧
      r.self = { t with rng_ := r.self.rng_,
                        mean_values_ := expandMeanValues t.mean_values_ datum.channels } ∧
      directCopy r.self datum r.crop buf = Except.ok r.transformed_data := by
  unfold Transform at h
  rw [bind_eq_ok_iff] at h
  obtain ⟨⟨b, t1⟩, h1, h⟩ := h
  simp only at h
  rw [bind_eq_ok_iff] at h
  obtain ⟨_, h2, h⟩ := h
  rw [bind_eq_ok_iff] at h
  obtain ⟨t2, h3, h⟩ := h
  unfold cropAndCopy at h
  rw [bind_eq_ok_iff] at h
  obtain ⟨⟨g, t3⟩, h4, h⟩ := h
  simp only at h
  have e1 := (drawMirror_eq_ok h1).1
  have hC := (checkDatum_eq_ok_iff.1 h2).1
  obtain ⟨e2, hlen⟩ := replicateMeanValues_eq_ok hC h3
  have hmv1 : t1.mean_values_ = t.mean_values_ := by rw [e1]
  rw [hmv1] at e2 hlen
  obtain ⟨e3, hb, -⟩ := cropOffsets_eq_ok h4
  have hp3 : t3.param_ = t.param_ := by rw [e3, e2, e1]
  have hph3 : t3.phase_ = t.phase_ := by rw [e3, e2, e1]
  rw [hp3, hph3] at h
  rw [if_neg (by simpa using hpath)] at h
  rw [bind_eq_ok_iff] at h
  obtain ⟨td, h5, h6⟩ := h
  simp only [pure_eq_ok, Except.ok.injEq] at h6
  subst h6
  simp only
  subst hb
  refine ⟨t1, h1, h2, by rw [← e2]; exact h4, hlen, ?_, h5⟩
  rw [e3, e2, e1]

end caffe

namespace caffe

open DataTransformer

theorem normalized_eq_ok {s : DataTransformer} {datum : Datum} {c i : Int} {v : Dtype}
    (h : normalized s datum c i = Except.ok v) :
    ∃ x mean : Dtype, datumElement datum i = Except.ok x ∧
      (if s.param_.has_mean_file then s.data_mean_.data[i.toNat]?
        else if s.mean_values_.length > 0 then s.mean_values_[c.toNat]? else some 0) =
        some mean ∧
      v = (x - mean) * s.param_.scale := by
  unfold normalized at h
  rw [bind_eq_ok_iff] at h
  obtain ⟨x, hx, h⟩ := h
  refine ⟨x, ?_⟩
  split at h
  · rename_i hm
    rw [bind_eq_ok_iff] at h
    obtain ⟨m, h1, h2⟩ := h
    cases h2
    exact ⟨m, hx, by rw [if_pos hm]; exact (readAt_eq_ok h1).2, rfl⟩
  · rename_i hm
    split at h
    · rename_i hv
      rw [bind_eq_ok_iff] at h
      obtain ⟨m, h1, h2⟩ := h
      cases h2
      exact ⟨m, hx, by rw [if_neg hm, if_pos hv]; exact (readAt_eq_ok h1).2, rfl⟩
    · rename_i hv
      cases h
      exact ⟨0, hx, by rw [if_neg hm, if_neg hv], by simp⟩

theorem expandMeanValues_length_pos {mv : List Dtype} {C : Int} (hC : 0 < C) :
    (expandMeanValues mv C).length > 0 ↔ mv.length > 0 := by
  unfold expandMeanValues
  split
  · rename_i h
    simp only [List.length_replicate]
    omega
  · rfl

/-- The destination after a returning call of `Transform` on the direct-copy
path, element by element. -/
theorem Transform_direct_spec {t : DataTransformer} {datum : Datum} {buf : List Dtype}
    {r : TransformResult}
    (hpath : ¬ (t.param_.random_crop = true ∧ t.phase_ = Phase.TRAIN))
    (hrun : t.Transform datum buf = Except.ok r) :
    0 < datum.channels ∧
    r.crop.height = (if t.param_.crop_size ≠ 0 then t.param_.crop_size else datum.height) ∧
    r.crop.width = (if t.param_.crop_size ≠ 0 then t.param_.crop_size else datum.width) ∧
    ∀ c h w : Int, 0 ≤ c → c < datum.channels → 0 ≤ h → h < r.crop.height → 0 ≤ w →
      w < r.crop.width →
      ∃ x mean : Dtype,
        datumElement datum
            ((c * datum.height + r.crop.h_off + h) * datum.width + r.crop.w_off + w) =
          Except.ok x ∧
        specMean t datum.channels c
            ((c * datum.height + r.crop.h_off + h) * datum.width + r.crop.w_off + w) =
          some mean ∧
        r.transformed_data[((c * r.crop.height + h) * r.crop.width +
            (if r.crop.do_mirror then r.crop.width - 1 - w else w)).toNat]? =
          some ((x - mean) * t.param_.scale) := by
  obtain ⟨t1, h1, h2, h3, -, hself, h5⟩ := Transform_direct_inv hpath hrun
  have hC := (checkDatum_eq_ok_iff.1 h2).1
  obtain ⟨-, -, hH, hW, -⟩ := cropOffsets_eq_ok h3
  have e1 := (drawMirror_eq_ok h1).1
  have hp1 : t1.param_ = t.param_ := by rw [e1]
  simp only [hp1] at hH hW
  refine ⟨hC, hH, hW, ?_⟩
  intro c h w hc hcC hh hhH hw hwW
  obtain ⟨-, hcopy, -⟩ := directCopy_spec h5
  obtain ⟨v, hv, -, hget⟩ := hcopy c h w hc hcC hh hhH hw hwW
  obtain ⟨x, mean, hx, hmean, rfl⟩ := normalized_eq_ok hv
  have hp : r.self.param_ = t.param_ := by rw [hself]
  have hd : r.self.data_mean_ = t.data_mean_ := by rw [hself]
  have hmv : r.self.mean_values_ = expandMeanValues t.mean_values_ datum.channels := by
    rw [hself]
  refine ⟨x, mean, hx, ?_, ?_⟩
  · unfold specMean
    rw [hp, hd, hmv] at hmean
    simp only [expandMeanValues_length_pos hC] at hmean
    exact hmean
  · rw [mirrorIndex_eq] at hget
    rw [hget, hp]

/-- C1: on the direct-copy path (random_crop off or phase not TRAIN) a
returning `Transform(datum, flat buffer)` has C > 0 channels, output height and
width equal to crop_size when it is nonzero and to the source height and width
otherwise, and for every c < C, h < height, w < width the destination element
at index (c*height + h)*width + w' (w' = width-1-w when mirrored, else w) equals
(x - mean) * scale, where x is the source element at index
(c*H + h_off + h)*W + w_off + w and mean is the mean-map value at that index
if a mean map is configured, else the constant of channel c if mean constants
are configured, else 0. -/
theorem transform_direct_copy_elements (t : DataTransformer) (datum : Datum)
    (buf : List Dtype) (r : TransformResult)
    (hpath : ¬ (t.param_.random_crop = true ∧ t.phase_ = Phase.TRAIN))
    (hrun : t.Transform datum buf = Except.ok r) :
    0 < datum.channels ∧
    r.crop.height = (if t.param_.crop_size ≠ 0 then t.param_.crop_size else datum.height) ∧
    r.crop.width = (if t.param_.crop_size ≠ 0 then t.param_.crop_size else datum.width) ∧
    ∀ c h w : Int, 0 ≤ c → c < datum.channels → 0 ≤ h → h < r.crop.height → 0 ≤ w →
      w < r.crop.width →
      ∃ x mean : Dtype,
        datumElement datum
            ((c * datum.height + r.crop.h_off + h) * datum.width + r.crop.w_off + w) =
          Except.ok x ∧
        specMean t datum.channels c
            ((c * datum.height + r.crop.h_off + h) * datum.width + r.crop.w_off + w) =
          some mean ∧
        r.transformed_data[((c * r.crop.height + h) * r.crop.width +
            (if r.crop.do_mirror then r.crop.width - 1 - w else w)).toNat]? =
          some ((x - mean) * t.param_.scale) := by
  obtain ⟨t1, h1, h2, h3, -, hself, h5⟩ := Transform_direct_inv hpath hrun
  have hC := (checkDatum_eq_ok_iff.1 h2).1
  obtain ⟨-, -, hH, hW, -⟩ := cropOffsets_eq_ok h3
  have e1 := (drawMirror_eq_ok h1).1
  have hp1 : t1.param_ = t.param_ := by rw [e1]
  simp only [hp1] at hH hW
  refine ⟨hC, hH, hW, ?_⟩
  intro c h w hc hcC hh hhH hw hwW
  obtain ⟨-, hcopy, -⟩ := directCopy_spec h5
  obtain ⟨v, hv, -, hget⟩ := hcopy c h w hc hcC hh hhH hw hwW
  obtain ⟨x, mean, hx, hmean, rfl⟩ := normalized_eq_ok hv
  have hp : r.self.param_ = t.param_ := by rw [hself]
  have hd : r.self.data_mean_ = t.data_mean_ := by rw [hself]
  have hmv : r.self.mean_values_ = expandMeanValues t.mean_values_ datum.channels := by
    rw [hself]
  refine ⟨x, mean, hx, ?_, ?_⟩
  · unfold specMean
    rw [hp, hd, hmv] at hmean
    simp only [expandMeanValues_length_pos hC] at hmean
    exact hmean
  · rw [mirrorIndex_eq] at hget
    rw [hget, hp]

/-- The run of `cropTwo` on `datum3x3` returns `cropTwoResult`, and C1 holds of
it. -/
theorem transform_direct_copy_elements_witness :
    ¬ (Examples.cropTwo.param_.random_crop = true ∧ Examples.cropTwo.phase_ = Phase.TRAIN) ∧
    Examples.cropTwo.Transform Examples.datum3x3 [0, 0, 0, 0] =
      Except.ok Examples.cropTwoResult ∧
    Examples.cropTwoResult.transformed_data[((0 * 2 + 1) * 2 + 1 : Int).toNat]? =
      some (((5 : Dtype) - 1) * 2) := by
  have hpath : ¬ (Examples.cropTwo.param_.random_crop = true ∧
      Examples.cropTwo.phase_ = Phase.TRAIN) := by decide
  have hrun : Examples.cropTwo.Transform Examples.datum3x3 [0, 0, 0, 0] =
      Except.ok Examples.cropTwoResult := by with_unfolding_all rfl
  refine ⟨hpath, hrun, ?_⟩
  obtain ⟨-, -, -, hel⟩ :=
    transform_direct_copy_elements Examples.cropTwo Examples.datum3x3 [0, 0, 0, 0]
      Examples.cropTwoResult hpath hrun
  obtain ⟨x, mean, hx, hmean, hget⟩ := hel 0 1 1 (by decide) (by decide) (by decide)
    (by decide) (by decide) (by decide)
  have hx' : x = 5 := by
    have : datumElement Examples.datum3x3 4 = Except.ok 5 := by with_unfolding_all rfl
    have h2 : datumElement Examples.datum3x3 4 = Except.ok x := hx
    rw [this] at h2
    cases h2
    rfl
  have hm' : mean = 1 := by
    have h2 : specMean Examples.cropTwo 1 0 4 = some mean := hmean
    have : specMean Examples.cropTwo 1 0 4 = some 1 := by with_unfolding_all rfl
    rw [this] at h2
    cases h2
    rfl
  subst hx' hm'
  exact hget

end caffe

namespace caffe

open DataTransformer

theorem cropOffsets_of_not_train {t : DataTransformer} (hphase : t.phase_ ≠ Phase.TRAIN)
    (H W : Int) :
    t.cropOffsets H W false = Except.ok (centerCrop t.param_.crop_size H W, t) := by
  unfold cropOffsets centerCrop
  simp only [hphase, if_false]
  split <;> rfl

/-- A call that needs no random draw (phase not TRAIN, mirror disabled) is the
checks, the replication of the mean value and the direct copy from the centre
origin. -/
theorem Transform_noRand_eq {t : DataTransformer} (hphase : t.phase_ ≠ Phase.TRAIN)
    (hmirror : t.param_.mirror = false) (datum : Datum) (buf : List Dtype) :
    t.Transform datum buf =
      (checkDatum t datum >>= fun _ =>
        t.replicateMeanValues 71 datum.channels >>= fun t2 =>
          directCopy t2 datum (centerCrop t.param_.crop_size datum.height datum.width) buf
            >>= fun td =>
            pure ⟨t2, td, centerCrop t.param_.crop_size datum.height datum.width⟩) := by
  unfold Transform
  rw [drawMirror_of_not_mirror hmirror, bind_ok_eq]
  simp only
  congr 1
  funext _
  cases h3 : t.replicateMeanValues 71 datum.channels with
  | error e => rfl
  | ok t2 =>
    have hp : t2.param_ = t.param_ ∧ t2.phase_ = t.phase_ := by
      unfold replicateMeanValues at h3
      split at h3
      · rw [bind_eq_ok_iff] at h3
        obtain ⟨_, -, h4⟩ := h3
        split at h4 <;> cases h4 <;> exact ⟨rfl, rfl⟩
      · cases h3
        exact ⟨rfl, rfl⟩
    rw [bind_ok_eq, bind_ok_eq]
    unfold cropAndCopy
    have hphase2 : t2.phase_ ≠ Phase.TRAIN := by rw [hp.2]; exact hphase
    rw [cropOffsets_of_not_train hphase2, bind_ok_eq]
    simp only [hp.1]
    rw [if_neg (fun h => hphase2 h.2)]

theorem datumElement_eq_readAt (datum : Datum) (i : Int) :
    datumElement datum i = readAt datum.elements i := by
  unfold datumElement Datum.elements readAt
  by_cases hd : datum.data.length > 0
  · simp only [hd, if_true]
    by_cases hi : 0 ≤ i
    · simp only [hi, if_true, List.getElem?_map]
      cases datum.data[i.toNat]? <;> rfl
    · simp only [hi, if_false]
      rfl
  · simp only [hd, if_false]

theorem readAt_of_lt {α : Type} {a : List α} {i : Int} (h0 : 0 ≤ i) (h1 : i < a.length) :
    ∃ x, readAt a i = Except.ok x := by
  unfold readAt
  rw [if_pos h0]
  have hlt : i.toNat < a.length := by omega
  rw [List.getElem?_eq_getElem hlt]
  exact ⟨_, rfl⟩

theorem dataIndex_bounds {datum : Datum} {h_off w_off height width c h w : Int}
    (hc : 0 ≤ c) (hcC : c < datum.channels) (hh : 0 ≤ h) (hhH : h < height) (hw : 0 ≤ w)
    (hwW : w < width) (ho : 0 ≤ h_off) (hoH : h_off + height ≤ datum.height)
    (wo : 0 ≤ w_off) (woW : w_off + width ≤ datum.width) :
    0 ≤ dataIndex datum h_off w_off c h w ∧
      dataIndex datum h_off w_off c h w < datum.channels * datum.height * datum.width := by
  have hb := mirrorIndex_bounds (m := false) (C := datum.channels) (H := datum.height)
    (W := datum.width) (c := c) (h := h_off + h) (w := w_off + w) hc hcC (by omega) (by omega)
    (by omega) (by omega)
  rw [mirrorIndex_eq] at hb
  simp only [Bool.false_eq_true, if_false] at hb
  unfold dataIndex
  have e : (c * datum.height + h_off + h) * datum.width + w_off + w =
      (c * datum.height + (h_off + h)) * datum.width + (w_off + w) := by ring
  rw [e]
  exact hb

theorem centerCrop_bounds {k H W : Int} (hH : k ≤ H) (hW : k ≤ W) :
    0 ≤ (centerCrop k H W).h_off ∧
      (centerCrop k H W).h_off + (centerCrop k H W).height ≤ H ∧
      0 ≤ (centerCrop k H W).w_off ∧
      (centerCrop k H W).w_off + (centerCrop k H W).width ≤ W := by
  unfold centerCrop
  split
  · simp only
    rw [Int.tdiv_eq_ediv (by omega) (by decide), Int.tdiv_eq_ediv (by omega) (by decide)]
    omega
  · simp

/-- In EVAL mode (phase not TRAIN) with crop_size = k > 0, mirror disabled,
scale 1 and no mean, `Transform(datum, flat buffer)` on a well-formed datum
and a large enough destination returns, for every state of the generator, the
same output, whose element (c, h, w) is the source element
(c, (H-k)/2 + h, (W-k)/2 + w). -/
theorem eval_center_crop_copy (t : DataTransformer) (datum : Datum)
    (buf : List Dtype) (k : Int)
    (hphase : t.phase_ ≠ Phase.TRAIN) (hk : t.param_.crop_size = k) (hkpos : 0 < k)
    (hmirror : t.param_.mirror = false) (hscale : t.param_.scale = 1)
    (hmf : t.param_.has_mean_file = false) (hmv : t.mean_values_ = [])
    (hC : 0 < datum.channels) (hH : k ≤ datum.height) (hW : k ≤ datum.width)
    (hsrc : datum.channels * datum.height * datum.width ≤ datum.elements.length)
    (hbuf : datum.channels * k * k ≤ buf.length) :
    ∃ out : List Dtype,
      (∀ g : Option RNG,
        ({ t with rng_ := g } : DataTransformer).Transform datum buf =
          Except.ok ⟨{ t with rng_ := g }, out,
            ⟨k, k, (datum.height - k) / 2, (datum.width - k) / 2, false⟩⟩) ∧
      ∀ c h w : Int, 0 ≤ c → c < datum.channels → 0 ≤ h → h < k → 0 ≤ w → w < k →
        ∃ x : Dtype,
          datumElement datum
              ((c * datum.height + (datum.height - k) / 2 + h) * datum.width +
                (datum.width - k) / 2 + w) = Except.ok x ∧
          out[((c * k + h) * k + w).toNat]? = some x := by
  have hk0 : k ≠ 0 := by omega
  have hg : centerCrop k datum.height datum.width =
      ⟨k, k, (datum.height - k) / 2, (datum.width - k) / 2, false⟩ := by
    unfold centerCrop
    rw [if_pos hk0, Int.tdiv_eq_ediv (by omega) (by decide),
      Int.tdiv_eq_ediv (by omega) (by decide)]
  have hcb := centerCrop_bounds hH hW
  rw [hg] at hcb
  simp only at hcb
  -- the copy does not look at the generator
  have hnorm : ∀ (g : Option RNG) (c i : Int),
      normalized ({ t with rng_ := g } : DataTransformer) datum c i =
        (datumElement datum i >>= fun x => pure x) := by
    intro g c i
    unfold normalized
    simp only [hmf, hmv, hscale, List.length_nil, gt_iff_lt, lt_self_iff_false, if_false,
      mul_one, Bool.false_eq_true]
  have hcopy : ∀ g : Option RNG,
      directCopy ({ t with rng_ := g } : DataTransformer) datum
          ⟨k, k, (datum.height - k) / 2, (datum.width - k) / 2, false⟩ buf =
        directCopy t datum ⟨k, k, (datum.height - k) / 2, (datum.width - k) / 2, false⟩ buf := by
    intro g
    unfold directCopy
    simp only [hnorm]
  have hread : ∀ c h w : Int, 0 ≤ c → c < datum.channels → 0 ≤ h → h < k → 0 ≤ w → w < k →
      ∃ x, datumElement datum (dataIndex datum ((datum.height - k) / 2)
        ((datum.width - k) / 2) c h w) = Except.ok x := by
    intro c h w hc hcC hh hhk hw hwk
    have hb := dataIndex_bounds hc hcC hh hhk hw hwk hcb.1 hcb.2.1 hcb.2.2.1
      hcb.2.2.2
    rw [datumElement_eq_readAt]
    exact readAt_of_lt hb.1 (by omega)
  obtain ⟨out, hout⟩ := @directCopy_ok t datum
    ⟨k, k, (datum.height - k) / 2, (datum.width - k) / 2, false⟩ buf
    (by
      intro c h w hc hcC hh hhk hw hwk
      obtain ⟨x, hx⟩ := hread c h w hc hcC hh hhk hw hwk
      refine ⟨x, ?_⟩
      have := hnorm t.rng_ c (dataIndex datum ((datum.height - k) / 2)
        ((datum.width - k) / 2) c h w)
      simp only at this
      rw [this, hx]
      rfl)
    hbuf
  refine ⟨out, ?_, ?_⟩
  · intro g
    have hcheck : checkDatum ({ t with rng_ := g } : DataTransformer) datum = Except.ok () := by
      rw [checkDatum_eq_ok_iff]
      simp only [hk, hmf, Bool.false_eq_true, false_implies, and_true]
      exact ⟨hC, hH, hW⟩
    have hrep : ({ t with rng_ := g } : DataTransformer).replicateMeanValues 71 datum.channels =
        Except.ok { t with rng_ := g } := by
      unfold replicateMeanValues
      simp only [hmv, List.length_nil, gt_iff_lt, lt_self_iff_false, if_false]
      rfl
    rw [Transform_noRand_eq (t := { t with rng_ := g }) hphase hmirror, hcheck, bind_ok_eq,
      hrep, bind_ok_eq]
    simp only [hk, hg]
    rw [hcopy g, hout]
    rfl
  · intro c h w hc hcC hh hhk hw hwk
    obtain ⟨-, hspec, -⟩ := directCopy_spec hout
    obtain ⟨v, hv, -, hget⟩ := hspec c h w hc hcC hh hhk hw hwk
    have := hnorm t.rng_ c (dataIndex datum ((datum.height - k) / 2)
        ((datum.width - k) / 2) c h w)
    simp only at this
    rw [this] at hv
    rw [bind_eq_ok_iff] at hv
    obtain ⟨x, hx, hxv⟩ := hv
    have hxv' : x = v := by
      cases hxv
      rfl
    subst hxv'
    refine ⟨x, hx, ?_⟩
    rw [mirrorIndex_eq] at hget
    simpa using hget

end caffe

namespace caffe

open DataTransformer

/-- C3 as stated fails: with crop_size 0, TRAIN phase and random_crop on, the
call on a 2 by 3 source returns with crop origin h_off = 1. -/
theorem no_crop_origin_counterexample :
    (Examples.randomArea 0 0 0).param_.crop_size = 0 ∧
    (Examples.randomArea 0 0 0).Transform Examples.datum2x3 [0, 0, 0, 0, 0, 0] =
      Except.ok Examples.randomAreaResult ∧
    ¬ (Examples.randomAreaResult.crop.h_off = 0 ∧ Examples.randomAreaResult.crop.w_off = 0) :=
  ⟨rfl, by with_unfolding_all rfl, by decide⟩

theorem randomAreaCrop_extent {t : DataTransformer} {datum : Datum} {g : CropSpec}
    {buf : List Dtype} {r : TransformResult}
    (h : randomAreaCrop t datum g buf = Except.ok r) :
    r.crop.height = g.height ∧ r.crop.width = g.width := by
  unfold randomAreaCrop at h
  rw [bind_eq_ok_iff] at h
  obtain ⟨s1, -, h⟩ := h
  rw [bind_eq_ok_iff] at h
  obtain ⟨⟨⟨area, ratio⟩, s2⟩, -, h⟩ := h
  simp only at h
  rw [bind_eq_ok_iff] at h
  obtain ⟨⟨crop_h, crop_w⟩, -, h⟩ := h
  simp only at h
  rw [bind_eq_ok_iff] at h
  obtain ⟨⟨g', s3⟩, hg, h⟩ := h
  simp only at h
  rw [bind_eq_ok_iff] at h
  obtain ⟨tmp, -, h⟩ := h
  rw [bind_eq_ok_iff] at h
  obtain ⟨td, -, h⟩ := h
  cases h
  simp only
  split at hg
  · rw [bind_eq_ok_iff] at hg
    obtain ⟨⟨r1, u1⟩, -, hg⟩ := hg
    simp only at hg
    rw [bind_eq_ok_iff] at hg
    obtain ⟨⟨r2, u2⟩, -, hg⟩ := hg
    simp only [pure_eq_ok, Except.ok.injEq, Prod.mk.injEq] at hg
    obtain ⟨rfl, -⟩ := hg
    exact ⟨rfl, rfl⟩
  · simp only [pure_eq_ok, Except.ok.injEq, Prod.mk.injEq] at hg
    obtain ⟨rfl, -⟩ := hg
    exact ⟨rfl, rfl⟩

/-- The output extent of a returning call of `Transform`, on either path. -/
theorem Transform_extent {t : DataTransformer} {datum : Datum} {buf : List Dtype}
    {r : TransformResult} (h : t.Transform datum buf = Except.ok r) :
    r.crop.height = (if t.param_.crop_size ≠ 0 then t.param_.crop_size else datum.height) ∧
      r.crop.width = (if t.param_.crop_size ≠ 0 then t.param_.crop_size else datum.width) := by
  unfold Transform at h
  rw [bind_eq_ok_iff] at h
  obtain ⟨⟨b, t1⟩, h1, h⟩ := h
  simp only at h
  rw [bind_eq_ok_iff] at h
  obtain ⟨_, h2, h⟩ := h
  rw [bind_eq_ok_iff] at h
  obtain ⟨t2, h3, h⟩ := h
  unfold cropAndCopy at h
  rw [bind_eq_ok_iff] at h
  obtain ⟨⟨g, t3⟩, h4, h⟩ := h
  simp only at h
  have e1 := (drawMirror_eq_ok h1).1
  have hC := (checkDatum_eq_ok_iff.1 h2).1
  obtain ⟨e2, -⟩ := replicateMeanValues_eq_ok hC h3
  obtain ⟨-, -, hH, hW, -⟩ := cropOffsets_eq_ok h4
  have hp2 : t2.param_ = t.param_ := by rw [e2, e1]
  rw [hp2] at hH hW
  split at h
  · obtain ⟨h5, h6⟩ := randomAreaCrop_extent h
    rw [h5, h6]
    exact ⟨hH, hW⟩
  · rw [bind_eq_ok_iff] at h
    obtain ⟨td, -, h⟩ := h
    cases h
    exact ⟨hH, hW⟩

/-- C3, amended: with crop_size 0, for any phase, mirror setting and
random_crop setting, a returning `Transform(datum, flat buffer)` has output
height and width equal to the source height and width; and on the direct-copy
path (random_crop off or phase not TRAIN) its crop origin is h_off = 0,
w_off = 0. -/
theorem no_crop_keeps_extent_and_origin (t : DataTransformer) (datum : Datum)
    (buf : List Dtype) (r : TransformResult)
    (hcrop : t.param_.crop_size = 0)
    (hrun : t.Transform datum buf = Except.ok r) :
    r.crop.height = datum.height ∧ r.crop.width = datum.width ∧
      (¬ (t.param_.random_crop = true ∧ t.phase_ = Phase.TRAIN) →
        r.crop.h_off = 0 ∧ r.crop.w_off = 0) := by
  obtain ⟨hH, hW⟩ := Transform_extent hrun
  simp only [hcrop, ne_eq, not_true_eq_false, if_false] at hH hW
  refine ⟨hH, hW, fun hpath => ?_⟩
  obtain ⟨t1, h1, -, h3, -, -, -⟩ := Transform_direct_inv hpath hrun
  obtain ⟨-, -, -, -, h0, -⟩ := cropOffsets_eq_ok h3
  have e1 := (drawMirror_eq_ok h1).1
  have hp1 : t1.param_ = t.param_ := by rw [e1]
  simp only [hp1, hcrop] at h0
  exact ⟨(h0 trivial).1, (h0 trivial).2.1⟩

/-- The hypotheses of the amended C3 hold of a mirrored run with crop_size 0,
and so does its conclusion. -/
theorem no_crop_keeps_extent_and_origin_witness :
    (Examples.mirrorOn ⟨fun _ => 1, 0⟩).param_.crop_size = 0 ∧
    (Examples.mirrorOn ⟨fun _ => 1, 0⟩).Transform Examples.datum1x2 [0, 0] =
      Except.ok ⟨Examples.mirrorOn ⟨fun _ => 1, 1⟩, [6, 5], ⟨1, 2, 0, 0, true⟩⟩ ∧
    ((1 : Int) = Examples.datum1x2.height ∧ (2 : Int) = Examples.datum1x2.width ∧
      (¬ ((Examples.mirrorOn ⟨fun _ => 1, 0⟩).param_.random_crop = true ∧
          (Examples.mirrorOn ⟨fun _ => 1, 0⟩).phase_ = Phase.TRAIN) →
        (0 : Int) = 0 ∧ (0 : Int) = 0)) :=
  have hrun : (Examples.mirrorOn ⟨fun _ => 1, 0⟩).Transform Examples.datum1x2 [0, 0] =
      Except.ok ⟨Examples.mirrorOn ⟨fun _ => 1, 1⟩, [6, 5], ⟨1, 2, 0, 0, true⟩⟩ := by
    with_unfolding_all rfl
  ⟨rfl, hrun,
    no_crop_keeps_extent_and_origin (Examples.mirrorOn ⟨fun _ => 1, 0⟩) Examples.datum1x2
      [0, 0] ⟨Examples.mirrorOn ⟨fun _ => 1, 1⟩, [6, 5], ⟨1, 2, 0, 0, true⟩⟩ rfl hrun⟩

theorem specMean_congr {t₁ t₂ : DataTransformer} (h : t₂ = { t₁ with rng_ := t₂.rng_ })
    (C c i : Int) : specMean t₂ C c i = specMean t₁ C c i := by
  unfold specMean
  rw [h]

/-- C4: on the direct-copy path, two returning runs of
`Transform(datum, flat buffer)` that differ only in the generator, one with the
mirror flag true and one with it false, with the same crop origin, give
outputs that are column reversals of each other:
out_mirror[c][h][w] = out_plain[c][h][width-1-w] for all c, h, w. -/
theorem mirror_reverses_columns (t₁ t₂ : DataTransformer) (datum : Datum)
    (buf₁ buf₂ : List Dtype) (r₁ r₂ : TransformResult)
    (hsame : t₂ = { t₁ with rng_ := t₂.rng_ })
    (hpath : ¬ (t₁.param_.random_crop = true ∧ t₁.phase_ = Phase.TRAIN))
    (h₁ : t₁.Transform datum buf₁ = Except.ok r₁)
    (h₂ : t₂.Transform datum buf₂ = Except.ok r₂)
    (hm₁ : r₁.crop.do_mirror = true) (hm₂ : r₂.crop.do_mirror = false)
    (hoh : r₁.crop.h_off = r₂.crop.h_off) (how : r₁.crop.w_off = r₂.crop.w_off) :
    r₁.crop.height = r₂.crop.height ∧ r₁.crop.width = r₂.crop.width ∧
    ∀ c h w : Int, 0 ≤ c → c < datum.channels → 0 ≤ h → h < r₂.crop.height → 0 ≤ w →
      w < r₂.crop.width →
      ∃ v : Dtype,
        r₁.transformed_data[((c * r₂.crop.height + h) * r₂.crop.width + w).toNat]? = some v ∧
        r₂.transformed_data[((c * r₂.crop.height + h) * r₂.crop.width +
            (r₂.crop.width - 1 - w)).toNat]? = some v := by
  have hp : t₂.param_ = t₁.param_ := by rw [hsame]
  have hph : t₂.phase_ = t₁.phase_ := by rw [hsame]
  have hpath₂ : ¬ (t₂.param_.random_crop = true ∧ t₂.phase_ = Phase.TRAIN) := by
    rw [hp, hph]
    exact hpath
  obtain ⟨-, hH₁, hW₁, hel₁⟩ := Transform_direct_spec hpath h₁
  obtain ⟨-, hH₂, hW₂, hel₂⟩ := Transform_direct_spec hpath₂ h₂
  rw [hp] at hH₂ hW₂
  have hH : r₁.crop.height = r₂.crop.height := by rw [hH₁, hH₂]
  have hW : r₁.crop.width = r₂.crop.width := by rw [hW₁, hW₂]
  refine ⟨hH, hW, ?_⟩
  intro c h w hc hcC hh hhH hw0 hwW
  obtain ⟨x₁, m₁, hx₁, hmean₁, hget₁⟩ :=
    hel₁ c h (r₂.crop.width - 1 - w) hc hcC hh (by omega) (by omega) (by omega)
  obtain ⟨x₂, m₂, hx₂, hmean₂, hget₂⟩ :=
    hel₂ c h (r₂.crop.width - 1 - w) hc hcC hh hhH (by omega) (by omega)
  rw [hoh, how] at hx₁ hmean₁
  rw [specMean_congr hsame] at hmean₂
  rw [hx₁] at hx₂
  rw [hmean₁] at hmean₂
  cases hx₂
  cases hmean₂
  rw [hm₁, hH, hW] at hget₁
  rw [hm₂, hp] at hget₂
  simp only [if_true, Bool.false_eq_true, if_false] at hget₁ hget₂
  refine ⟨_, ?_, hget₂⟩
  rw [← hget₁]
  congr 2
  ring

/-- Two runs on a 1 by 2 source that differ only in the first raw output of
the generator: the mirrored one stores [6, 5], the plain one [5, 6]. -/
theorem mirror_reverses_columns_witness :
    (Examples.mirrorOn ⟨fun _ => 1, 0⟩).Transform Examples.datum1x2 [0, 0] =
      Except.ok ⟨Examples.mirrorOn ⟨fun _ => 1, 1⟩, [6, 5], ⟨1, 2, 0, 0, true⟩⟩ ∧
    (Examples.mirrorOn ⟨fun _ => 0, 0⟩).Transform Examples.datum1x2 [0, 0] =
      Except.ok ⟨Examples.mirrorOn ⟨fun _ => 0, 1⟩, [5, 6], ⟨1, 2, 0, 0, false⟩⟩ ∧
    ((1 : Int) = 1 ∧ (2 : Int) = 2 ∧
      ∀ c h w : Int, 0 ≤ c → c < Examples.datum1x2.channels → 0 ≤ h → h < 1 → 0 ≤ w → w < 2 →
        ∃ v : Dtype,
          ([6, 5] : List Dtype)[((c * 1 + h) * 2 + w).toNat]? = some v ∧
          ([5, 6] : List Dtype)[((c * 1 + h) * 2 + (2 - 1 - w)).toNat]? = some v) :=
  have hrun₁ : (Examples.mirrorOn ⟨fun _ => 1, 0⟩).Transform Examples.datum1x2 [0, 0] =
      Except.ok ⟨Examples.mirrorOn ⟨fun _ => 1, 1⟩, [6, 5], ⟨1, 2, 0, 0, true⟩⟩ := by
    with_unfolding_all rfl
  have hrun₂ : (Examples.mirrorOn ⟨fun _ => 0, 0⟩).Transform Examples.datum1x2 [0, 0] =
      Except.ok ⟨Examples.mirrorOn ⟨fun _ => 0, 1⟩, [5, 6], ⟨1, 2, 0, 0, false⟩⟩ := by
    with_unfolding_all rfl
  ⟨hrun₁, hrun₂,
    mirror_reverses_columns (Examples.mirrorOn ⟨fun _ => 1, 0⟩)
      (Examples.mirrorOn ⟨fun _ => 0, 0⟩) Examples.datum1x2 [0, 0] [0, 0]
      ⟨Examples.mirrorOn ⟨fun _ => 1, 1⟩, [6, 5], ⟨1, 2, 0, 0, true⟩⟩
      ⟨Examples.mirrorOn ⟨fun _ => 0, 1⟩, [5, 6], ⟨1, 2, 0, 0, false⟩⟩
      rfl (by decide) hrun₁ hrun₂ rfl rfl rfl rfl⟩

end caffe

namespace caffe

open DataTransformer

theorem cropOffsets_bounds {t t' : DataTransformer} {H W : Int} {b : Bool} {g : CropSpec}
    (h : t.cropOffsets H W b = Except.ok (g, t')) (hH : t.param_.crop_size ≤ H)
    (hW : t.param_.crop_size ≤ W) :
    0 ≤ g.h_off ∧ g.h_off + g.height ≤ H ∧ 0 ≤ g.w_off ∧ g.w_off + g.width ≤ W := by
  unfold cropOffsets at h
  simp only at h
  split at h
  · split at h
    · rw [bind_eq_ok_iff] at h
      obtain ⟨⟨r1, s1⟩, h1, h2⟩ := h
      simp only at h2
      rw [bind_eq_ok_iff] at h2
      obtain ⟨⟨r2, s2⟩, h3, h4⟩ := h2
      simp only [pure_eq_ok, Except.ok.injEq, Prod.mk.injEq] at h4
      obtain ⟨rfl, rfl⟩ := h4
      obtain ⟨-, -, -, h10, h11⟩ := Rand_eq_ok h1
      obtain ⟨-, -, -, h30, h31⟩ := Rand_eq_ok h3
      simp only
      omega
    · simp only [pure_eq_ok, Except.ok.injEq, Prod.mk.injEq] at h
      obtain ⟨rfl, rfl⟩ := h
      simp only
      rw [Int.tdiv_eq_ediv (by omega) (by decide), Int.tdiv_eq_ediv (by omega) (by decide)]
      omega
  · rename_i hc
    simp only [pure_eq_ok, Except.ok.injEq, Prod.mk.injEq] at h
    obtain ⟨rfl, rfl⟩ := h
    simp

/-- C5: on the direct-copy path with scale = 1 and a configured mean map whose
values equal the sample's own values at every (channel, row, col), every
output element (c, h, w) of a returning `Transform(datum, flat buffer)` is
exactly 0, for every crop_size, crop origin and mirror flag. -/
theorem mean_map_round_trip (t : DataTransformer) (datum : Datum) (buf : List Dtype)
    (r : TransformResult)
    (hpath : ¬ (t.param_.random_crop = true ∧ t.phase_ = Phase.TRAIN))
    (hscale : t.param_.scale = 1) (hmf : t.param_.has_mean_file = true)
    (hmean : t.data_mean_.data.take (datum.channels * datum.height * datum.width).toNat =
      datum.elements.take (datum.channels * datum.height * datum.width).toNat)
    (hrun : t.Transform datum buf = Except.ok r) :
    ∀ c h w : Int, 0 ≤ c → c < datum.channels → 0 ≤ h → h < r.crop.height → 0 ≤ w →
      w < r.crop.width →
      r.transformed_data[((c * r.crop.height + h) * r.crop.width + w).toNat]? = some 0 := by
  obtain ⟨t1, h1, h2, h3, -, -, -⟩ := Transform_direct_inv hpath hrun
  obtain ⟨-, hcH, hcW, -⟩ := checkDatum_eq_ok_iff.1 h2
  have hb := cropOffsets_bounds h3 hcH hcW
  obtain ⟨-, -, -, hel⟩ := Transform_direct_spec hpath hrun
  -- every stored value is zero
  have hzero : ∀ c h w : Int, 0 ≤ c → c < datum.channels → 0 ≤ h → h < r.crop.height →
      0 ≤ w → w < r.crop.width →
      r.transformed_data[((c * r.crop.height + h) * r.crop.width +
        (if r.crop.do_mirror then r.crop.width - 1 - w else w)).toNat]? = some 0 := by
    intro c h w hc hcC hh hhH hw hwW
    obtain ⟨x, mean, hx, hm, hget⟩ := hel c h w hc hcC hh hhH hw hwW
    have hidx := dataIndex_bounds hc hcC hh hhH hw hwW hb.1 hb.2.1 hb.2.2.1
      hb.2.2.2
    unfold dataIndex at hidx
    rw [datumElement_eq_readAt] at hx
    have hx' := (readAt_eq_ok hx).2
    unfold specMean at hm
    rw [if_pos hmf] at hm
    have hlt : ((c * datum.height + r.crop.h_off + h) * datum.width + r.crop.w_off + w).toNat <
        (datum.channels * datum.height * datum.width).toNat := by omega
    have e1 := List.getElem?_take_of_lt (l := t.data_mean_.data) hlt
    have e2 := List.getElem?_take_of_lt (l := datum.elements) hlt
    rw [hmean, e2, hx'] at e1
    rw [← e1] at hm
    cases hm
    rw [hget, hscale]
    simp
  intro c h w hc hcC hh hhH hw hwW
  cases hmir : r.crop.do_mirror with
  | false =>
    have := hzero c h w hc hcC hh hhH hw hwW
    rw [hmir] at this
    simpa using this
  | true =>
    have := hzero c h (r.crop.width - 1 - w) hc hcC hh hhH (by omega) (by omega)
    rw [hmir] at this
    simp only [if_true] at this
    rw [← this]
    congr 2
    ring

/-- A 2 by 2 source normalised by a mean map equal to itself: the hypotheses
of C5 hold and every output element is 0. -/
theorem mean_map_round_trip_witness :
    Examples.ownMean.Transform Examples.datum2x2 [1, 1, 1, 1] =
      Except.ok ⟨Examples.ownMean, [0, 0, 0, 0], ⟨2, 2, 0, 0, false⟩⟩ ∧
    ∀ c h w : Int, 0 ≤ c → c < Examples.datum2x2.channels → 0 ≤ h → h < 2 → 0 ≤ w → w < 2 →
      ([0, 0, 0, 0] : List Dtype)[((c * 2 + h) * 2 + w).toNat]? = some 0 :=
  have hrun : Examples.ownMean.Transform Examples.datum2x2 [1, 1, 1, 1] =
      Except.ok ⟨Examples.ownMean, [0, 0, 0, 0], ⟨2, 2, 0, 0, false⟩⟩ := by
    with_unfolding_all rfl
  ⟨hrun,
    mean_map_round_trip Examples.ownMean Examples.datum2x2 [1, 1, 1, 1]
      ⟨Examples.ownMean, [0, 0, 0, 0], ⟨2, 2, 0, 0, false⟩⟩ (by decide) rfl rfl
      (by with_unfolding_all rfl) hrun⟩

theorem drawMirror_with_mean_values (t : DataTransformer) (mv : List Dtype) :
    ({ t with mean_values_ := mv } : DataTransformer).drawMirror =
      (t.drawMirror >>= fun p => pure (p.1, { p.2 with mean_values_ := mv })) := by
  unfold drawMirror
  by_cases hm : t.param_.mirror = true
  · simp only [hm, if_true]
    unfold DataTransformer.Rand
    cases t.rng_ with
    | none => rfl
    | some g => rfl
  · simp only [hm, if_false]
    rfl

theorem replicateMeanValues_single (t : DataTransformer) (line : Nat) (m : Dtype) {C : Int}
    (hC : 1 < C) :
    ({ t with mean_values_ := [m] } : DataTransformer).replicateMeanValues line C =
      Except.ok { t with mean_values_ := List.replicate C.toNat m } := by
  unfold replicateMeanValues
  simp only [List.length_singleton, gt_iff_lt, Nat.lt_one_iff, Nat.one_ne_zero, not_false_eq_true,
    zero_lt_one, if_true, true_or, decide_True, CHECK_true, bind_ok_eq, hC, and_self]
  rw [foldl_push_head]
  have : (C - 1).toNat + 1 = C.toNat := by omega
  rw [this]
  rfl

theorem replicateMeanValues_full (t : DataTransformer) (line : Nat) (m : Dtype) {C : Int}
    (hC : 1 < C) :
    ({ t with mean_values_ := List.replicate C.toNat m } : DataTransformer).replicateMeanValues
        line C =
      Except.ok { t with mean_values_ := List.replicate C.toNat m } := by
  unfold replicateMeanValues
  have h1 : 0 < C.toNat := by omega
  have h2 : ((C.toNat : Nat) : Int) = C := by omega
  have h3 : ¬ (C.toNat = 1) := by omega
  simp only [List.length_replicate, gt_iff_lt, h1, if_true, h2, or_true, decide_True,
    CHECK_true, bind_ok_eq, h3, and_false, if_false]
  rfl

/-- C6: for a sample with C > 1 channels, `Transform(datum, flat buffer)`
configured with the single mean constant [m] has exactly the same outcome
(output, object after the call, or failure) as when configured with the
C-element list [m, ..., m], for every crop origin and mirror flag. -/
theorem mean_constant_broadcast (t : DataTransformer) (datum : Datum) (buf : List Dtype)
    (m : Dtype) (hC : 1 < datum.channels) :
    ({ t with mean_values_ := [m] } : DataTransformer).Transform datum buf =
      ({ t with mean_values_ := List.replicate datum.channels.toNat m } :
        DataTransformer).Transform datum buf := by
  unfold Transform
  rw [drawMirror_with_mean_values t [m],
    drawMirror_with_mean_values t (List.replicate datum.channels.toNat m)]
  cases t.drawMirror with
  | error e => rfl
  | ok p =>
    obtain ⟨b, s⟩ := p
    simp only [bind_ok_eq, pure_eq_ok]
    have hcheck : checkDatum ({ s with mean_values_ := [m] } : DataTransformer) datum =
        checkDatum ({ s with mean_values_ := List.replicate datum.channels.toNat m } :
          DataTransformer) datum := rfl
    rw [hcheck]
    congr 1
    funext _
    rw [replicateMeanValues_single s 71 m hC, replicateMeanValues_full s 71 m hC]

/-- A three-channel sample with the single constant [2] and with [2, 2, 2]:
the two calls agree, and the first returns [5, 6, 7]. -/
theorem mean_constant_broadcast_witness :
    (1 : Int) < Examples.datum3ch.channels ∧
    ({ Examples.mirrorOn Examples.zeroRng with mean_values_ := [2] } :
        DataTransformer).Transform Examples.datum3ch [0, 0, 0] =
      Except.ok ⟨{ Examples.mirrorOn ⟨fun _ => 0, 1⟩ with mean_values_ := [2, 2, 2] },
        [5, 6, 7], ⟨1, 1, 0, 0, false⟩⟩ ∧
    ({ Examples.mirrorOn Examples.zeroRng with mean_values_ := [2] } :
        DataTransformer).Transform Examples.datum3ch [0, 0, 0] =
      ({ Examples.mirrorOn Examples.zeroRng with
          mean_values_ := List.replicate Examples.datum3ch.channels.toNat 2 } :
        DataTransformer).Transform Examples.datum3ch [0, 0, 0] :=
  ⟨by decide, by with_unfolding_all rfl,
    mean_constant_broadcast (Examples.mirrorOn Examples.zeroRng) Examples.datum3ch [0, 0, 0] 2
      (by decide)⟩

end caffe

namespace caffe

open DataTransformer

theorem avoids_ok {α : Type} (L : List Nat) (a : α) : Avoids L (Except.ok a) := by
  intro l h
  cases h

theorem avoids_pure {α : Type} (L : List Nat) (a : α) :
    Avoids L (pure a : Except Fault α) := avoids_ok L a

theorem avoids_undefined {α : Type} (L : List Nat) :
    Avoids L (throw Fault.undefined : Except Fault α) := by
  intro l h
  cases h

theorem avoids_cvException {α : Type} (L : List Nat) :
    Avoids L (throw Fault.cvException : Except Fault α) := by
  intro l h
  cases h

theorem avoids_throw_check {α : Type} {L : List Nat} {line : Nat} (h : line ∉ L) :
    Avoids L (throw (Fault.check line) : Except Fault α) := by
  intro l hl
  cases hl
  exact h

theorem avoids_bind {α β : Type} {L : List Nat} {x : Except Fault α}
    {f : α → Except Fault β} (hx : Avoids L x) (hf : ∀ a, Avoids L (f a)) :
    Avoids L (x >>= f) := by
  cases x with
  | error e =>
    rw [bind_error_eq]
    intro l h
    cases h
    exact hx l rfl
  | ok a => exact hf a

theorem avoids_CHECK {L : List Nat} {line : Nat} (h : line ∉ L) (cond : Bool) :
    Avoids L (CHECK line cond) := by
  unfold CHECK
  split
  · exact avoids_pure L ()
  · exact avoids_throw_check h

theorem avoids_foldlM {ι σ : Type} {L : List Nat} {f : σ → ι → Except Fault σ}
    (hf : ∀ s i, Avoids L (f s i)) (l : List ι) (s : σ) : Avoids L (l.foldlM f s) := by
  induction l generalizing s with
  | nil => exact avoids_pure L s
  | cons a l ih =>
    rw [List.foldlM_cons]
    exact avoids_bind (hf s a) ih

theorem avoids_forLoop {σ : Type} {L : List Nat} {n : Int} {body : σ → Int → Except Fault σ}
    (hb : ∀ s i, Avoids L (body s i)) (init : σ) : Avoids L (forLoop n body init) := by
  unfold forLoop
  exact avoids_foldlM (fun s (i : Nat) => hb s (i : Int)) _ init

theorem avoids_readAt {α : Type} (L : List Nat) (a : List α) (i : Int) :
    Avoids L (readAt a i) := by
  unfold readAt
  repeat' split
  all_goals first
    | exact avoids_pure L _
    | exact avoids_undefined L

theorem avoids_writeAt {α : Type} (L : List Nat) (a : List α) (i : Int) (v : α) :
    Avoids L (writeAt a i v) := by
  unfold writeAt
  split
  · exact avoids_pure L _
  · exact avoids_undefined L

theorem avoids_sqrtToInt (L : List Nat) (x : ℚ) : Avoids L (sqrtToInt x) := by
  unfold sqrtToInt
  split
  · exact avoids_undefined L
  · exact avoids_pure L _

theorem avoids_cvCall {α : Type} (L : List Nat) (r : Option α) : Avoids L (cvCall r) := by
  unfold cvCall
  split
  · exact avoids_pure L _
  · exact avoids_cvException L

theorem avoids_scaledCoord (L : List Nat) (r : Option ℚ) (i : Int) :
    Avoids L (scaledCoord r i) := by
  unfold scaledCoord
  split
  · exact avoids_pure L _
  · exact avoids_undefined L

theorem avoids_dataFrom (L : List Nat) (data : List Dtype) (offset : Int) :
    Avoids L (dataFrom data offset) := by
  unfold dataFrom
  split
  · exact avoids_pure L _
  · exact avoids_undefined L

theorem avoids_Rand (t : DataTransformer) (n : Int) : Avoids batchCheckLines (t.Rand n) := by
  unfold DataTransformer.Rand
  repeat' split
  all_goals first
    | exact avoids_pure _ _
    | exact avoids_throw_check (by decide)

theorem avoids_Randfloat (t : DataTransformer) (n m : ℚ) :
    Avoids batchCheckLines (t.Randfloat n m) := by
  unfold DataTransformer.Randfloat
  split
  · exact avoids_pure _ _
  · exact avoids_throw_check (by decide)

theorem avoids_drawMirror (t : DataTransformer) : Avoids batchCheckLines t.drawMirror := by
  unfold drawMirror
  split
  · exact avoids_bind (avoids_Rand _ _) (fun _ => avoids_pure _ _)
  · exact avoids_pure _ _

theorem avoids_checkDatum (t : DataTransformer) (datum : Datum) :
    Avoids batchCheckLines (checkDatum t datum) := by
  intro l h
  rcases checkDatum_error h with h | h | h | h | h | h <;> cases h <;> decide

theorem avoids_replicateMeanValues (t : DataTransformer) {line : Nat}
    (hl : line ∉ batchCheckLines) (C : Int) :
    Avoids batchCheckLines (t.replicateMeanValues line C) := by
  unfold replicateMeanValues
  split
  · refine avoids_bind (avoids_CHECK hl _) (fun _ => ?_)
    split <;> exact avoids_pure _ _
  · exact avoids_pure _ _

theorem avoids_cropOffsets (t : DataTransformer) (H W : Int) (b : Bool) :
    Avoids batchCheckLines (t.cropOffsets H W b) := by
  unfold cropOffsets
  simp only
  repeat' split
  · exact avoids_bind (avoids_Rand _ _)
      (fun _ => avoids_bind (avoids_Rand _ _) (fun _ => avoids_pure _ _))
  · exact avoids_pure _ _
  · exact avoids_pure _ _

theorem avoids_normalized (L : List Nat) (t : DataTransformer) (datum : Datum) (c i : Int) :
    Avoids L (normalized t datum c i) := by
  unfold normalized
  refine avoids_bind ?_ (fun _ => ?_)
  · rw [datumElement_eq_readAt]
    exact avoids_readAt _ _ _
  · repeat' split
    · exact avoids_bind (avoids_readAt _ _ _) (fun _ => avoids_pure _ _)
    · exact avoids_bind (avoids_readAt _ _ _) (fun _ => avoids_pure _ _)
    · exact avoids_pure _ _

theorem avoids_directCopy (L : List Nat) (t : DataTransformer) (datum : Datum) (g : CropSpec)
    (td : List Dtype) : Avoids L (directCopy t datum g td) := by
  unfold directCopy
  refine avoids_forLoop (fun _ _ => avoids_forLoop (fun _ _ => avoids_forLoop (fun _ _ => ?_)
    _) _) _
  exact avoids_bind (avoids_normalized _ _ _ _ _) (fun _ => avoids_writeAt _ _ _ _)

theorem avoids_pushCropRanges (t : DataTransformer) :
    Avoids batchCheckLines t.pushCropRanges := by
  unfold pushCropRanges
  split
  · refine avoids_forLoop (fun _ _ => ?_) _
    exact avoids_bind (avoids_readAt _ _ _)
      (fun _ => avoids_bind (avoids_readAt _ _ _) (fun _ => avoids_pure _ _))
  · exact avoids_pure _ _

theorem avoids_drawAreaRatio (t : DataTransformer) {l1 l2 : Nat}
    (h1 : l1 ∉ batchCheckLines) (h2 : l2 ∉ batchCheckLines) (H W : Int) :
    Avoids batchCheckLines (t.drawAreaRatio l1 l2 H W) := by
  unfold drawAreaRatio
  refine avoids_bind (avoids_readAt _ _ _) (fun _ => ?_)
  refine avoids_bind (avoids_readAt _ _ _) (fun _ => ?_)
  refine avoids_bind (avoids_CHECK h1 _) (fun _ => ?_)
  refine avoids_bind (avoids_readAt _ _ _) (fun _ => ?_)
  refine avoids_bind (avoids_readAt _ _ _) (fun _ => ?_)
  refine avoids_bind (avoids_CHECK h2 _) (fun _ => ?_)
  refine avoids_bind (avoids_Randfloat _ _ _) (fun _ => ?_)
  exact avoids_bind (avoids_Randfloat _ _ _) (fun _ => avoids_pure _ _)

theorem avoids_cropExtent (area ratio : ℚ) : Avoids batchCheckLines (cropExtent area ratio) := by
  unfold cropExtent
  refine avoids_bind (avoids_sqrtToInt _ _) (fun _ => ?_)
  refine avoids_bind ?_ (fun _ => avoids_pure _ _)
  split
  · exact avoids_undefined _
  · exact avoids_sqrtToInt _ _

theorem avoids_matCropExtent (area ratio : ℚ) (H W : Int) :
    Avoids batchCheckLines (matCropExtent area ratio H W) := by
  unfold matCropExtent
  exact avoids_bind (avoids_cropExtent _ _) (fun _ => avoids_pure _ _)

theorem avoids_bilinear (C crop_h crop_w height width : Int) (tmp td : List Dtype) :
    Avoids batchCheckLines (bilinear C crop_h crop_w height width tmp td) := by
  unfold bilinear
  refine avoids_forLoop (fun _ _ => ?_) _
  refine avoids_bind (avoids_scaledCoord _ _ _) (fun _ => ?_)
  refine avoids_forLoop (fun _ _ => ?_) _
  refine avoids_bind (avoids_scaledCoord _ _ _) (fun _ => ?_)
  refine avoids_forLoop (fun _ _ => ?_) _
  refine avoids_bind (avoids_readAt _ _ _) (fun _ => ?_)
  refine avoids_bind (avoids_readAt _ _ _) (fun _ => ?_)
  refine avoids_bind (avoids_readAt _ _ _) (fun _ => ?_)
  refine avoids_bind (avoids_readAt _ _ _) (fun _ => ?_)
  exact avoids_writeAt _ _ _ _

theorem avoids_randomAreaCrop (t : DataTransformer) (datum : Datum) (g : CropSpec)
    (td : List Dtype) : Avoids batchCheckLines (randomAreaCrop t datum g td) := by
  unfold randomAreaCrop
  refine avoids_bind (avoids_pushCropRanges _) (fun _ => ?_)
  refine avoids_bind (avoids_drawAreaRatio _ (by decide) (by decide) _ _) (fun _ => ?_)
  refine avoids_bind (avoids_cropExtent _ _) (fun _ => ?_)
  refine avoids_bind ?_ (fun _ => ?_)
  · split
    · exact avoids_bind (avoids_Rand _ _)
        (fun _ => avoids_bind (avoids_Rand _ _) (fun _ => avoids_pure _ _))
    · exact avoids_pure _ _
  · refine avoids_bind (avoids_directCopy _ _ _ _ _) (fun _ => ?_)
    exact avoids_bind (avoids_bilinear _ _ _ _ _ _ _) (fun _ => avoids_pure _ _)

theorem avoids_Transform (t : DataTransformer) (datum : Datum) (td : List Dtype) :
    Avoids batchCheckLines (t.Transform datum td) := by
  unfold Transform
  refine avoids_bind (avoids_drawMirror _) (fun _ => ?_)
  refine avoids_bind (avoids_checkDatum _ _) (fun _ => ?_)
  refine avoids_bind (avoids_replicateMeanValues _ (by decide) _) (fun _ => ?_)
  unfold cropAndCopy
  refine avoids_bind (avoids_cropOffsets _ _ _ _) (fun _ => ?_)
  split
  split
  · exact avoids_randomAreaCrop _ _ _ _
  · exact avoids_bind (avoids_directCopy _ _ _ _ _) (fun _ => avoids_pure _ _)

theorem avoids_checkBlobShape (t : DataTransformer) (datum : Datum) (b : Blob) :
    Avoids batchCheckLines (checkBlobShape t datum b) := by
  unfold checkBlobShape
  refine avoids_bind (avoids_CHECK (by decide) _) (fun _ => ?_)
  refine avoids_bind (avoids_CHECK (by decide) _) (fun _ => ?_)
  refine avoids_bind (avoids_CHECK (by decide) _) (fun _ => ?_)
  refine avoids_bind (avoids_CHECK (by decide) _) (fun _ => ?_)
  split
  · exact avoids_bind (avoids_CHECK (by decide) _) (fun _ => avoids_CHECK (by decide) _)
  · exact avoids_bind (avoids_CHECK (by decide) _) (fun _ => avoids_CHECK (by decide) _)

theorem avoids_matCopy (t : DataTransformer) (m : Mat) (C H W : Int) (g : CropSpec)
    (td : List Dtype) : Avoids batchCheckLines (matCopy t m C H W g td) := by
  unfold matCopy
  refine avoids_forLoop (fun _ _ => ?_) _
  refine avoids_bind ?_ (fun _ => ?_)
  · split
    · exact avoids_pure _ _
    · exact avoids_undefined _
  refine avoids_bind (avoids_readAt _ _ _) (fun _ => ?_)
  refine avoids_bind ?_ (fun _ => avoids_pure _ _)
  refine avoids_forLoop (fun _ _ => avoids_forLoop (fun _ _ => ?_) _) _
  refine avoids_bind (avoids_readAt _ _ _) (fun _ => ?_)
  repeat' split
  · refine avoids_bind (avoids_readAt _ _ _) (fun _ => ?_)
    exact avoids_bind (avoids_writeAt _ _ _ _) (fun _ => avoids_pure _ _)
  · refine avoids_bind (avoids_readAt _ _ _) (fun _ => ?_)
    exact avoids_bind (avoids_writeAt _ _ _ _) (fun _ => avoids_pure _ _)
  · exact avoids_bind (avoids_writeAt _ _ _ _) (fun _ => avoids_pure _ _)

theorem avoids_TransformMat (cv : OpenCV) (t : DataTransformer) (m : Mat) (b : Blob) :
    Avoids batchCheckLines (TransformMat cv t m b) := by
  unfold TransformMat
  simp only
  refine avoids_bind (avoids_CHECK (by decide) _) (fun _ => ?_)
  refine avoids_bind (avoids_CHECK (by decide) _) (fun _ => ?_)
  refine avoids_bind (avoids_CHECK (by decide) _) (fun _ => ?_)
  refine avoids_bind (avoids_CHECK (by decide) _) (fun _ => ?_)
  refine avoids_bind (avoids_CHECK (by decide) _) (fun _ => ?_)
  refine avoids_bind (avoids_drawMirror _) (fun _ => ?_)
  refine avoids_bind (avoids_CHECK (by decide) _) (fun _ => ?_)
  refine avoids_bind (avoids_CHECK (by decide) _) (fun _ => ?_)
  refine avoids_bind (avoids_CHECK (by decide) _) (fun _ => ?_)
  refine avoids_bind ?_ (fun _ => ?_)
  · split
    · refine avoids_bind (avoids_CHECK (by decide) _) (fun _ => ?_)
      exact avoids_bind (avoids_CHECK (by decide) _) (fun _ => avoids_CHECK (by decide) _)
    · exact avoids_pure _ _
  refine avoids_bind (avoids_replicateMeanValues _ (by decide) _) (fun _ => ?_)
  refine avoids_bind ?_ (fun _ => ?_)
  · split
    · refine avoids_bind (avoids_CHECK (by decide) _) (fun _ => ?_)
      refine avoids_bind (avoids_CHECK (by decide) _) (fun _ => ?_)
      refine avoids_bind (avoids_cropOffsets _ _ _ _) (fun _ => ?_)
      exact avoids_bind (avoids_cvCall _ _) (fun _ => avoids_pure _ _)
    · refine avoids_bind (avoids_CHECK (by decide) _) (fun _ => ?_)
      exact avoids_bind (avoids_CHECK (by decide) _) (fun _ => avoids_pure _ _)
  refine avoids_bind (avoids_CHECK (by decide) _) (fun _ => ?_)
  refine avoids_bind ?_ (fun _ => ?_)
  · split
    · refine avoids_bind (avoids_pushCropRanges _) (fun _ => ?_)
      refine avoids_bind (avoids_drawAreaRatio _ (by decide) (by decide) _ _) (fun _ => ?_)
      refine avoids_bind (avoids_matCropExtent _ _ _ _) (fun _ => ?_)
      refine avoids_bind (avoids_Rand _ _) (fun _ => ?_)
      refine avoids_bind (avoids_Rand _ _) (fun _ => ?_)
      refine avoids_bind (avoids_cvCall _ _) (fun _ => ?_)
      exact avoids_bind (avoids_cvCall _ _) (fun _ => avoids_pure _ _)
    · exact avoids_pure _ _
  exact avoids_bind (avoids_matCopy _ _ _ _ _ _ _) (fun _ => avoids_pure _ _)

theorem avoids_TransformDatumBlob (cv : OpenCV) (t : DataTransformer) (datum : Datum)
    (b : Blob) : Avoids batchCheckLines (TransformDatumBlob cv t datum b) := by
  unfold TransformDatumBlob
  split
  · exact avoids_bind (avoids_CHECK (by decide) _) (fun _ => avoids_TransformMat _ _ _ _)
  · refine avoids_bind (avoids_checkBlobShape _ _ _) (fun _ => ?_)
    exact avoids_bind (avoids_Transform _ _ _) (fun _ => avoids_pure _ _)

theorem avoids_transformItems {α : Type}
    {single : DataTransformer → α → Blob → Except Fault (DataTransformer × Blob)}
    (hs : ∀ t a b, Avoids batchCheckLines (single t a b)) (t : DataTransformer)
    (items : List α) (b : Blob) :
    Avoids batchCheckLines (transformItems single t items b) := by
  unfold transformItems
  refine avoids_forLoop (fun _ _ => ?_) _
  refine avoids_bind (avoids_dataFrom _ _ _) (fun _ => ?_)
  refine avoids_bind (avoids_readAt _ _ _) (fun _ => ?_)
  exact avoids_bind (hs _ _ _) (fun _ => avoids_pure _ _)

end caffe

namespace caffe

open DataTransformer

/-- C7 fails on the code: a batch of one 3 by 2 sample transformed on the
random-area path (TRAIN, random_crop on, crop_size 0) into a destination of two
slots, all elements 7, returns with the first two elements of slot 1
overwritten by 30 (and elements 2 and 5 of slot 0 never written): line 165
computes `top_index = h2 * height + w2`, with the row stride `height` instead
of `width`. -/
theorem batch_random_area_overwrites_next_slot :
    TransformDatumVector Examples.noCodec (Examples.randomArea 0 0 0) [Examples.datum3x2]
        ⟨2, 1, 3, 2, List.replicate 12 7⟩ =
      Except.ok (Examples.randomArea 1 3 2,
        ⟨2, 1, 3, 2, [30, 30, 7, 30, 30, 7, 30, 30, 7, 7, 7, 7]⟩) := by
  with_unfolding_all rfl

/-- C8: `Transform(vector<Datum>, tensor)` is rejected by its batch-size
checks (lines 275-276) if and only if the batch size N satisfies N <= 0 or
N > tensor.num, whereas `Transform(vector<Mat>, tensor)` is rejected by its
batch-size checks (lines 296-297) if and only if N <= 0 or N != tensor.num. -/
theorem batch_size_contracts (cv : OpenCV) (t : DataTransformer) (datum_vector : List Datum)
    (mat_vector : List Mat) (transformed_blob : Blob) :
    ((TransformDatumVector cv t datum_vector transformed_blob =
          Except.error (Fault.check 275) ∨
        TransformDatumVector cv t datum_vector transformed_blob =
          Except.error (Fault.check 276)) ↔
      ((datum_vector.length : Int) ≤ 0 ∨ (datum_vector.length : Int) > transformed_blob.num)) ∧
    ((TransformMatVector cv t mat_vector transformed_blob = Except.error (Fault.check 296) ∨
        TransformMatVector cv t mat_vector transformed_blob =
          Except.error (Fault.check 297)) ↔
      ((mat_vector.length : Int) ≤ 0 ∨ (mat_vector.length : Int) ≠ transformed_blob.num)) := by
  constructor
  · by_cases h1 : (datum_vector.length : Int) > 0
    · by_cases h2 : (datum_vector.length : Int) ≤ transformed_blob.num
      · have hval : TransformDatumVector cv t datum_vector transformed_blob =
            transformItems (TransformDatumBlob cv) t datum_vector transformed_blob := by
          unfold TransformDatumVector
          simp only [h1, h2, decide_True, CHECK_true, bind_ok_eq]
        rw [hval]
        have hav := avoids_transformItems (avoids_TransformDatumBlob cv) t datum_vector
          transformed_blob
        constructor
        · rintro (h | h)
          · exact absurd (hav 275 h) (by decide)
          · exact absurd (hav 276 h) (by decide)
        · intro h
          omega
      · have hval : TransformDatumVector cv t datum_vector transformed_blob =
            Except.error (Fault.check 276) := by
          unfold TransformDatumVector
          simp only [h1, h2, decide_True, decide_False, CHECK_true, CHECK_false, bind_ok_eq,
            bind_error_eq]
        rw [hval]
        constructor
        · intro _
          omega
        · intro _
          exact Or.inr rfl
    · have hval : TransformDatumVector cv t datum_vector transformed_blob =
          Except.error (Fault.check 275) := by
        unfold TransformDatumVector
        simp only [h1, decide_False, CHECK_false, bind_error_eq]
      rw [hval]
      constructor
      · intro _
        omega
      · intro _
        exact Or.inl rfl
  · by_cases h1 : (mat_vector.length : Int) > 0
    · by_cases h2 : (mat_vector.length : Int) = transformed_blob.num
      · have hval : TransformMatVector cv t mat_vector transformed_blob =
            transformItems (TransformMat cv) t mat_vector transformed_blob := by
          unfold TransformMatVector
          simp only [h1, decide_True, CHECK_true, bind_ok_eq]
          rw [decide_eq_true h2, CHECK_true, bind_ok_eq]
        rw [hval]
        have hav := avoids_transformItems (avoids_TransformMat cv) t mat_vector
          transformed_blob
        constructor
        · rintro (h | h)
          · exact absurd (hav 296 h) (by decide)
          · exact absurd (hav 297 h) (by decide)
        · intro h
          omega
      · have hval : TransformMatVector cv t mat_vector transformed_blob =
            Except.error (Fault.check 297) := by
          unfold TransformMatVector
          simp only [h1, h2, decide_True, decide_False, CHECK_true, CHECK_false, bind_ok_eq,
            bind_error_eq]
        rw [hval]
        constructor
        · intro _
          exact Or.inr h2
        · intro _
          exact Or.inr rfl
    · have hval : TransformMatVector cv t mat_vector transformed_blob =
          Except.error (Fault.check 296) := by
        unfold TransformMatVector
        simp only [h1, decide_False, CHECK_false, bind_error_eq]
      rw [hval]
      constructor
      · intro _
        omega
      · intro _
        exact Or.inl rfl

theorem CHECK_eq_error {line : Nat} {cond : Bool} {e : Fault}
    (h : CHECK line cond = Except.error e) : e = Fault.check line := by
  cases cond
  · cases h
    rfl
  · cases h

theorem CHECK_bind_eq_error {β : Type} {line : Nat} {cond : Bool}
    {f : Unit → Except Fault β} {e : Fault} (h : (CHECK line cond >>= f) = Except.error e) :
    e = Fault.check line ∨ f () = Except.error e := by
  cases cond
  · left
    cases h
    rfl
  · right
    exact h

theorem checkBlobShape_eq_ok_iff (t : DataTransformer) (datum : Datum) (b : Blob) :
    checkBlobShape t datum b = Except.ok () ↔
      (b.channels = datum.channels ∧ b.num ≥ 1 ∧
        ((t.param_.crop_size ≠ 0 ∧ b.height = t.param_.crop_size ∧
            b.width = t.param_.crop_size ∧ t.param_.crop_size ≤ datum.height ∧
            t.param_.crop_size ≤ datum.width) ∨
          (t.param_.crop_size = 0 ∧ b.height = datum.height ∧ b.width = datum.width))) := by
  unfold checkBlobShape
  simp only [CHECK_bind_eq_ok_iff, decide_eq_true_eq, ge_iff_le]
  by_cases hc : t.param_.crop_size = 0
  · simp only [hc, ne_eq, not_true_eq_false, if_false, CHECK_bind_eq_ok_iff, CHECK_eq_ok_iff,
      decide_eq_true_eq, false_and, true_and, false_or]
    constructor
    · rintro ⟨h1, h2, h3, h4, h5, h6⟩
      exact ⟨h1, h4, h5.symm, h6.symm⟩
    · rintro ⟨h1, h2, h3, h4⟩
      exact ⟨h1, by omega, by omega, h2, h3.symm, h4.symm⟩
  · simp only [hc, ne_eq, not_false_eq_true, if_true, CHECK_bind_eq_ok_iff, CHECK_eq_ok_iff,
      decide_eq_true_eq, true_and, false_and, or_false]
    constructor
    · rintro ⟨h1, h2, h3, h4, h5, h6⟩
      exact ⟨h1, h4, h5.symm, h6.symm, by omega, by omega⟩
    · rintro ⟨h1, h2, h3, h4, h5, h6⟩
      exact ⟨h1, by omega, by omega, h2, h3.symm, h4.symm⟩

theorem checkBlobShape_error {t : DataTransformer} {datum : Datum} {b : Blob} {e : Fault}
    (h : checkBlobShape t datum b = Except.error e) :
    ∃ l, l ∈ [249, 250, 251, 252, 255, 256, 258, 259] ∧ e = Fault.check l := by
  unfold checkBlobShape at h
  rcases CHECK_bind_eq_error h with rfl | h
  · exact ⟨_, by decide, rfl⟩
  rcases CHECK_bind_eq_error h with rfl | h
  · exact ⟨_, by decide, rfl⟩
  rcases CHECK_bind_eq_error h with rfl | h
  · exact ⟨_, by decide, rfl⟩
  rcases CHECK_bind_eq_error h with rfl | h
  · exact ⟨_, by decide, rfl⟩
  split at h
  · rcases CHECK_bind_eq_error h with rfl | h
    · exact ⟨_, by decide, rfl⟩
    · exact ⟨_, by decide, CHECK_eq_error h⟩
  · rcases CHECK_bind_eq_error h with rfl | h
    · exact ⟨_, by decide, rfl⟩
    · exact ⟨_, by decide, CHECK_eq_error h⟩

/-- C9: for a non-encoded datum the shape checks of
`Transform(datum, destination tensor)` pass, and the call is the flat-buffer
form on the tensor's storage, if and only if tensor.channels == datum.channels,
tensor.num >= 1, and either crop_size != 0 with
tensor.height == tensor.width == crop_size, crop_size <= datum.height and
crop_size <= datum.width, or crop_size == 0 with tensor.height == datum.height
and tensor.width == datum.width; otherwise the call ends in a failed check of
lines 249-259, before the destination is touched. -/
theorem blob_shape_validation (cv : OpenCV) (t : DataTransformer) (datum : Datum)
    (transformed_blob : Blob) (henc : datum.encoded = false) :
    (checkBlobShape t datum transformed_blob = Except.ok () ↔
      (transformed_blob.channels = datum.channels ∧ transformed_blob.num ≥ 1 ∧
        ((t.param_.crop_size ≠ 0 ∧ transformed_blob.height = t.param_.crop_size ∧
            transformed_blob.width = t.param_.crop_size ∧
            t.param_.crop_size ≤ datum.height ∧ t.param_.crop_size ≤ datum.width) ∨
          (t.param_.crop_size = 0 ∧ transformed_blob.height = datum.height ∧
            transformed_blob.width = datum.width)))) ∧
    (checkBlobShape t datum transformed_blob = Except.ok () →
      TransformDatumBlob cv t datum transformed_blob =
        (t.Transform datum transformed_blob.data >>= fun r =>
          pure (r.self, { transformed_blob with data := r.transformed_data }))) ∧
    (checkBlobShape t datum transformed_blob ≠ Except.ok () →
      ∃ l, l ∈ [249, 250, 251, 252, 255, 256, 258, 259] ∧
        TransformDatumBlob cv t datum transformed_blob = Except.error (Fault.check l)) := by
  refine ⟨checkBlobShape_eq_ok_iff t datum transformed_blob, ?_, ?_⟩
  · intro h
    unfold TransformDatumBlob
    simp only [henc, Bool.false_eq_true, if_false, h, bind_ok_eq]
  · intro h
    unfold TransformDatumBlob
    simp only [henc, Bool.false_eq_true, if_false]
    cases hc : checkBlobShape t datum transformed_blob with
    | ok u => exact absurd hc h
    | error e =>
      obtain ⟨l, hl, rfl⟩ := checkBlobShape_error hc
      exact ⟨l, hl, rfl⟩

/-- A 3 by 3 datum and a 1 x 1 x 2 x 2 tensor under crop_size 2: the datum is
not encoded, the shape checks pass and the call is the flat-buffer form. -/
theorem blob_shape_validation_witness :
    Examples.datum3x3.encoded = false ∧
    checkBlobShape Examples.cropTwo Examples.datum3x3 ⟨1, 1, 2, 2, [0, 0, 0, 0]⟩ =
      Except.ok () ∧
    TransformDatumBlob Examples.noCodec Examples.cropTwo Examples.datum3x3
        ⟨1, 1, 2, 2, [0, 0, 0, 0]⟩ =
      (Examples.cropTwo.Transform Examples.datum3x3 [0, 0, 0, 0] >>= fun r =>
        pure (r.self, ⟨1, 1, 2, 2, r.transformed_data⟩)) :=
  have hc : checkBlobShape Examples.cropTwo Examples.datum3x3 ⟨1, 1, 2, 2, [0, 0, 0, 0]⟩ =
      Except.ok () := by with_unfolding_all rfl
  ⟨rfl, hc,
    (blob_shape_validation Examples.noCodec Examples.cropTwo Examples.datum3x3
      ⟨1, 1, 2, 2, [0, 0, 0, 0]⟩ rfl).2.1 hc⟩

end caffe

namespace caffe

open DataTransformer

theorem replicateMeanValues_eq (t : DataTransformer) (line : Nat) {C : Int} (hC : 0 < C) :
    t.replicateMeanValues line C =
      if t.mean_values_.length > 0 ∧ t.mean_values_.length ≠ 1 ∧
          (t.mean_values_.length : Int) ≠ C then
        Except.error (Fault.check line)
      else Except.ok { t with mean_values_ := expandMeanValues t.mean_values_ C } := by
  cases h : t.replicateMeanValues line C with
  | ok t' =>
    obtain ⟨e, hlen⟩ := replicateMeanValues_eq_ok hC h
    rw [if_neg, e]
    rintro ⟨h1, h2, h3⟩
    rcases hlen h1 with h4 | h4
    · exact h2 h4
    · exact h3 h4
  | error e =>
    unfold replicateMeanValues at h
    split at h
    · rename_i hpos
      rcases CHECK_bind_eq_error h with rfl | h'
      · by_cases hc : t.mean_values_.length = 1 ∨ (t.mean_values_.length : Int) = C
        · rw [decide_eq_true hc, CHECK_true, bind_ok_eq] at h
          split at h <;> cases h
        · rw [if_pos]
          exact ⟨hpos, fun h1 => hc (Or.inl h1), fun h2 => hc (Or.inr h2)⟩
      · split at h' <;> cases h'
    · cases h

theorem normalized_ok {s : DataTransformer} {datum : Datum} {c i : Int}
    (hi : 0 ≤ i) (hsrc : i < datum.elements.length)
    (hmean : s.param_.has_mean_file = true → i < s.data_mean_.data.length)
    (hc : 0 ≤ c) (hmv : s.mean_values_.length > 0 → c < s.mean_values_.length) :
    ∃ v, normalized s datum c i = Except.ok v := by
  unfold normalized
  rw [datumElement_eq_readAt]
  obtain ⟨x, hx⟩ := readAt_of_lt hi hsrc
  rw [hx, bind_ok_eq]
  split
  · rename_i hm
    obtain ⟨m, hm'⟩ := readAt_of_lt hi (hmean hm)
    rw [hm', bind_ok_eq]
    exact ⟨_, rfl⟩
  · split
    · rename_i hv
      obtain ⟨m, hm'⟩ := readAt_of_lt hc (hmv hv)
      rw [hm', bind_ok_eq]
      exact ⟨_, rfl⟩
    · exact ⟨_, rfl⟩

theorem expandMeanValues_length {mv : List Dtype} {C : Int}
    (h : mv.length = 1 ∨ (mv.length : Int) = C) :
    ((expandMeanValues mv C).length : Int) = max C 0 := by
  unfold expandMeanValues
  split
  · simp only [List.length_replicate]
    omega
  · rename_i h1
    rcases h with h | h
    · exact absurd h h1
    · omega

/-- C10: when no random draw is needed (phase not TRAIN, mirror disabled),
`Transform(datum, flat buffer)` ends in a failed check if and only if
datum.channels <= 0, or datum.height < crop_size, or datum.width < crop_size,
or a mean map is configured whose (channels, height, width) is not exactly
(datum.channels, datum.height, datum.width), or mean constants are configured
whose count is neither 1 nor datum.channels; and on a datum, a mean map and a
destination that hold the elements their shapes announce, those are the only
calls that do not return. -/
theorem transform_failure_conditions (t : DataTransformer) (datum : Datum)
    (buf : List Dtype) (hphase : t.phase_ ≠ Phase.TRAIN)
    (hmirror : t.param_.mirror = false) :
    ((∃ l, t.Transform datum buf = Except.error (Fault.check l)) ↔
      (datum.channels ≤ 0 ∨ datum.height < t.param_.crop_size ∨
        datum.width < t.param_.crop_size ∨
        (t.param_.has_mean_file = true ∧
          ¬ (t.data_mean_.channels = datum.channels ∧ t.data_mean_.height = datum.height ∧
            t.data_mean_.width = datum.width)) ∨
        (t.mean_values_.length > 0 ∧ t.mean_values_.length ≠ 1 ∧
          (t.mean_values_.length : Int) ≠ datum.channels))) ∧
    (datum.channels * datum.height * datum.width ≤ datum.elements.length →
      (t.param_.has_mean_file = true →
        t.data_mean_.channels * t.data_mean_.height * t.data_mean_.width ≤
          t.data_mean_.data.length) →
      datum.channels * (centerCrop t.param_.crop_size datum.height datum.width).height *
          (centerCrop t.param_.crop_size datum.height datum.width).width ≤ buf.length →
      ((∃ e, t.Transform datum buf = Except.error e) ↔
        (datum.channels ≤ 0 ∨ datum.height < t.param_.crop_size ∨
          datum.width < t.param_.crop_size ∨
          (t.param_.has_mean_file = true ∧
            ¬ (t.data_mean_.channels = datum.channels ∧ t.data_mean_.height = datum.height ∧
              t.data_mean_.width = datum.width)) ∨
          (t.mean_values_.length > 0 ∧ t.mean_values_.length ≠ 1 ∧
            (t.mean_values_.length : Int) ≠ datum.channels)))) := by
  rw [Transform_noRand_eq hphase hmirror]
  cases hcd : checkDatum t datum with
  | error e =>
    -- one of the checks of lines 59-67 failed
    have hnot : ¬ (checkDatum t datum = Except.ok ()) := by
      rw [hcd]
      intro h
      cases h
    rw [checkDatum_eq_ok_iff] at hnot
    have hconds : datum.channels ≤ 0 ∨ datum.height < t.param_.crop_size ∨
        datum.width < t.param_.crop_size ∨
        (t.param_.has_mean_file = true ∧
          ¬ (t.data_mean_.channels = datum.channels ∧ t.data_mean_.height = datum.height ∧
            t.data_mean_.width = datum.width)) ∨
        (t.mean_values_.length > 0 ∧ t.mean_values_.length ≠ 1 ∧
          (t.mean_values_.length : Int) ≠ datum.channels) := by
      by_contra hcon
      apply hnot
      have h1 : 0 < datum.channels := by
        by_contra h
        exact hcon (Or.inl (by omega))
      have h2 : t.param_.crop_size ≤ datum.height := by
        by_contra h
        exact hcon (Or.inr (Or.inl (by omega)))
      have h3 : t.param_.crop_size ≤ datum.width := by
        by_contra h
        exact hcon (Or.inr (Or.inr (Or.inl (by omega))))
      refine ⟨h1, h2, h3, fun hm => ?_⟩
      by_contra hne
      exact hcon (Or.inr (Or.inr (Or.inr (Or.inl
        ⟨hm, fun h => hne ⟨h.1.symm, h.2.1.symm, h.2.2.symm⟩⟩))))
    rw [bind_error_eq]
    have hchk : ∃ l, e = Fault.check l := by
      rcases checkDatum_error hcd with h | h | h | h | h | h <;> exact ⟨_, h⟩
    obtain ⟨l, rfl⟩ := hchk
    exact ⟨⟨fun _ => hconds, fun _ => ⟨l, rfl⟩⟩, fun _ _ _ => ⟨fun _ => hconds, fun _ => ⟨_, rfl⟩⟩⟩
  | ok u =>
    obtain ⟨hC, hcH, hcW, hmf⟩ := checkDatum_eq_ok_iff.1 hcd
    rw [bind_ok_eq, replicateMeanValues_eq t 71 hC]
    by_cases hmv : t.mean_values_.length > 0 ∧ t.mean_values_.length ≠ 1 ∧
        (t.mean_values_.length : Int) ≠ datum.channels
    · rw [if_pos hmv, bind_error_eq]
      exact ⟨⟨fun _ => Or.inr (Or.inr (Or.inr (Or.inr hmv))), fun _ => ⟨_, rfl⟩⟩,
        fun _ _ _ => ⟨fun _ => Or.inr (Or.inr (Or.inr (Or.inr hmv))), fun _ => ⟨_, rfl⟩⟩⟩
    · rw [if_neg hmv, bind_ok_eq]
      have hconds : ¬ (datum.channels ≤ 0 ∨ datum.height < t.param_.crop_size ∨
          datum.width < t.param_.crop_size ∨
          (t.param_.has_mean_file = true ∧
            ¬ (t.data_mean_.channels = datum.channels ∧ t.data_mean_.height = datum.height ∧
              t.data_mean_.width = datum.width)) ∨
          (t.mean_values_.length > 0 ∧ t.mean_values_.length ≠ 1 ∧
            (t.mean_values_.length : Int) ≠ datum.channels)) := by
        rintro (h | h | h | h | h)
        · omega
        · omega
        · omega
        · obtain ⟨h1, h2, h3⟩ := hmf h.1
          exact h.2 ⟨h1.symm, h2.symm, h3.symm⟩
        · exact hmv h
      constructor
      · constructor
        · rintro ⟨l, hl⟩
          exfalso
          cases hdc : directCopy
              ({ t with mean_values_ := expandMeanValues t.mean_values_ datum.channels } :
                DataTransformer) datum
              (centerCrop t.param_.crop_size datum.height datum.width) buf with
          | error e =>
            rw [hdc, bind_error_eq] at hl
            cases hl
            exact avoids_directCopy [l] _ _ _ _ l hdc (List.mem_singleton.2 rfl)
          | ok td =>
            rw [hdc, bind_ok_eq] at hl
            cases hl
        · intro h
          exact absurd h hconds
      · intro hsrc hmean hbuf
        constructor
        · rintro ⟨e, he⟩
          exfalso
          have hcb := centerCrop_bounds hcH hcW
          obtain ⟨td, htd⟩ := @directCopy_ok
            ({ t with mean_values_ := expandMeanValues t.mean_values_ datum.channels } :
              DataTransformer) datum
            (centerCrop t.param_.crop_size datum.height datum.width) buf
            (by
              intro c h w hc hcC hh hhH hw hwW
              have hb := dataIndex_bounds hc hcC hh hhH hw hwW hcb.1 hcb.2.1 hcb.2.2.1
                hcb.2.2.2
              apply normalized_ok hb.1 (by omega) _ hc
              · intro hpos
                simp only at hpos
                rw [expandMeanValues_length_pos hC] at hpos
                have hlen : t.mean_values_.length = 1 ∨
                    (t.mean_values_.length : Int) = datum.channels := by
                  by_contra hcon
                  simp only [not_or] at hcon
                  exact hmv ⟨hpos, hcon.1, hcon.2⟩
                have := expandMeanValues_length hlen
                simp only
                omega
              · intro hm
                simp only at hm ⊢
                obtain ⟨h1, h2, h3⟩ := hmf hm
                have := hmean hm
                rw [← h1, ← h2, ← h3] at this
                omega)
            hbuf
          rw [htd, bind_ok_eq] at he
          cases he
        · intro h
          exact absurd h hconds

/-- The 10 by 10 example needs no random draw; its shapes are honoured and
none of the failure conditions of C10 holds, so the call returns. -/
theorem transform_failure_conditions_witness :
    Examples.evalCropFour.phase_ ≠ Phase.TRAIN ∧
    Examples.evalCropFour.param_.mirror = false ∧
    ¬ ∃ l, Examples.evalCropFour.Transform Examples.datum10x10 (List.replicate 16 0) =
      Except.error (Fault.check l) := by
  refine ⟨by decide, rfl, ?_⟩
  rw [(transform_failure_conditions Examples.evalCropFour Examples.datum10x10
    (List.replicate 16 0) (by decide) rfl).1]
  decide

end caffe

namespace caffe

open DataTransformer

/-- C11: for a non-encoded datum with channels > 0, height >= crop_size and
width >= crop_size, `InferBlobShape(datum)` returns exactly
[1, channels, crop_size, crop_size] when crop_size != 0 and
[1, channels, height, width] when crop_size == 0; it ends in a failed check of
lines 740-742 if channels <= 0 or height < crop_size or width < crop_size. -/
theorem infer_blob_shape (cv : OpenCV) (t : DataTransformer) (datum : Datum)
    (henc : datum.encoded = false) :
    (0 < datum.channels → t.param_.crop_size ≤ datum.height →
      t.param_.crop_size ≤ datum.width →
      (t.param_.crop_size ≠ 0 →
        InferBlobShape cv t datum =
          Except.ok [1, datum.channels, t.param_.crop_size, t.param_.crop_size]) ∧
      (t.param_.crop_size = 0 →
        InferBlobShape cv t datum =
          Except.ok [1, datum.channels, datum.height, datum.width])) ∧
    ((datum.channels ≤ 0 ∨ datum.height < t.param_.crop_size ∨
        datum.width < t.param_.crop_size) →
      ∃ l, l ∈ [740, 741, 742] ∧ InferBlobShape cv t datum = Except.error (Fault.check l)) := by
  constructor
  · intro hC hH hW
    have hrun : InferBlobShape cv t datum =
        Except.ok [1, datum.channels,
          if t.param_.crop_size ≠ 0 then t.param_.crop_size else datum.height,
          if t.param_.crop_size ≠ 0 then t.param_.crop_size else datum.width] := by
      unfold InferBlobShape
      simp only [henc, Bool.false_eq_true, if_false, gt_iff_lt, ge_iff_le, hC, hH, hW,
        decide_True, CHECK_true, bind_ok_eq, pure_eq_ok]
    constructor
    · intro hc
      rw [hrun, if_pos hc, if_pos hc]
    · intro hc
      rw [hrun]
      simp only [hc, ne_eq, not_true_eq_false, if_false]
  · intro hfail
    unfold InferBlobShape
    simp only [henc, Bool.false_eq_true, if_false, gt_iff_lt, ge_iff_le]
    by_cases hC : 0 < datum.channels
    · by_cases hH : t.param_.crop_size ≤ datum.height
      · have hW : ¬ t.param_.crop_size ≤ datum.width := by omega
        simp only [hC, hH, hW, decide_True, decide_False, CHECK_true, CHECK_false, bind_ok_eq,
          bind_error_eq]
        exact ⟨742, by decide, rfl⟩
      · simp only [hC, hH, decide_True, decide_False, CHECK_true, CHECK_false, bind_ok_eq,
          bind_error_eq]
        exact ⟨741, by decide, rfl⟩
    · simp only [hC, decide_False, CHECK_false, bind_error_eq]
      exact ⟨740, by decide, rfl⟩

/-- A 3 by 3 single-channel datum under crop_size 2: the datum is not encoded
and the inferred shape is [1, 1, 2, 2]. -/
theorem infer_blob_shape_witness :
    Examples.datum3x3.encoded = false ∧
    InferBlobShape Examples.noCodec Examples.cropTwo Examples.datum3x3 =
      Except.ok [1, Examples.datum3x3.channels, Examples.cropTwo.param_.crop_size,
        Examples.cropTwo.param_.crop_size] :=
  ⟨rfl,
    ((infer_blob_shape Examples.noCodec Examples.cropTwo Examples.datum3x3 rfl).1
      (by decide) (by decide) (by decide)).1 (by decide)⟩

/-- C12: for every n > 0 and every initialised generator, `Rand(n)` returns
the generator's unsigned 32-bit output modulo n, an integer r with
0 <= r < n, and advances the generator by one draw; `Rand(n)` ends in a failed
check if n <= 0 or if the generator is not initialised. -/
theorem rand_uniform_int (t : DataTransformer) (n : Int) :
    (∀ g : RNG, t.rng_ = some g → 0 < n →
      t.Rand n =
        Except.ok ((((g.stream g.pos % 2 ^ 32 : Nat) : Int) % n),
          { t with rng_ := some ⟨g.stream, g.pos + 1⟩ }) ∧
      0 ≤ (((g.stream g.pos % 2 ^ 32 : Nat) : Int) % n) ∧
      (((g.stream g.pos % 2 ^ 32 : Nat) : Int) % n) < n) ∧
    ((n ≤ 0 ∨ t.rng_ = none) →
      ∃ l, l ∈ [811, 812] ∧ t.Rand n = Except.error (Fault.check l)) := by
  constructor
  · intro g hg hn
    refine ⟨?_, Int.emod_nonneg _ (by omega), Int.emod_lt_of_pos _ hn⟩
    unfold DataTransformer.Rand
    rw [hg]
    simp only [gt_iff_lt, hn, if_true]
    rfl
  · intro h
    unfold DataTransformer.Rand
    cases hg : t.rng_ with
    | none => exact ⟨811, by decide, rfl⟩
    | some g =>
      have hn : ¬ (n > 0) := by
        rcases h with h | h
        · omega
        · rw [hg] at h
          cases h
      simp only [hn, if_false]
      exact ⟨812, by decide, rfl⟩

/-- A draw of `Rand(3)` from a generator whose next raw output is 1 returns
1. -/
theorem rand_uniform_int_witness :
    (Examples.mirrorOn ⟨fun _ => 1, 0⟩).rng_ = some ⟨fun _ => 1, 0⟩ ∧ (0 : Int) < 3 ∧
    (Examples.mirrorOn ⟨fun _ => 1, 0⟩).Rand 3 =
      Except.ok ((((1 % 2 ^ 32 : Nat) : Int) % 3),
        { Examples.mirrorOn ⟨fun _ => 1, 0⟩ with rng_ := some ⟨fun _ => 1, 0 + 1⟩ }) :=
  ⟨rfl, by decide,
    ((rand_uniform_int (Examples.mirrorOn ⟨fun _ => 1, 0⟩) 3).1 ⟨fun _ => 1, 0⟩ rfl
      (by decide)).1⟩

/-- C13: after `InitRand` the object holds a generator if and only if
mirroring is enabled or (phase is TRAIN and crop_size != 0); in every other
configuration the generator is absent and a following call of `Rand` ends in
the failed check of line 811. -/
theorem init_rand_generator (t : DataTransformer) (seeded : RNG) :
    ((t.InitRand seeded).rng_.isSome = true ↔
      (t.param_.mirror = true ∨ (t.phase_ = Phase.TRAIN ∧ t.param_.crop_size ≠ 0))) ∧
    (¬ (t.param_.mirror = true ∨ (t.phase_ = Phase.TRAIN ∧ t.param_.crop_size ≠ 0)) →
      (t.InitRand seeded).rng_ = none ∧
        ∀ n : Int, (t.InitRand seeded).Rand n = Except.error (Fault.check 811)) := by
  have hval : (t.InitRand seeded).rng_ =
      if (t.param_.mirror = true ∨ (t.phase_ = Phase.TRAIN ∧ t.param_.crop_size ≠ 0)) then
        some seeded else none := by
    unfold InitRand
    by_cases hm : t.param_.mirror = true
    · simp [hm]
    · by_cases hp : t.phase_ = Phase.TRAIN
      · by_cases hc : t.param_.crop_size = 0
        · simp [hm, hp, hc]
        · simp [hm, hp, hc]
      · simp [hm, hp]
  constructor
  · rw [hval]
    split <;> simp_all
  · intro hn
    have hnone : (t.InitRand seeded).rng_ = none := by
      rw [hval, if_neg hn]
    refine ⟨hnone, fun n => ?_⟩
    unfold DataTransformer.Rand
    rw [hnone]
    rfl

/-- In TEST phase without mirroring `InitRand` leaves no generator and
`Rand(2)` fails. -/
theorem init_rand_generator_witness :
    ¬ (Examples.evalCropFour.param_.mirror = true ∨
      (Examples.evalCropFour.phase_ = Phase.TRAIN ∧
        Examples.evalCropFour.param_.crop_size ≠ 0)) ∧
    (Examples.evalCropFour.InitRand Examples.zeroRng).Rand 2 =
      Except.error (Fault.check 811) :=
  ⟨by decide,
    ((init_rand_generator Examples.evalCropFour Examples.zeroRng).2 (by decide)).2 2⟩

/-- C14 as stated fails: when `rand()` returns `RAND_MAX`, `Randfloat(0, 1)`
returns 1, the upper bound itself. -/
theorem randfloat_half_open_counterexample :
    (0 : ℚ) < 1 ∧
    (Examples.maxRand 0).Randfloat 0 1 = Except.ok (1, Examples.maxRand 1) ∧
    ¬ ((1 : ℚ) < 1) :=
  ⟨by norm_num, by with_unfolding_all rfl, by norm_num⟩

/-- C14, amended: for every lo < hi and the value r in {0, ..., RAND_MAX}
that `rand()` returns, `Randfloat(lo, hi)` returns
(r / RAND_MAX) * (hi - lo) + lo (exact arithmetic), which lies in the closed
interval [lo, hi] and is below hi exactly when r < RAND_MAX; `Randfloat` ends
in the failed check of line 819 if hi <= lo. -/
theorem randfloat_closed_interval (t : DataTransformer) (lo hi : ℚ) :
    (lo < hi →
      t.libc_rand.stream t.libc_rand.pos % (RAND_MAX + 1) ≤ RAND_MAX ∧
      t.Randfloat lo hi =
        Except.ok
          (((t.libc_rand.stream t.libc_rand.pos % (RAND_MAX + 1) : Nat) : ℚ) / (RAND_MAX : ℚ) *
              (hi - lo) + lo,
            { t with libc_rand := ⟨t.libc_rand.stream, t.libc_rand.pos + 1⟩ }) ∧
      lo ≤ ((t.libc_rand.stream t.libc_rand.pos % (RAND_MAX + 1) : Nat) : ℚ) / (RAND_MAX : ℚ) *
          (hi - lo) + lo ∧
      ((t.libc_rand.stream t.libc_rand.pos % (RAND_MAX + 1) : Nat) : ℚ) / (RAND_MAX : ℚ) *
          (hi - lo) + lo ≤ hi ∧
      (((t.libc_rand.stream t.libc_rand.pos % (RAND_MAX + 1) : Nat) : ℚ) / (RAND_MAX : ℚ) *
          (hi - lo) + lo < hi ↔
        t.libc_rand.stream t.libc_rand.pos % (RAND_MAX + 1) < RAND_MAX)) ∧
    (hi ≤ lo → t.Randfloat lo hi = Except.error (Fault.check 819)) := by
  constructor
  · intro hlt
    have hr : t.libc_rand.stream t.libc_rand.pos % (RAND_MAX + 1) ≤ RAND_MAX :=
      Nat.lt_succ_iff.1 (Nat.mod_lt _ (Nat.succ_pos _))
    have hrun : t.Randfloat lo hi =
        Except.ok
          (((t.libc_rand.stream t.libc_rand.pos % (RAND_MAX + 1) : Nat) : ℚ) / (RAND_MAX : ℚ) *
              (hi - lo) + lo,
            { t with libc_rand := ⟨t.libc_rand.stream, t.libc_rand.pos + 1⟩ }) := by
      unfold DataTransformer.Randfloat
      rw [if_pos (by simpa using hlt)]
      rfl
    have key : ∀ r : Nat, r ≤ RAND_MAX →
        lo ≤ (r : ℚ) / (RAND_MAX : ℚ) * (hi - lo) + lo ∧
        (r : ℚ) / (RAND_MAX : ℚ) * (hi - lo) + lo ≤ hi ∧
        ((r : ℚ) / (RAND_MAX : ℚ) * (hi - lo) + lo < hi ↔ r < RAND_MAX) := by
      intro r hr
      have hM : (0 : ℚ) < (RAND_MAX : ℚ) := by
        unfold RAND_MAX
        norm_num
      have hrq : (r : ℚ) ≤ (RAND_MAX : ℚ) := by exact_mod_cast hr
      have hr0 : (0 : ℚ) ≤ (r : ℚ) := Nat.cast_nonneg r
      have hd : 0 < hi - lo := by linarith
      have hq0 : 0 ≤ (r : ℚ) / (RAND_MAX : ℚ) := div_nonneg hr0 hM.le
      have hq1 : (r : ℚ) / (RAND_MAX : ℚ) ≤ 1 := (div_le_one hM).2 hrq
      refine ⟨by nlinarith, by nlinarith, ?_⟩
      constructor
      · intro h
        by_contra hnot
        have : r = RAND_MAX := by omega
        rw [this, div_self hM.ne'] at h
        linarith
      · intro h
        have hrq' : (r : ℚ) < (RAND_MAX : ℚ) := by exact_mod_cast h
        have : (r : ℚ) / (RAND_MAX : ℚ) < 1 := (div_lt_one hM).2 hrq'
        nlinarith
    obtain ⟨k1, k2, k3⟩ := key _ hr
    exact ⟨hr, hrun, k1, k2, k3⟩
  · intro hle
    unfold DataTransformer.Randfloat
    rw [if_neg (by simpa using hle)]
    rfl

/-- A draw of `Randfloat(0, 1)` with `rand()` returning `RAND_MAX`: the bounds
are ordered and the result is 1, inside the closed interval. -/
theorem randfloat_closed_interval_witness :
    (0 : ℚ) < 1 ∧
    (((Examples.maxRand 0).libc_rand.stream (Examples.maxRand 0).libc_rand.pos %
        (RAND_MAX + 1) : Nat) : ℚ) / (RAND_MAX : ℚ) * (1 - 0) + 0 ≤ 1 :=
  ⟨by norm_num,
    ((randfloat_closed_interval (Examples.maxRand 0) 0 1).1 (by norm_num)).2.2.2.1⟩

end caffe

namespace caffe

open DataTransformer

theorem readAt_natCast {α : Type} (a : List α) (i : Nat) {x : α} (h : a[i]? = some x) :
    readAt a (i : Int) = Except.ok x := by
  unfold readAt
  rw [if_pos (Int.natCast_nonneg i)]
  simp only [Int.toNat_ofNat, h]
  rfl

theorem sum_take_succ_of_getElem? {l : List ℚ} {i : Nat} {x : ℚ} (h : l[i]? = some x) :
    (l.take (i + 1)).sum = (l.take i).sum + x := by
  rw [List.take_succ, h]
  simp

/-- What `Randfloat` returns on ordered bounds. -/
theorem Randfloat_bounds (t : DataTransformer) {lo hi : ℚ} (h : lo < hi) :
    ∃ seed : ℚ,
      t.Randfloat lo hi =
        Except.ok (seed, { t with libc_rand := ⟨t.libc_rand.stream, t.libc_rand.pos + 1⟩ }) ∧
      seed = ((t.libc_rand.stream t.libc_rand.pos % (RAND_MAX + 1) : Nat) : ℚ) /
        (RAND_MAX : ℚ) * (hi - lo) + lo ∧
      lo ≤ seed ∧ seed ≤ hi ∧
      (t.libc_rand.stream t.libc_rand.pos % (RAND_MAX + 1) ≠ 0 → lo < seed) := by
  refine ⟨_, ?_, rfl, ?_⟩
  · unfold DataTransformer.Randfloat
    rw [if_pos (by simpa using h)]
    rfl
  · have hr : t.libc_rand.stream t.libc_rand.pos % (RAND_MAX + 1) ≤ RAND_MAX :=
      Nat.lt_succ_iff.1 (Nat.mod_lt _ (Nat.succ_pos _))
    generalize t.libc_rand.stream t.libc_rand.pos % (RAND_MAX + 1) = r at hr ⊢
    have hM : (0 : ℚ) < (RAND_MAX : ℚ) := by
      unfold RAND_MAX
      norm_num
    have hrq : (r : ℚ) ≤ (RAND_MAX : ℚ) := by exact_mod_cast hr
    have hr0 : (0 : ℚ) ≤ (r : ℚ) := Nat.cast_nonneg r
    have hd : 0 < hi - lo := by linarith
    have hq0 : 0 ≤ (r : ℚ) / (RAND_MAX : ℚ) := div_nonneg hr0 hM.le
    have hq1 : (r : ℚ) / (RAND_MAX : ℚ) ≤ 1 := (div_le_one hM).2 hrq
    refine ⟨by nlinarith, by nlinarith, ?_⟩
    intro hne
    have hrpos : (0 : ℚ) < (r : ℚ) := by
      have : 0 < r := Nat.pos_of_ne_zero hne
      exact_mod_cast this
    have : 0 < (r : ℚ) / (RAND_MAX : ℚ) := div_pos hrpos hM
    nlinarith

/-- The summation loop of lines 441-444. -/
theorem countLoop_eq (array : List ℚ) (n : Nat) (hn : n ≤ array.length) (init : ℚ) :
    (List.range n).foldlM (fun (count : ℚ) (k : Nat) =>
        (readAt array (k : Int) >>= fun a => (pure (count + a) : Except Fault ℚ))) init =
      Except.ok (init + (array.take n).sum) := by
  induction n with
  | zero => simp [pure_eq_ok]
  | succ k ih =>
    rw [List.range_succ, List.foldlM_append, ih (by omega), bind_ok_eq]
    have hk : k < array.length := by omega
    have hget : array[k]? = some array[k] := List.getElem?_eq_getElem hk
    rw [List.foldlM_cons, readAt_natCast array k hget, bind_ok_eq, pure_eq_ok, bind_ok_eq,
      List.foldlM_nil, pure_eq_ok, sum_take_succ_of_getElem? hget]
    congr 1
    ring

/-- The walk of lines 449-455 returns the least index whose running sum
reaches the seed. -/
theorem findCenterLoop_spec (orig : List ℚ) (len : Nat) (hlen : len ≤ orig.length)
    (seed : ℚ) (hseed : seed ≤ (orig.take len).sum) :
    ∀ (fuel i : Nat) (cur : List ℚ), 1 ≤ i → i + fuel = len →
      cur.length = orig.length →
      cur[i - 1]? = some ((orig.take i).sum) →
      (∀ k, i ≤ k → cur[k]? = orig[k]?) →
      (∀ j, j < i → (orig.take (j + 1)).sum < seed) →
      ∃ (r : Nat) (cur' : List ℚ),
        findCenterLoop seed fuel i cur = Except.ok ((r : Int), cur') ∧
        r < len ∧ seed ≤ (orig.take (r + 1)).sum ∧
        (∀ j, j < r → (orig.take (j + 1)).sum < seed) ∧
        cur'.length = orig.length ∧ (∀ k, len ≤ k → cur'[k]? = orig[k]?) := by
  intro fuel
  induction fuel with
  | zero =>
    intro i cur hi hfuel _ _ _ hbelow
    exfalso
    have h1 := hbelow (i - 1) (by omega)
    have h2 : i - 1 + 1 = len := by omega
    rw [h2] at h1
    linarith
  | succ f ih =>
    intro i cur hi hfuel hcl hprev hrest hbelow
    have hil : i < orig.length := by omega
    have hgi : orig[i]? = some orig[i] := List.getElem?_eq_getElem hil
    have hci : cur[i]? = some orig[i] := by rw [hrest i (le_refl i), hgi]
    have hcast : ((i : Int) - 1) = ((i - 1 : Nat) : Int) := by omega
    have hsum : (orig.take (i + 1)).sum = orig[i] + (orig.take i).sum := by
      rw [sum_take_succ_of_getElem? hgi]
      ring
    have hw : writeAt cur (i : Int) (orig[i] + (orig.take i).sum) =
        Except.ok (cur.set i (orig[i] + (orig.take i).sum)) := by
      unfold writeAt
      rw [if_pos ⟨Int.natCast_nonneg i, by omega⟩]
      simp only [Int.toNat_ofNat]
      rfl
    unfold findCenterLoop
    rw [readAt_natCast cur i hci, bind_ok_eq, hcast, readAt_natCast cur (i - 1) hprev,
      bind_ok_eq, hw, bind_ok_eq]
    by_cases hs : seed ≤ orig[i] + (orig.take i).sum
    · rw [if_pos hs]
      refine ⟨i, _, rfl, by omega, by rw [hsum]; exact hs, hbelow, by simp [hcl], ?_⟩
      intro k hk
      rw [List.getElem?_set]
      have : i ≠ k := by omega
      simp only [this, if_false]
      exact hrest k (by omega)
    · rw [if_neg hs]
      apply ih (i + 1) _ (by omega) (by omega) (by simp [hcl])
      · simp only [Nat.add_sub_cancel]
        rw [List.getElem?_set]
        have : i < cur.length := by omega
        simp only [if_true, this, hsum]
      · intro k hk
        rw [List.getElem?_set]
        have : i ≠ k := by omega
        simp only [this, if_false]
        exact hrest k (by omega)
      · intro j hj
        by_cases hji : j < i
        · exact hbelow j hji
        · have : j = i := by omega
          subst this
          rw [hsum]
          linarith

/-- The result of `Find_center` on the first `len` elements of an array with
positive sum: the least index whose running sum reaches the seed drawn by
`Randfloat(0, sum)`. -/
theorem Find_center_spec (t : DataTransformer) (array : List ℚ) (len : Nat)
    (hlen1 : 1 ≤ len) (hlen : len ≤ array.length) (hpos : 0 < (array.take len).sum) :
    ∃ (i : Nat) (array' : List ℚ) (seed : ℚ),
      t.Randfloat 0 (array.take len).sum =
        Except.ok (seed, { t with libc_rand := ⟨t.libc_rand.stream, t.libc_rand.pos + 1⟩ }) ∧
      t.Find_center array (len : Int) =
        Except.ok ((i : Int), array',
          { t with libc_rand := ⟨t.libc_rand.stream, t.libc_rand.pos + 1⟩ }) ∧
      i < len ∧ seed ≤ (array.take (i + 1)).sum ∧
      (∀ j, j < i → (array.take (j + 1)).sum < seed) ∧
      array'.length = array.length ∧ (∀ k, len ≤ k → array'[k]? = array[k]?) := by
  obtain ⟨seed, hrf, -, -, hhi, -⟩ := Randfloat_bounds t hpos
  have hcount : forLoop (len : Int) (fun (count : ℚ) k =>
      (readAt array k >>= fun a => (pure (count + a) : Except Fault ℚ))) 0 =
      Except.ok ((array.take len).sum) := by
    unfold forLoop
    simp only [Int.toNat_ofNat]
    rw [countLoop_eq array len hlen 0, zero_add]
  have h0 : array[0]? = some array[0] := List.getElem?_eq_getElem (by omega)
  have hr0 : readAt array 0 = Except.ok array[0] := readAt_natCast array 0 h0
  have hcs0 : (array.take 1).sum = array[0] := by
    have := sum_take_succ_of_getElem? h0
    simpa using this
  unfold Find_center
  rw [hcount, bind_ok_eq, hrf, bind_ok_eq]
  simp only
  rw [hr0, bind_ok_eq]
  by_cases hs : seed ≤ array[0]
  · rw [if_pos hs]
    refine ⟨0, array, seed, rfl, rfl, by omega, by rw [hcs0]; exact hs, ?_, rfl, fun _ _ => rfl⟩
    intro j hj
    omega
  · rw [if_neg hs]
    have hfuel : ((len : Int) - 1).toNat = len - 1 := by omega
    rw [hfuel]
    obtain ⟨r, cur', hloop, hr, hge, hbelow, hl', hrest'⟩ :=
      findCenterLoop_spec array len hlen seed hhi (len - 1) 1 array (le_refl 1) (by omega) rfl
        (by simp only [Nat.sub_self]; rw [h0, hcs0]) (fun _ _ => rfl)
        (by
          intro j hj
          have : j = 0 := by omega
          subst this
          rw [hcs0]
          linarith)
    rw [hloop, bind_ok_eq]
    exact ⟨r, cur', seed, rfl, rfl, hr, hge, hbelow, hl', hrest'⟩

/-- C18: for every array of length len >= 1 with positive sum S (non-negative
entries or not) and the seed in [0, S] that `Randfloat(0, S)` returns,
`Find_center` returns an index i in [0, len), and i is the least index whose
cumulative sum array[0] + ... + array[i] is >= seed. -/
theorem find_center_first_index (t : DataTransformer) (array : List ℚ)
    (hlen : 1 ≤ array.length) (hpos : 0 < array.sum) :
    ∃ (i : Nat) (array' : List ℚ) (seed : ℚ) (t' : DataTransformer),
      t.Randfloat 0 array.sum = Except.ok (seed, t') ∧
      0 ≤ seed ∧ seed ≤ array.sum ∧
      t.Find_center array (array.length : Int) = Except.ok ((i : Int), array', t') ∧
      i < array.length ∧ seed ≤ (array.take (i + 1)).sum ∧
      ∀ j, j < i → (array.take (j + 1)).sum < seed := by
  have htake : array.take array.length = array := List.take_length array
  have hpos' : 0 < (array.take array.length).sum := by rw [htake]; exact hpos
  obtain ⟨i, array', seed, hrf, hfc, hi, hge, hbelow, -, -⟩ :=
    Find_center_spec t array array.length hlen (le_refl _) hpos'
  rw [htake] at hrf
  obtain ⟨seed', hrf', -, hlo, hhi, -⟩ := Randfloat_bounds t hpos
  have hss : seed' = seed := by
    rw [hrf'] at hrf
    cases hrf
    rfl
  subst hss
  exact ⟨i, array', seed', _, hrf, hlo, hhi, hfc, hi, hge, hbelow⟩

/-- The weights [1, 3] with `rand()` returning `RAND_MAX`: the array is not
empty, its sum is positive, the seed is 4 and `Find_center` returns index 1,
leaving the running sums [1, 4] in the array. -/
theorem find_center_first_index_witness :
    1 ≤ ([1, 3] : List ℚ).length ∧ 0 < ([1, 3] : List ℚ).sum ∧
    (Examples.maxRand 0).Find_center [1, 3] 2 = Except.ok (1, [1, 4], Examples.maxRand 1) ∧
    ∃ (i : Nat) (array' : List ℚ) (seed : ℚ) (t' : DataTransformer),
      (Examples.maxRand 0).Randfloat 0 ([1, 3] : List ℚ).sum = Except.ok (seed, t') ∧
      0 ≤ seed ∧ seed ≤ ([1, 3] : List ℚ).sum ∧
      (Examples.maxRand 0).Find_center [1, 3] (([1, 3] : List ℚ).length : Int) =
        Except.ok ((i : Int), array', t') ∧
      i < ([1, 3] : List ℚ).length ∧ seed ≤ (([1, 3] : List ℚ).take (i + 1)).sum ∧
      ∀ j, j < i → (([1, 3] : List ℚ).take (j + 1)).sum < seed :=
  ⟨by decide, by norm_num, by with_unfolding_all rfl,
    find_center_first_index (Examples.maxRand 0) [1, 3] (by decide) (by norm_num)⟩

end caffe

namespace caffe

open DataTransformer

theorem isqrtUpTo_spec (n : Nat) :
    ∀ b : Nat, isqrtUpTo n b ≤ b ∧ isqrtUpTo n b * isqrtUpTo n b ≤ n ∧
      ∀ k, k ≤ b → k * k ≤ n → k ≤ isqrtUpTo n b := by
  intro b
  induction b with
  | zero =>
    refine ⟨le_refl 0, Nat.zero_le _, ?_⟩
    intro k hk _
    exact hk
  | succ b ih =>
    unfold isqrtUpTo
    split
    · rename_i h
      exact ⟨le_refl _, h, fun k hk _ => hk⟩
    · rename_i h
      refine ⟨by omega, ih.2.1, ?_⟩
      intro k hk hkk
      rcases Nat.lt_or_ge k (b + 1) with hlt | hge
      · exact ih.2.2 k (by omega) hkk
      · have : k = b + 1 := by omega
        subst this
        exact absurd hkk h

theorem isqrtUpTo_self (n : Nat) :
    isqrtUpTo n n * isqrtUpTo n n ≤ n ∧ n < (isqrtUpTo n n + 1) * (isqrtUpTo n n + 1) := by
  obtain ⟨h1, h2, h3⟩ := isqrtUpTo_spec n n
  refine ⟨h2, ?_⟩
  by_contra hnot
  have hle : (isqrtUpTo n n + 1) * (isqrtUpTo n n + 1) ≤ n := by omega
  have hb : isqrtUpTo n n + 1 ≤ n := by nlinarith
  have := h3 _ hb hle
  omega

/-- The conversion `int r = sqrt(x)` gives the integer part of the square
root. -/
theorem sqrtToInt_eq_ok {x : ℚ} {r : Int} (h : sqrtToInt x = Except.ok r) :
    0 ≤ x ∧ 0 ≤ r ∧ (r : ℚ) * (r : ℚ) ≤ x ∧ x < ((r : ℚ) + 1) * ((r : ℚ) + 1) ∧
      (1 ≤ r ↔ 1 ≤ x) := by
  unfold sqrtToInt at h
  split at h
  · cases h
  · rename_i hx
    have hx0 : 0 ≤ x := not_lt.1 hx
    cases h
    have hfl0 : 0 ≤ Rat.floor x := by
      have : (0 : Int) ≤ ⌊x⌋ := Int.floor_nonneg.2 hx0
      simpa using this
    obtain ⟨n, hn⟩ := Int.eq_ofNat_of_zero_le hfl0
    have hfloor : ⌊x⌋ = (n : Int) := by
      rw [← hn]
      rfl
    have hn' : (Rat.floor x).toNat = n := by
      rw [hn]
      exact Int.toNat_ofNat n
    rw [hn']
    obtain ⟨hlo, hhi⟩ := isqrtUpTo_self n
    have hnx : (n : ℚ) ≤ x := by
      have := Int.floor_le x
      rw [hfloor] at this
      exact_mod_cast this
    have hxn : x < (n : ℚ) + 1 := by
      have := Int.lt_floor_add_one x
      rw [hfloor] at this
      exact_mod_cast this
    have hloq : ((isqrtUpTo n n : Nat) : ℚ) * ((isqrtUpTo n n : Nat) : ℚ) ≤ (n : ℚ) := by
      exact_mod_cast hlo
    have hhiq : (n : ℚ) + 1 ≤
        (((isqrtUpTo n n : Nat) : ℚ) + 1) * (((isqrtUpTo n n : Nat) : ℚ) + 1) := by
      have : n + 1 ≤ (isqrtUpTo n n + 1) * (isqrtUpTo n n + 1) := hhi
      exact_mod_cast this
    refine ⟨hx0, Int.natCast_nonneg _, ?_, ?_, ?_⟩
    · push_cast
      linarith
    · push_cast
      linarith
    · constructor
      · intro h1
        have h1' : 1 ≤ isqrtUpTo n n := by exact_mod_cast h1
        have : 1 ≤ n := by nlinarith
        have : (1 : ℚ) ≤ (n : ℚ) := by exact_mod_cast this
        linarith
      · intro h1
        have hn1 : 1 ≤ n := by
          by_contra hlt
          have : n = 0 := by omega
          subst this
          simp at hxn
          linarith
        have := (isqrtUpTo_spec n n).2.2 1 hn1 (by omega)
        exact_mod_cast this

/-- What lines 115-116 compute when they are defined. -/
theorem cropExtent_eq_ok {area ratio : ℚ} {ch cw : Int}
    (h : cropExtent area ratio = Except.ok (ch, cw)) :
    0 ≤ ch ∧ 0 ≤ cw ∧ (1 ≤ ch ↔ 1 ≤ area * ratio) ∧ (1 ≤ cw ↔ 1 ≤ area / ratio) ∧
      (ch : ℚ) * (ch : ℚ) ≤ area * ratio ∧ area * ratio < ((ch : ℚ) + 1) * ((ch : ℚ) + 1) ∧
      (cw : ℚ) * (cw : ℚ) ≤ area / ratio ∧ area / ratio < ((cw : ℚ) + 1) * ((cw : ℚ) + 1) := by
  unfold cropExtent at h
  rw [bind_eq_ok_iff] at h
  obtain ⟨a, ha, h⟩ := h
  rw [bind_eq_ok_iff] at h
  obtain ⟨b, hb, h⟩ := h
  simp only [pure_eq_ok, Except.ok.injEq, Prod.mk.injEq] at h
  obtain ⟨rfl, rfl⟩ := h
  split at hb
  · cases hb
  · obtain ⟨-, a0, a1, a2, a3⟩ := sqrtToInt_eq_ok ha
    obtain ⟨-, b0, b1, b2, b3⟩ := sqrtToInt_eq_ok hb
    exact ⟨a0, b0, a3, b3, a1, a2, b1, b2⟩

/-- What lines 393-396 compute when they are defined. -/
theorem matCropExtent_eq_ok {area ratio : ℚ} {H W ch cw : Int}
    (h : matCropExtent area ratio H W = Except.ok (ch, cw)) :
    ch ≤ H ∧ cw ≤ W ∧ (0 ≤ H → 0 ≤ ch) ∧ (0 ≤ W → 0 ≤ cw) ∧
      (1 ≤ ch ↔ (1 ≤ area * ratio ∧ 1 ≤ H)) ∧ (1 ≤ cw ↔ (1 ≤ area / ratio ∧ 1 ≤ W)) := by
  unfold matCropExtent at h
  rw [bind_eq_ok_iff] at h
  obtain ⟨⟨a, b⟩, hab, h⟩ := h
  simp only [pure_eq_ok, Except.ok.injEq, Prod.mk.injEq] at h
  obtain ⟨rfl, rfl⟩ := h
  obtain ⟨a0, b0, a1, b1, -⟩ := cropExtent_eq_ok hab
  rw [← a1, ← b1]
  refine ⟨?_, ?_, ?_, ?_, ?_, ?_⟩ <;> split <;> omega

theorem no812_Rand (t : DataTransformer) {n : Int} (hn : 0 < n) : Avoids [812] (t.Rand n) := by
  unfold DataTransformer.Rand
  split
  · exact avoids_throw_check (by decide)
  · rw [if_pos hn]
    exact avoids_pure _ _

theorem no812_drawMirror (t : DataTransformer) : Avoids [812] t.drawMirror := by
  unfold drawMirror
  split
  · exact avoids_bind (no812_Rand _ (by decide)) (fun _ => avoids_pure _ _)
  · exact avoids_pure _ _

theorem CHECK_bind_avoids {β : Type} {L : List Nat} {line : Nat} {cond : Bool}
    {f : Unit → Except Fault β} (hl : line ∉ L) (hf : cond = true → Avoids L (f ())) :
    Avoids L (CHECK line cond >>= f) := by
  cases cond
  · rw [CHECK_false, bind_error_eq]
    exact avoids_throw_check hl
  · rw [CHECK_true, bind_ok_eq]
    exact hf rfl

theorem avoids_bind_of_ok {α β : Type} {L : List Nat} {x : Except Fault α}
    {f : α → Except Fault β} (hx : Avoids L x) (hf : ∀ a, x = Except.ok a → Avoids L (f a)) :
    Avoids L (x >>= f) := by
  cases x with
  | error e =>
    rw [bind_error_eq]
    intro l h
    cases h
    exact hx l rfl
  | ok a => exact hf a rfl

theorem no812_cropOffsets (t : DataTransformer) {H W : Int} (b : Bool)
    (hH : t.param_.crop_size ≤ H) (hW : t.param_.crop_size ≤ W) :
    Avoids [812] (t.cropOffsets H W b) := by
  unfold cropOffsets
  simp only
  split
  · split
    · refine avoids_bind_of_ok (no812_Rand _ (by omega)) ?_
      rintro ⟨r1, s1⟩ h1
      have hp : s1.param_ = t.param_ := by rw [(Rand_eq_ok h1).1]
      exact avoids_bind (no812_Rand _ (by omega)) (fun _ => avoids_pure _ _)
    · exact avoids_pure _ _
  · exact avoids_pure _ _

theorem no812_replicateMeanValues (t : DataTransformer) {line : Nat} (hl : line ∉ [812])
    (C : Int) : Avoids [812] (t.replicateMeanValues line C) := by
  unfold replicateMeanValues
  split
  · refine avoids_bind (avoids_CHECK hl _) (fun _ => ?_)
    split <;> exact avoids_pure _ _
  · exact avoids_pure _ _

theorem no812_pushCropRanges (t : DataTransformer) : Avoids [812] t.pushCropRanges := by
  unfold pushCropRanges
  split
  · refine avoids_forLoop (fun _ _ => ?_) _
    exact avoids_bind (avoids_readAt _ _ _)
      (fun _ => avoids_bind (avoids_readAt _ _ _) (fun _ => avoids_pure _ _))
  · exact avoids_pure _ _

theorem no812_Randfloat (t : DataTransformer) (n m : ℚ) : Avoids [812] (t.Randfloat n m) := by
  unfold DataTransformer.Randfloat
  split
  · exact avoids_pure _ _
  · exact avoids_throw_check (by decide)

theorem no812_drawAreaRatio (t : DataTransformer) {l1 l2 : Nat} (h1 : l1 ∉ [812])
    (h2 : l2 ∉ [812]) (H W : Int) : Avoids [812] (t.drawAreaRatio l1 l2 H W) := by
  unfold drawAreaRatio
  refine avoids_bind (avoids_readAt _ _ _) (fun _ => ?_)
  refine avoids_bind (avoids_readAt _ _ _) (fun _ => ?_)
  refine avoids_bind (avoids_CHECK h1 _) (fun _ => ?_)
  refine avoids_bind (avoids_readAt _ _ _) (fun _ => ?_)
  refine avoids_bind (avoids_readAt _ _ _) (fun _ => ?_)
  refine avoids_bind (avoids_CHECK h2 _) (fun _ => ?_)
  refine avoids_bind (no812_Randfloat _ _ _) (fun _ => ?_)
  exact avoids_bind (no812_Randfloat _ _ _) (fun _ => avoids_pure _ _)

theorem no812_matCropExtent (area ratio : ℚ) (H W : Int) :
    Avoids [812] (matCropExtent area ratio H W) := by
  unfold matCropExtent cropExtent
  refine avoids_bind ?_ (fun _ => avoids_pure _ _)
  refine avoids_bind (avoids_sqrtToInt _ _) (fun _ => ?_)
  refine avoids_bind ?_ (fun _ => avoids_pure _ _)
  split
  · exact avoids_undefined _
  · exact avoids_sqrtToInt _ _

theorem no812_matCopy (t : DataTransformer) (m : Mat) (C H W : Int) (g : CropSpec)
    (td : List Dtype) : Avoids [812] (matCopy t m C H W g td) := by
  unfold matCopy
  refine avoids_forLoop (fun _ _ => ?_) _
  refine avoids_bind ?_ (fun _ => ?_)
  · split
    · exact avoids_pure _ _
    · exact avoids_undefined _
  refine avoids_bind (avoids_readAt _ _ _) (fun _ => ?_)
  refine avoids_bind ?_ (fun _ => avoids_pure _ _)
  refine avoids_forLoop (fun _ _ => avoids_forLoop (fun _ _ => ?_) _) _
  refine avoids_bind (avoids_readAt _ _ _) (fun _ => ?_)
  repeat' split
  · refine avoids_bind (avoids_readAt _ _ _) (fun _ => ?_)
    exact avoids_bind (avoids_writeAt _ _ _ _) (fun _ => avoids_pure _ _)
  · refine avoids_bind (avoids_readAt _ _ _) (fun _ => ?_)
    exact avoids_bind (avoids_writeAt _ _ _ _) (fun _ => avoids_pure _ _)
  · exact avoids_bind (avoids_writeAt _ _ _ _) (fun _ => avoids_pure _ _)

/-- In `Transform(const cv::Mat&, Blob<Dtype>*)` every call of `Rand` has a
positive argument. -/
theorem no812_TransformMat (cv : OpenCV) (t : DataTransformer) (m : Mat) (b : Blob) :
    Avoids [812] (TransformMat cv t m b) := by
  unfold TransformMat
  simp only
  refine avoids_bind (avoids_CHECK (by decide) _) (fun _ => ?_)
  refine avoids_bind (avoids_CHECK (by decide) _) (fun _ => ?_)
  refine avoids_bind (avoids_CHECK (by decide) _) (fun _ => ?_)
  refine avoids_bind (avoids_CHECK (by decide) _) (fun _ => ?_)
  refine avoids_bind (avoids_CHECK (by decide) _) (fun _ => ?_)
  refine avoids_bind_of_ok (no812_drawMirror _) ?_
  rintro ⟨mir, t1⟩ h1
  simp only
  have hp1 : t1.param_ = t.param_ := by rw [(drawMirror_eq_ok h1).1]
  refine CHECK_bind_avoids (by decide) (fun hC => ?_)
  refine CHECK_bind_avoids (by decide) (fun hH => ?_)
  refine CHECK_bind_avoids (by decide) (fun hW => ?_)
  have hC' : 0 < m.channels := by simpa using hC
  have hH' : t.param_.crop_size ≤ m.rows := by simpa using hH
  have hW' : t.param_.crop_size ≤ m.cols := by simpa using hW
  refine avoids_bind ?_ (fun _ => ?_)
  · split
    · refine avoids_bind (avoids_CHECK (by decide) _) (fun _ => ?_)
      exact avoids_bind (avoids_CHECK (by decide) _) (fun _ => avoids_CHECK (by decide) _)
    · exact avoids_pure _ _
  refine avoids_bind_of_ok (no812_replicateMeanValues _ (by decide) _) ?_
  intro t2 h2
  have hp2 : t2.param_ = t.param_ := by
    rw [(replicateMeanValues_eq_ok hC' h2).1]
    exact hp1
  refine avoids_bind ?_ (fun _ => ?_)
  · split
    · refine avoids_bind (avoids_CHECK (by decide) _) (fun _ => ?_)
      refine avoids_bind (avoids_CHECK (by decide) _) (fun _ => ?_)
      refine avoids_bind (no812_cropOffsets _ _ (by rw [hp2]; exact hH')
        (by rw [hp2]; exact hW')) (fun _ => ?_)
      exact avoids_bind (avoids_cvCall _ _) (fun _ => avoids_pure _ _)
    · refine avoids_bind (avoids_CHECK (by decide) _) (fun _ => ?_)
      exact avoids_bind (avoids_CHECK (by decide) _) (fun _ => avoids_pure _ _)
  refine avoids_bind (avoids_CHECK (by decide) _) (fun _ => ?_)
  refine avoids_bind ?_ (fun _ => ?_)
  · split
    · refine avoids_bind (no812_pushCropRanges _) (fun _ => ?_)
      refine avoids_bind (no812_drawAreaRatio _ (by decide) (by decide) _ _) (fun _ => ?_)
      refine avoids_bind_of_ok (no812_matCropExtent _ _ _ _) ?_
      rintro ⟨ch, cw⟩ hext
      obtain ⟨hch, hcw, -⟩ := matCropExtent_eq_ok hext
      simp only
      refine avoids_bind (no812_Rand _ (by omega)) (fun _ => ?_)
      refine avoids_bind (no812_Rand _ (by omega)) (fun _ => ?_)
      refine avoids_bind (avoids_cvCall _ _) (fun _ => ?_)
      exact avoids_bind (avoids_cvCall _ _) (fun _ => avoids_pure _ _)
    · exact avoids_pure _ _
  exact avoids_bind (no812_matCopy _ _ _ _ _ _ _) (fun _ => avoids_pure _ _)

end caffe

namespace caffe

open DataTransformer

/-- What lines 110-113 (388-391) draw: the area is a fraction of the source
area between the two configured bounds, the aspect lies between its two
bounds. -/
theorem drawAreaRatio_eq_ok {t t' : DataTransformer} {l1 l2 : Nat} {H W : Int}
    {area ratio : ℚ} (h : t.drawAreaRatio l1 l2 H W = Except.ok ((area, ratio), t')) :
    ∃ a0 a1 r0 r1 x : ℚ,
      readAt t.crop_area_ 0 = Except.ok a0 ∧ readAt t.crop_area_ 1 = Except.ok a1 ∧
      readAt t.aspect_ratio_ 0 = Except.ok r0 ∧ readAt t.aspect_ratio_ 1 = Except.ok r1 ∧
      a0 < a1 ∧ r0 < r1 ∧ a0 ≤ x ∧ x ≤ a1 ∧ area = x * (H : ℚ) * (W : ℚ) ∧
      r0 ≤ ratio ∧ ratio ≤ r1 := by
  unfold drawAreaRatio at h
  rw [bind_eq_ok_iff] at h
  obtain ⟨a0, ha0, h⟩ := h
  rw [bind_eq_ok_iff] at h
  obtain ⟨a1, ha1, h⟩ := h
  rw [CHECK_bind_eq_ok_iff] at h
  obtain ⟨hc1, h⟩ := h
  rw [bind_eq_ok_iff] at h
  obtain ⟨r0, hr0, h⟩ := h
  rw [bind_eq_ok_iff] at h
  obtain ⟨r1, hr1, h⟩ := h
  rw [CHECK_bind_eq_ok_iff] at h
  obtain ⟨hc2, h⟩ := h
  have hlt1 : a0 < a1 := by simpa using hc1
  have hlt2 : r0 < r1 := by simpa using hc2
  obtain ⟨x, hx, -, hx0, hx1, -⟩ := Randfloat_bounds t hlt1
  rw [hx, bind_ok_eq] at h
  simp only at h
  obtain ⟨y, hy, -, hy0, hy1, -⟩ := Randfloat_bounds
    { t with libc_rand := ⟨t.libc_rand.stream, t.libc_rand.pos + 1⟩ } hlt2
  rw [hy, bind_ok_eq] at h
  simp only [pure_eq_ok, Except.ok.injEq, Prod.mk.injEq] at h
  obtain ⟨⟨rfl, rfl⟩, -⟩ := h
  exact ⟨a0, a1, r0, r1, x, ha0, ha1, hr0, hr1, hlt1, hlt2, hx0, hx1, rfl, hy0, hy1⟩

/-- C15 (counterexample): with the area range (1/100, 1/50) and the aspect
range (1, 2) on a 2 by 2 source, a libc `rand()` that returns 0 draws the area
1/25 and the aspect 1, both inside their ranges, and the extents computed from
them are 0 by 0, with or without the clamp: they are not at least 1. -/
theorem random_area_extent_zero_counterexample :
    (Examples.tinyArea 0 0).pushCropRanges = Except.ok (Examples.tinyArea 1 0) ∧
    (Examples.tinyArea 1 0).drawAreaRatio 388 389 2 2 =
      Except.ok ((1 / 25, 1), Examples.tinyArea 1 2) ∧
    matCropExtent (1 / 25) 1 2 2 = Except.ok (0, 0) ∧
    cropExtent (1 / 25) 1 = Except.ok (0, 0) ∧
    ¬ ((1 : Int) ≤ 0) := by
  refine ⟨?_, ?_, ?_, ?_, by decide⟩ <;> with_unfolding_all rfl

/-- C15 (amended): the extents that lines 393-396 of `Transform(Mat, tensor)`
compute from any area and aspect are at most the image height and width and
not negative for an image without negative dimensions, so both origin draws
have a positive argument and `Transform(Mat, tensor)` never fails the check of
`Rand` at line 812; an extent is at least 1 exactly when its radicand
(area*aspect, area/aspect) is at least 1 and the image dimension is.  The
extents lines 115-116 of `Transform(datum, flat buffer)` compute are not
negative, the integer parts of the square roots, and at least 1 exactly when
the radicand is.  The area the sampler draws is x*H*W with x between the
configured bounds, and the aspect lies between its bounds. -/
theorem random_area_extents (cv : OpenCV) (t : DataTransformer) (m : Mat) (b : Blob)
    (area ratio : ℚ) (H W ch cw : Int) :
    (matCropExtent area ratio H W = Except.ok (ch, cw) →
      ch ≤ H ∧ cw ≤ W ∧ 0 < H - ch + 1 ∧ 0 < W - cw + 1 ∧ (0 ≤ H → 0 ≤ ch) ∧
      (0 ≤ W → 0 ≤ cw) ∧ (1 ≤ ch ↔ (1 ≤ area * ratio ∧ 1 ≤ H)) ∧
      (1 ≤ cw ↔ (1 ≤ area / ratio ∧ 1 ≤ W))) ∧
    TransformMat cv t m b ≠ Except.error (Fault.check 812) ∧
    (cropExtent area ratio = Except.ok (ch, cw) →
      0 ≤ ch ∧ 0 ≤ cw ∧ (1 ≤ ch ↔ 1 ≤ area * ratio) ∧ (1 ≤ cw ↔ 1 ≤ area / ratio) ∧
      (ch : ℚ) * (ch : ℚ) ≤ area * ratio ∧ area * ratio < ((ch : ℚ) + 1) * ((ch : ℚ) + 1) ∧
      (cw : ℚ) * (cw : ℚ) ≤ area / ratio ∧ area / ratio < ((cw : ℚ) + 1) * ((cw : ℚ) + 1)) ∧
    (∀ (l1 l2 : Nat) (t' : DataTransformer),
      t.drawAreaRatio l1 l2 H W = Except.ok ((area, ratio), t') →
      ∃ a0 a1 r0 r1 x : ℚ,
        readAt t.crop_area_ 0 = Except.ok a0 ∧ readAt t.crop_area_ 1 = Except.ok a1 ∧
        readAt t.aspect_ratio_ 0 = Except.ok r0 ∧ readAt t.aspect_ratio_ 1 = Except.ok r1 ∧
        a0 < a1 ∧ r0 < r1 ∧ a0 ≤ x ∧ x ≤ a1 ∧ area = x * (H : ℚ) * (W : ℚ) ∧
        r0 ≤ ratio ∧ ratio ≤ r1) := by
  refine ⟨?_, ?_, ?_, ?_⟩
  · intro h
    obtain ⟨h1, h2, h3, h4, h5, h6⟩ := matCropExtent_eq_ok h
    exact ⟨h1, h2, by omega, by omega, h3, h4, h5, h6⟩
  · intro h
    exact no812_TransformMat cv t m b 812 h (by decide)
  · intro h
    exact cropExtent_eq_ok h
  · intro l1 l2 t' h
    exact drawAreaRatio_eq_ok h

/-- On a 3 by 3 image the area 4 with aspect 1 gives the extents 2 by 2, and
C15 (amended) bounds them. -/
theorem random_area_extents_witness :
    matCropExtent 4 1 3 3 = Except.ok (2, 2) ∧ (2 : Int) ≤ 3 ∧ (0 : Int) < 3 - 2 + 1 ∧
      TransformMat Examples.noCodec (Examples.tinyArea 0 0) ⟨0, 0, 0, 0, none⟩
        ⟨0, 0, 0, 0, []⟩ ≠ Except.error (Fault.check 812) := by
  have hrun : matCropExtent 4 1 3 3 = Except.ok (2, 2) := by with_unfolding_all rfl
  have h := random_area_extents Examples.noCodec (Examples.tinyArea 0 0) ⟨0, 0, 0, 0, none⟩
    ⟨0, 0, 0, 0, []⟩ 4 1 3 3 2 2
  obtain ⟨h1, -, h3, -⟩ := h.1 hrun
  exact ⟨hrun, h1, h3, h.2.1⟩

end caffe

namespace caffe

open DataTransformer

/-- C19: the code base index of the four scratch samples is
`h1 * crop_h + w1` (line 164) and the destination index is
`h2 * height + w2` (line 165), not the planar positions with row strides
`crop_w` and `width`.  On a 2 by 3 scratch region with the contents 1..6
interpolated to 2 by 2 the code yields [1, 3, 3, 5] where the stated addressing
yields the corners [1, 3, 4, 6]; on a 3 by 2 region the code reads past the 6
scratch elements where the stated addressing yields [1, 2, 5, 6]; and on a 1
by 1 region interpolated to height 2, width 3 the code leaves destination
element 5 unwritten. -/
theorem bilinear_base_index_row_stride :
    bilinear 1 2 3 2 2 [1, 2, 3, 4, 5, 6] [0, 0, 0, 0] = Except.ok [1, 3, 3, 5] ∧
    specBilinear 1 2 3 2 2 [1, 2, 3, 4, 5, 6] [0, 0, 0, 0] = Except.ok [1, 3, 4, 6] ∧
    bilinear 1 3 2 2 2 [1, 2, 3, 4, 5, 6] [0, 0, 0, 0] = Except.error Fault.undefined ∧
    specBilinear 1 3 2 2 2 [1, 2, 3, 4, 5, 6] [0, 0, 0, 0] = Except.ok [1, 2, 5, 6] ∧
    bilinear 1 1 1 2 3 [7] [0, 0, 0, 0, 0, 0] = Except.ok [7, 7, 7, 7, 7, 0] ∧
    specBilinear 1 1 1 2 3 [7] [0, 0, 0, 0, 0, 0] = Except.ok [7, 7, 7, 7, 7, 7] := by
  refine ⟨?_, ?_, ?_, ?_, ?_, ?_⟩ <;> with_unfolding_all rfl

/-- C20: the scratch buffer `new Dtype(n)` of line 122 has one element.  A
returning random-area path has a crop of at most one element
(C * crop_h * crop_w ≤ 1), and on a 2 by 2 source whose draw gives the 2 by 2
crop the copy loop writes scratch index 1 of the one-element buffer, which is
undefined, although the same copy into four elements returns. -/
theorem scratch_buffer_one_element (t : DataTransformer) (datum : Datum) (g : CropSpec)
    (buf : List Dtype) :
    (∀ r : TransformResult, 0 < datum.channels →
      randomAreaCrop t datum g buf = Except.ok r →
      ∃ (t1 t2 : DataTransformer) (area ratio : ℚ) (crop_h crop_w : Int),
        t.pushCropRanges = Except.ok t1 ∧
        t1.drawAreaRatio 110 111 datum.height datum.width = Except.ok ((area, ratio), t2) ∧
        cropExtent area ratio = Except.ok (crop_h, crop_w) ∧
        datum.channels * crop_h * crop_w ≤ 1) ∧
    (Examples.wholeArea 0 0 0).Transform Examples.datum2x2 [0, 0, 0, 0] =
      Except.error Fault.undefined ∧
    directCopy (Examples.wholeArea 1 3 2) Examples.datum2x2 ⟨2, 2, 0, 0, false⟩ [4] =
      Except.error Fault.undefined ∧
    directCopy (Examples.wholeArea 1 3 2) Examples.datum2x2 ⟨2, 2, 0, 0, false⟩ [0, 0, 0, 0] =
      Except.ok [10, 20, 30, 40] := by
  refine ⟨?_, by with_unfolding_all rfl, by with_unfolding_all rfl, by with_unfolding_all rfl⟩
  intro r hC h
  unfold randomAreaCrop at h
  rw [bind_eq_ok_iff] at h
  obtain ⟨s1, hs1, h⟩ := h
  rw [bind_eq_ok_iff] at h
  obtain ⟨⟨⟨area, ratio⟩, s2⟩, hs2, h⟩ := h
  simp only at h
  rw [bind_eq_ok_iff] at h
  obtain ⟨⟨crop_h, crop_w⟩, hext, h⟩ := h
  simp only at h
  rw [bind_eq_ok_iff] at h
  obtain ⟨⟨g', s3⟩, hg, h⟩ := h
  simp only at h
  rw [bind_eq_ok_iff] at h
  obtain ⟨tmp, hcopy, h⟩ := h
  refine ⟨s1, s2, area, ratio, crop_h, crop_w, hs1, hs2, hext, ?_⟩
  obtain ⟨hch, hcw, -⟩ := cropExtent_eq_ok hext
  obtain ⟨-, hall, -⟩ := directCopy_spec hcopy
  simp only at hall
  rcases lt_or_ge 0 crop_h with hh | hh
  · rcases lt_or_ge 0 crop_w with hw | hw
    · obtain ⟨v, -, hlt, -⟩ := hall (datum.channels - 1) (crop_h - 1)
        (if g'.do_mirror then 0 else crop_w - 1) (by omega) (by omega) (by omega) (by omega)
        (by split <;> omega) (by split <;> omega)
      rw [mirrorIndex_eq] at hlt
      simp only [List.length_singleton, Nat.cast_one] at hlt
      have e : (if g'.do_mirror = true then
          crop_w - 1 - (if g'.do_mirror = true then 0 else crop_w - 1)
          else (if g'.do_mirror = true then 0 else crop_w - 1)) = crop_w - 1 := by
        cases g'.do_mirror <;> simp
      rw [e] at hlt
      have : datum.channels * crop_h * crop_w =
          ((datum.channels - 1) * crop_h + (crop_h - 1)) * crop_w + (crop_w - 1) + 1 := by ring
      omega
    · have : crop_w = 0 := by omega
      subst this
      simp
  · have : crop_h = 0 := by omega
    subst this
    simp

/-- The random-area path of `randomArea` on `datum2x3` returns with a 1 by 1
crop, and C20 bounds its element count by one. -/
theorem scratch_buffer_one_element_witness :
    (0 : Int) < Examples.datum2x3.channels ∧
    randomAreaCrop (Examples.randomArea 0 1 0) Examples.datum2x3 ⟨2, 3, 0, 0, false⟩
        [0, 0, 0, 0, 0, 0] = Except.ok Examples.randomAreaResult ∧
    ∃ (t1 t2 : DataTransformer) (area ratio : ℚ) (crop_h crop_w : Int),
      (Examples.randomArea 0 1 0).pushCropRanges = Except.ok t1 ∧
      t1.drawAreaRatio 110 111 Examples.datum2x3.height Examples.datum2x3.width =
        Except.ok ((area, ratio), t2) ∧
      cropExtent area ratio = Except.ok (crop_h, crop_w) ∧
      Examples.datum2x3.channels * crop_h * crop_w ≤ 1 := by
  have hC : (0 : Int) < Examples.datum2x3.channels := by decide
  have hrun : randomAreaCrop (Examples.randomArea 0 1 0) Examples.datum2x3 ⟨2, 3, 0, 0, false⟩
      [0, 0, 0, 0, 0, 0] = Except.ok Examples.randomAreaResult := by with_unfolding_all rfl
  exact ⟨hC, hrun, (scratch_buffer_one_element (Examples.randomArea 0 1 0) Examples.datum2x3
    ⟨2, 3, 0, 0, false⟩ [0, 0, 0, 0, 0, 0]).1 Examples.randomAreaResult hC hrun⟩

end caffe

namespace caffe

open DataTransformer

theorem foldlM_congr_mem {ι σ : Type} (l : List ι) (f g : σ → ι → Except Fault σ)
    (h : ∀ i ∈ l, ∀ s, f s i = g s i) (s : σ) : l.foldlM f s = l.foldlM g s := by
  induction l generalizing s with
  | nil => rfl
  | cons a l ih =>
    rw [List.foldlM_cons, List.foldlM_cons, h a (List.mem_cons_self _ _) s]
    congr 1
    funext s1
    exact ih (fun i hi => h i (List.mem_cons_of_mem _ hi)) s1

/-- What a returning in-place loop over distinct indices leaves behind. -/
theorem foldlM_modStep_spec {ι : Type} (f : ι → Dtype → Except Fault Dtype) (idx : ι → Int)
    (l : List ι) (d d' : List Dtype) (h : l.foldlM (modStep f idx) d = Except.ok d') :
    d'.length = d.length ∧
    (∀ j : Nat, (∀ i ∈ l, idx i ≠ (j : Int)) → d'[j]? = d[j]?) ∧
    (l.Nodup → (∀ i ∈ l, ∀ k ∈ l, idx i = idx k → i = k) →
      ∀ i ∈ l, ∃ x v, 0 ≤ idx i ∧ d[(idx i).toNat]? = some x ∧ f i x = Except.ok v ∧
        d'[(idx i).toNat]? = some v) := by
  induction l generalizing d with
  | nil =>
    cases h
    simp
  | cons a l ih =>
    rw [List.foldlM_cons, bind_eq_ok_iff] at h
    obtain ⟨d1, h1, h2⟩ := h
    unfold modStep at h1
    rw [bind_eq_ok_iff] at h1
    obtain ⟨x, hx, h1⟩ := h1
    rw [bind_eq_ok_iff] at h1
    obtain ⟨v, hv, hw⟩ := h1
    obtain ⟨hi0, hi1, rfl⟩ := writeAt_eq_ok hw
    obtain ⟨-, hxget⟩ := readAt_eq_ok hx
    obtain ⟨hlen, hframe, hval⟩ := ih _ h2
    have hlen' : (d.set (idx a).toNat v).length = d.length := by simp
    refine ⟨by rw [hlen, hlen'], ?_, ?_⟩
    · intro j hj
      rw [hframe j (fun i hi => hj i (List.mem_cons_of_mem _ hi))]
      rw [List.getElem?_set]
      have : idx a ≠ (j : Int) := hj a (List.mem_cons_self _ _)
      have hne : (idx a).toNat ≠ j := by omega
      simp [hne]
    · intro hnd hinj i hi
      rcases List.mem_cons.1 hi with rfl | hi
      · have hnot : ∀ k ∈ l, idx k ≠ (((idx i).toNat : Nat) : Int) := by
          intro k hk hkeq
          have : idx k = idx i := by omega
          have hki : k = i := hinj k (List.mem_cons_of_mem _ hk) i (List.mem_cons_self _ _) this
          subst hki
          exact (List.nodup_cons.1 hnd).1 hk
        refine ⟨x, v, hi0, hxget, hv, ?_⟩
        rw [hframe _ hnot, List.getElem?_set]
        have : (idx i).toNat < d.length := by omega
        simp [this]
      · obtain ⟨x', v', h0, hx', hv', hget⟩ := hval (List.nodup_cons.1 hnd).2
          (fun i hi k hk => hinj i (List.mem_cons_of_mem _ hi) k (List.mem_cons_of_mem _ hk))
          i hi
        refine ⟨x', v', h0, ?_, hv', hget⟩
        rw [List.getElem?_set] at hx'
        have hne : idx a ≠ idx i := by
          intro heq
          have hai : a = i := hinj a (List.mem_cons_self _ _) i (List.mem_cons_of_mem _ hi) heq
          subst hai
          exact (List.nodup_cons.1 hnd).1 hi
        have hne' : (idx a).toNat ≠ (idx i).toNat := by omega
        simpa [hne'] using hx'

theorem caffe_sub_eq (n : Int) (data : List Dtype) (offset : Int) (b : List Dtype) :
    caffe_sub n data offset b =
      (List.range n.toNat).foldlM
        (modStep (fun (i : Nat) x => do
          let m ← readAt b (i : Int)
          pure (x - m)) (fun (i : Nat) => offset + (i : Int))) data := by
  unfold caffe_sub forLoop
  congr 1
  funext d i
  unfold modStep
  beta_reduce
  cases readAt d (offset + (i : Int)) with
  | error e => rfl
  | ok x =>
    cases readAt b (i : Int) with
    | error e => rfl
    | ok m => rfl

theorem caffe_add_scalar_eq (n : Int) (alpha : Dtype) (data : List Dtype) (offset : Int) :
    caffe_add_scalar n alpha data offset =
      (List.range n.toNat).foldlM
        (modStep (fun (_ : Nat) x => pure (x + alpha)) (fun (i : Nat) => offset + (i : Int)))
        data := by
  unfold caffe_add_scalar forLoop
  congr 1

theorem caffe_scal_eq (n : Int) (alpha : Dtype) (data : List Dtype) :
    caffe_scal n alpha data =
      (List.range n.toNat).foldlM
        (modStep (fun (_ : Nat) x => pure (x * alpha)) (fun (i : Nat) => (i : Int))) data := by
  unfold caffe_scal forLoop
  congr 1

/-- The linear offset of an element of a tensor lies within its count. -/
theorem offset_bounds {N C H W n c h w : Int} (hn : 0 ≤ n) (hnN : n < N) (hc : 0 ≤ c)
    (hcC : c < C) (hh : 0 ≤ h) (hhH : h < H) (hw : 0 ≤ w) (hwW : w < W) :
    0 ≤ ((n * C + c) * H + h) * W + w ∧ ((n * C + c) * H + h) * W + w < N * C * H * W := by
  have h1 : 0 ≤ n * C + c := by
    have : 0 ≤ n * C := mul_nonneg hn (by omega)
    omega
  have h2 : n * C + c < N * C := by nlinarith
  have := mirrorIndex_bounds (m := false) (C := N * C) (H := H) (W := W) (c := n * C + c)
    (h := h) (w := w) h1 h2 hh hhH hw hwW
  rw [mirrorIndex_eq] at this
  simpa using this

/-- What a returning `caffe_scal` leaves at an index below its length. -/
theorem caffe_scal_spec {n : Int} {alpha : Dtype} {data data' : List Dtype}
    (h : caffe_scal n alpha data = Except.ok data') {j : Int} (hj : 0 ≤ j) (hjn : j < n) :
    ∃ x, data[j.toNat]? = some x ∧ data'[j.toNat]? = some (x * alpha) := by
  rw [caffe_scal_eq] at h
  obtain ⟨-, -, hval⟩ := foldlM_modStep_spec _ _ _ _ _ h
  obtain ⟨x, v, -, hx, hv, hget⟩ := hval (List.nodup_range _)
    (fun i _ k _ hik => by simpa using hik) j.toNat (List.mem_range.2 (by omega))
  simp only [pure_eq_ok, Except.ok.injEq] at hv
  subst hv
  simp only [Int.toNat_ofNat] at hx hget
  exact ⟨x, hx, hget⟩

end caffe

namespace caffe

open DataTransformer

theorem blobCopy_eq_foldlM (N C H W : Int) (g : CropSpec) (src td : List Dtype) :
    blobCopy N C H W g src td =
      (List.range N.toNat ×ˢ (List.range C.toNat ×ˢ
        (List.range g.height.toNat ×ˢ List.range g.width.toNat))).foldlM
        (writeStep (blobVal C H W g src) (blobIdx C g)) td := by
  unfold blobCopy forLoop
  rw [foldlM_product]
  simp only [foldlM_product]
  cases hm : g.do_mirror
  · simp only [Bool.false_eq_true, if_false]
    unfold writeStep blobVal blobIdx
    simp only [hm, Bool.false_eq_true, if_false]
  · simp only [if_true]
    unfold writeStep blobVal blobIdx
    simp only [hm, if_true]

theorem blobIdx_eq (C : Int) (g : CropSpec) (p : Nat × Nat × Nat × Nat) :
    blobIdx C g p = mirrorIndex g.do_mirror g.height g.width ((p.1 : Int) * C + (p.2.1 : Int))
      (p.2.2.1 : Int) (p.2.2.2 : Int) := by
  unfold blobIdx mirrorIndex
  split
  · ring
  · rfl

/-- What a returning copy loop of lines 688-709 leaves in the destination. -/
theorem blobCopy_spec {N C H W : Int} {g : CropSpec} {src td td' : List Dtype}
    (h : blobCopy N C H W g src td = Except.ok td') {n c hh ww : Int}
    (hn : 0 ≤ n) (hnN : n < N) (hc : 0 ≤ c) (hcC : c < C) (hh0 : 0 ≤ hh) (hhH : hh < g.height)
    (hw0 : 0 ≤ ww) (hwW : ww < g.width) :
    ∃ y, 0 ≤ ((n * C + c) * H + g.h_off + hh) * W + g.w_off + ww ∧
      src[(((n * C + c) * H + g.h_off + hh) * W + g.w_off + ww).toNat]? = some y ∧
      td'[(mirrorIndex g.do_mirror g.height g.width (n * C + c) hh ww).toNat]? = some y := by
  rw [blobCopy_eq_foldlM] at h
  obtain ⟨-, hall, -, hval⟩ := foldlM_writeStep_spec _ _ _ _ _ h
  have hmem : (n.toNat, c.toNat, hh.toNat, ww.toNat) ∈
      (List.range N.toNat ×ˢ (List.range C.toNat ×ˢ
        (List.range g.height.toNat ×ˢ List.range g.width.toNat))) := by
    simp only [List.mem_product, List.mem_range]
    omega
  have hnd : (List.range N.toNat ×ˢ (List.range C.toNat ×ˢ
      (List.range g.height.toNat ×ˢ List.range g.width.toNat))).Nodup :=
    List.Nodup.product (List.nodup_range _) (List.Nodup.product (List.nodup_range _)
      (List.Nodup.product (List.nodup_range _) (List.nodup_range _)))
  have hinj : ∀ i ∈ (List.range N.toNat ×ˢ (List.range C.toNat ×ˢ
      (List.range g.height.toNat ×ˢ List.range g.width.toNat))),
      ∀ k ∈ (List.range N.toNat ×ˢ (List.range C.toNat ×ˢ
      (List.range g.height.toNat ×ˢ List.range g.width.toNat))),
      blobIdx C g i = blobIdx C g k → i = k := by
    rintro ⟨n1, c1, h1, w1⟩ hi ⟨n2, c2, h2, w2⟩ hk heq
    simp only [List.mem_product, List.mem_range] at hi hk
    rw [blobIdx_eq, blobIdx_eq] at heq
    simp only at heq
    obtain ⟨e1, e2, e3⟩ := mirrorIndex_inj (by omega) (by omega) (by omega) (by omega)
      (by omega) (by omega) (by omega) (by omega) heq
    obtain ⟨e4, e5⟩ := stride_unique (W := C) (by omega) (by omega) (by omega) (by omega) e1
    have a1 : n1 = n2 := by omega
    have a2 : c1 = c2 := by omega
    have a3 : h1 = h2 := by omega
    have a4 : w1 = w2 := by omega
    subst a1 a2 a3 a4
    rfl
  obtain ⟨v, hv, -, -⟩ := hall _ hmem
  have hget := hval hnd hinj _ hmem v hv
  have e1 : ((n.toNat : Nat) : Int) = n := Int.toNat_of_nonneg hn
  have e2 : ((c.toNat : Nat) : Int) = c := Int.toNat_of_nonneg hc
  have e3 : ((hh.toNat : Nat) : Int) = hh := Int.toNat_of_nonneg hh0
  have e4 : ((ww.toNat : Nat) : Int) = ww := Int.toNat_of_nonneg hw0
  rw [blobIdx_eq] at hget
  simp only [blobVal, e1, e2, e3, e4] at hv hget
  obtain ⟨h0, hsrc⟩ := readAt_eq_ok hv
  exact ⟨v, h0, hsrc, hget⟩

end caffe

namespace caffe

open DataTransformer

theorem plane_bounds {H W h w : Int} (hh : 0 ≤ h) (hhH : h < H) (hw : 0 ≤ w) (hwW : w < W) :
    0 ≤ h * W + w ∧ h * W + w < H * W := by
  have h1 : 0 ≤ h * W := mul_nonneg hh (by omega)
  have h2 : (h + 1) * W ≤ H * W := Int.mul_le_mul_of_nonneg_right (by omega) (by omega)
  constructor
  · omega
  · nlinarith

/-- What the in-place subtraction of the mean blob (lines 659-668) leaves at
an element of the source. -/
theorem subtractMeanFile_spec {t : DataTransformer} {input : Blob} {d1 : List Dtype}
    (h : subtractMeanFile t input = Except.ok d1)
    (hnum : t.param_.has_mean_file = true → t.data_mean_.num = 1)
    {n c hh ww : Int} (hn : 0 ≤ n) (hnN : n < input.num) (hc : 0 ≤ c)
    (hcC : c < input.channels) (hh0 : 0 ≤ hh) (hhH : hh < input.height) (hw0 : 0 ≤ ww)
    (hwW : ww < input.width) {y : Dtype}
    (hy : d1[(((n * input.channels + c) * input.height + hh) * input.width + ww).toNat]? =
      some y) :
    ∃ x m, input.data[(((n * input.channels + c) * input.height + hh) * input.width +
        ww).toNat]? = some x ∧
      (if t.param_.has_mean_file then
        t.data_mean_.data[((c * input.height + hh) * input.width + ww).toNat]?
      else some 0) = some m ∧ y = x - m := by
  unfold subtractMeanFile at h
  split at h
  · rename_i hm
    rw [CHECK_bind_eq_ok_iff] at h
    obtain ⟨hC, h⟩ := h
    rw [CHECK_bind_eq_ok_iff] at h
    obtain ⟨hH, h⟩ := h
    rw [CHECK_bind_eq_ok_iff] at h
    obtain ⟨hW, h⟩ := h
    have hC' : input.channels = t.data_mean_.channels := by simpa using hC
    have hH' : input.height = t.data_mean_.height := by simpa using hH
    have hW' : input.width = t.data_mean_.width := by simpa using hW
    have hcnt : t.data_mean_.count = input.channels * input.height * input.width := by
      unfold Blob.count
      rw [hnum hm, ← hC', ← hH', ← hW']
      ring
    rw [hcnt] at h
    have hflat : forLoop input.num (fun input_data n =>
        caffe_sub (input.channels * input.height * input.width) input_data
          (input.offset n 0 0 0) t.data_mean_.data) input.data =
        (List.range input.num.toNat ×ˢ
          List.range (input.channels * input.height * input.width).toNat).foldlM
          (modStep (fun (p : Nat × Nat) x => do
              let m ← readAt t.data_mean_.data (p.2 : Int)
              pure (x - m))
            (fun (p : Nat × Nat) => input.offset (p.1 : Int) 0 0 0 + (p.2 : Int)))
          input.data := by
      rw [foldlM_product]
      unfold forLoop
      congr 1
      funext d n
      beta_reduce
      rw [caffe_sub_eq]
      rfl
    rw [hflat] at h
    obtain ⟨-, -, hval⟩ := foldlM_modStep_spec _ _ _ _ _ h
    have hb := mirrorIndex_bounds (m := false) hc hcC hh0 hhH hw0 hwW
    rw [mirrorIndex_eq] at hb
    simp only [Bool.false_eq_true, if_false] at hb
    have hmem : (n.toNat, ((c * input.height + hh) * input.width + ww).toNat) ∈
        (List.range input.num.toNat ×ˢ
          List.range (input.channels * input.height * input.width).toNat) := by
      simp only [List.mem_product, List.mem_range]
      omega
    have hnd : (List.range input.num.toNat ×ˢ
        List.range (input.channels * input.height * input.width).toNat).Nodup :=
      List.Nodup.product (List.nodup_range _) (List.nodup_range _)
    obtain ⟨x, v, -, hx, hv, hget⟩ := hval hnd (by
      rintro ⟨n1, i1⟩ hi ⟨n2, i2⟩ hk heq
      simp only [List.mem_product, List.mem_range] at hi hk
      simp only [Blob.offset] at heq
      have heq' : (n1 : Int) * (input.channels * input.height * input.width) + (i1 : Int) =
          (n2 : Int) * (input.channels * input.height * input.width) + (i2 : Int) := by
        linear_combination heq
      obtain ⟨a1, a2⟩ := stride_unique (by omega) (by omega) (by omega) (by omega) heq'
      have b1 : n1 = n2 := by omega
      have b2 : i1 = i2 := by omega
      subst b1 b2
      rfl) _ hmem
    have e1 : ((n.toNat : Nat) : Int) = n := Int.toNat_of_nonneg hn
    have e2 : ((((c * input.height + hh) * input.width + ww).toNat : Nat) : Int) =
        (c * input.height + hh) * input.width + ww := Int.toNat_of_nonneg hb.1
    have e3 : input.offset n 0 0 0 + ((c * input.height + hh) * input.width + ww) =
        ((n * input.channels + c) * input.height + hh) * input.width + ww := by
      unfold Blob.offset
      ring
    simp only [e1, e2, e3] at hx hv hget
    rw [hget] at hy
    cases hy
    rw [bind_eq_ok_iff] at hv
    obtain ⟨m, hm1, hm2⟩ := hv
    simp only [pure_eq_ok, Except.ok.injEq] at hm2
    obtain ⟨-, hmget⟩ := readAt_eq_ok hm1
    exact ⟨x, m, hx, by rw [if_pos hm]; exact hmget, hm2.symm⟩
  · rename_i hm
    cases h
    exact ⟨y, 0, hy, by rw [if_neg hm], by ring⟩

/-- What the in-place subtraction of the mean values (lines 670-684) leaves at
an element of the source. -/
theorem subtractMeanValues_spec {t : DataTransformer} {input : Blob} {d1 d2 : List Dtype}
    (h : subtractMeanValues t input d1 = Except.ok d2)
    {n c hh ww : Int} (hn : 0 ≤ n) (hnN : n < input.num) (hc : 0 ≤ c)
    (hcC : c < input.channels) (hh0 : 0 ≤ hh) (hhH : hh < input.height) (hw0 : 0 ≤ ww)
    (hwW : ww < input.width) {y : Dtype}
    (hy : d2[(((n * input.channels + c) * input.height + hh) * input.width + ww).toNat]? =
      some y) :
    ∃ x m, d1[(((n * input.channels + c) * input.height + hh) * input.width +
        ww).toNat]? = some x ∧
      (if t.mean_values_.length > 0 then
        (expandMeanValues t.mean_values_ input.channels)[c.toNat]?
      else some 0) = some m ∧ y = x - m := by
  have hob := offset_bounds hn hnN hc hcC hh0 hhH hw0 hwW
  unfold subtractMeanValues at h
  split at h
  · rename_i hpos
    rw [if_pos hpos]
    rw [CHECK_bind_eq_ok_iff] at h
    obtain ⟨hlen, h⟩ := h
    have hlen' : t.mean_values_.length = 1 ∨ (t.mean_values_.length : Int) = input.channels := by
      simpa using hlen
    split at h
    · rename_i hone
      rw [bind_eq_ok_iff] at h
      obtain ⟨m0, hm0, h⟩ := h
      rw [caffe_add_scalar_eq] at h
      obtain ⟨-, -, hval⟩ := foldlM_modStep_spec _ _ _ _ _ h
      obtain ⟨x, v, -, hx, hv, hget⟩ := hval (List.nodup_range _)
        (fun i _ k _ hik => by simpa using hik)
        (((n * input.channels + c) * input.height + hh) * input.width + ww).toNat
        (List.mem_range.2 (by unfold Blob.count; omega))
      have e : (0 : Int) + (((((n * input.channels + c) * input.height + hh) * input.width +
          ww).toNat : Nat) : Int) =
          ((n * input.channels + c) * input.height + hh) * input.width + ww := by omega
      simp only [e] at hx hget
      simp only [pure_eq_ok, Except.ok.injEq] at hv
      rw [hget] at hy
      cases hy
      obtain ⟨-, hm0get⟩ := readAt_eq_ok hm0
      refine ⟨x, m0, hx, ?_, by rw [← hv]; ring⟩
      unfold expandMeanValues
      rw [if_pos hone]
      have hhead : t.mean_values_.headD 0 = m0 := by
        cases hmv : t.mean_values_ with
        | nil => rw [hmv] at hone; simp at hone
        | cons a l =>
          rw [hmv] at hm0get
          simp at hm0get
          simp [hm0get]
      rw [hhead]
      rw [List.getElem?_replicate]
      rw [if_pos (by omega)]
    · rename_i hne
      have hlenC : (t.mean_values_.length : Int) = input.channels := by
        rcases hlen' with h1 | h1
        · exact absurd h1 hne
        · exact h1
      have hflat : forLoop input.num (fun input_data n =>
          forLoop input.channels (fun input_data c => do
            let m ← readAt t.mean_values_ c
            caffe_add_scalar (input.height * input.width) (-m) input_data
              (input.offset n c 0 0)) input_data) d1 =
          (List.range input.num.toNat ×ˢ (List.range input.channels.toNat ×ˢ
            List.range (input.height * input.width).toNat)).foldlM
            (modStep (fun (p : Nat × Nat × Nat) x =>
                pure (x + -(t.mean_values_.getD p.2.1 0)))
              (fun (p : Nat × Nat × Nat) =>
                input.offset (p.1 : Int) (p.2.1 : Int) 0 0 + (p.2.2 : Int))) d1 := by
        rw [foldlM_product]
        unfold forLoop
        congr 1
        funext d n
        rw [foldlM_product]
        apply foldlM_congr_mem
        intro c hc s
        have hclt : c < t.mean_values_.length := by
          have := List.mem_range.1 hc
          omega
        have hread : readAt t.mean_values_ (c : Int) =
            Except.ok (t.mean_values_.getD c 0) := by
          unfold readAt
          rw [if_pos (by omega)]
          simp only [Int.toNat_ofNat]
          rw [List.getElem?_eq_getElem hclt]
          simp [List.getD, List.getElem?_eq_getElem hclt]
          rfl
        beta_reduce
        rw [hread, bind_ok_eq, caffe_add_scalar_eq]
        rfl
      rw [hflat] at h
      obtain ⟨-, -, hval⟩ := foldlM_modStep_spec _ _ _ _ _ h
      have hpb := plane_bounds hh0 hhH hw0 hwW
      have hmem : (n.toNat, c.toNat, (hh * input.width + ww).toNat) ∈
          (List.range input.num.toNat ×ˢ (List.range input.channels.toNat ×ˢ
            List.range (input.height * input.width).toNat)) := by
        simp only [List.mem_product, List.mem_range]
        omega
      have hnd : (List.range input.num.toNat ×ˢ (List.range input.channels.toNat ×ˢ
            List.range (input.height * input.width).toNat)).Nodup :=
        List.Nodup.product (List.nodup_range _)
          (List.Nodup.product (List.nodup_range _) (List.nodup_range _))
      obtain ⟨x, v, -, hx, hv, hget⟩ := hval hnd (by
        rintro ⟨n1, c1, i1⟩ hi ⟨n2, c2, i2⟩ hk heq
        simp only [List.mem_product, List.mem_range] at hi hk
        simp only [Blob.offset] at heq
        have heq' : ((n1 : Int) * input.channels + (c1 : Int)) * (input.height * input.width) +
            (i1 : Int) =
            ((n2 : Int) * input.channels + (c2 : Int)) * (input.height * input.width) +
            (i2 : Int) := by
          linear_combination heq
        obtain ⟨a1, a2⟩ := stride_unique (by omega) (by omega) (by omega) (by omega) heq'
        obtain ⟨a3, a4⟩ := stride_unique (W := input.channels) (by omega) (by omega)
          (by omega) (by omega) a1
        have b1 : n1 = n2 := by omega
        have b2 : c1 = c2 := by omega
        have b3 : i1 = i2 := by omega
        subst b1 b2 b3
        rfl) _ hmem
      have e1 : ((n.toNat : Nat) : Int) = n := Int.toNat_of_nonneg hn
      have e2 : ((c.toNat : Nat) : Int) = c := Int.toNat_of_nonneg hc
      have e3 : (((hh * input.width + ww).toNat : Nat) : Int) = hh * input.width + ww :=
        Int.toNat_of_nonneg hpb.1
      have e4 : input.offset n c 0 0 + (hh * input.width + ww) =
          ((n * input.channels + c) * input.height + hh) * input.width + ww := by
        unfold Blob.offset
        ring
      simp only [e1, e2, e3, e4] at hx hv hget
      simp only [pure_eq_ok, Except.ok.injEq] at hv
      rw [hget] at hy
      cases hy
      have hclt : c.toNat < t.mean_values_.length := by omega
      refine ⟨x, t.mean_values_.getD c.toNat 0, hx, ?_, by rw [← hv]; ring⟩
      unfold expandMeanValues
      rw [if_neg hne]
      simp [List.getD, List.getElem?_eq_getElem hclt]
  · rename_i hzero
    rw [if_neg hzero]
    cases h
    exact ⟨y, 0, hy, rfl, by ring⟩

end caffe

namespace caffe

open DataTransformer

/-- The steps a returning `Transform(Blob, Blob)` has gone through. -/
theorem TransformBlob_inv {t : DataTransformer} {input dest : Blob} {r : BlobTransformResult}
    (h : t.TransformBlob input dest = Except.ok r) :
    ∃ d1 td1 : List Dtype,
      r.transformed_blob.num = (shapeDestination t input dest).num ∧
      r.transformed_blob.channels = (shapeDestination t input dest).channels ∧
      r.transformed_blob.height = (shapeDestination t input dest).height ∧
      r.transformed_blob.width = (shapeDestination t input dest).width ∧
      input.num ≤ (shapeDestination t input dest).num ∧
      input.channels = (shapeDestination t input dest).channels ∧
      r.crop.height = (shapeDestination t input dest).height ∧
      r.crop.width = (shapeDestination t input dest).width ∧
      0 ≤ r.crop.h_off ∧ r.crop.h_off + r.crop.height ≤ input.height ∧
      0 ≤ r.crop.w_off ∧ r.crop.w_off + r.crop.width ≤ input.width ∧
      r.self.param_ = t.param_ ∧ r.self.data_mean_ = t.data_mean_ ∧
      r.self.mean_values_ = t.mean_values_ ∧
      subtractMeanFile r.self input = Except.ok d1 ∧
      subtractMeanValues r.self input d1 = Except.ok r.input_blob.data ∧
      blobCopy input.num (shapeDestination t input dest).channels input.height input.width
        r.crop r.input_blob.data (shapeDestination t input dest).data = Except.ok td1 ∧
      (if r.self.param_.scale ≠ 1 then
        caffe_scal (shapeDestination t input dest).count r.self.param_.scale td1
      else pure td1) = Except.ok r.transformed_blob.data := by
  unfold TransformBlob at h
  simp only at h
  rw [CHECK_bind_eq_ok_iff] at h
  obtain ⟨hN, h⟩ := h
  rw [CHECK_bind_eq_ok_iff] at h
  obtain ⟨hC, h⟩ := h
  rw [CHECK_bind_eq_ok_iff] at h
  obtain ⟨hH, h⟩ := h
  rw [CHECK_bind_eq_ok_iff] at h
  obtain ⟨hW, h⟩ := h
  rw [bind_eq_ok_iff] at h
  obtain ⟨⟨mir, t1⟩, h1, h⟩ := h
  simp only at h
  rw [bind_eq_ok_iff] at h
  obtain ⟨⟨g, t2⟩, hg, h⟩ := h
  simp only at h
  rw [bind_eq_ok_iff] at h
  obtain ⟨d1, hd1, h⟩ := h
  rw [bind_eq_ok_iff] at h
  obtain ⟨d2, hd2, h⟩ := h
  rw [bind_eq_ok_iff] at h
  obtain ⟨td1, htd1, h⟩ := h
  rw [bind_eq_ok_iff] at h
  obtain ⟨td2, htd2, h⟩ := h
  simp only [pure_eq_ok, Except.ok.injEq] at h
  subst h
  simp only
  have hN' : input.num ≤ (shapeDestination t input dest).num := by simpa using hN
  have hC' : input.channels = (shapeDestination t input dest).channels := by simpa using hC
  have hH' : (shapeDestination t input dest).height ≤ input.height := by simpa using hH
  have hW' : (shapeDestination t input dest).width ≤ input.width := by simpa using hW
  have e1 := (drawMirror_eq_ok h1).1
  have hp1 : t1.param_ = t.param_ := by rw [e1]
  have hd1' : t1.data_mean_ = t.data_mean_ := by rw [e1]
  have hm1 : t1.mean_values_ = t.mean_values_ := by rw [e1]
  have key : g.height = (shapeDestination t input dest).height ∧
      g.width = (shapeDestination t input dest).width ∧
      0 ≤ g.h_off ∧ g.h_off + g.height ≤ input.height ∧
      0 ≤ g.w_off ∧ g.w_off + g.width ≤ input.width ∧
      t2.param_ = t.param_ ∧ t2.data_mean_ = t.data_mean_ ∧
      t2.mean_values_ = t.mean_values_ := by
    split at hg
    · rename_i hcrop
      rw [CHECK_bind_eq_ok_iff] at hg
      obtain ⟨hc1, hg⟩ := hg
      rw [CHECK_bind_eq_ok_iff] at hg
      obtain ⟨hc2, hg⟩ := hg
      have hc1' : t.param_.crop_size = (shapeDestination t input dest).height := by
        simpa using hc1
      have hc2' : t.param_.crop_size = (shapeDestination t input dest).width := by
        simpa using hc2
      obtain ⟨e2, -, gh, gw, -⟩ := cropOffsets_eq_ok hg
      rw [hp1, if_pos hcrop] at gh gw
      obtain ⟨b1, b2, b3, b4⟩ := cropOffsets_bounds hg (by rw [hp1]; omega)
        (by rw [hp1]; omega)
      refine ⟨by omega, by omega, b1, b2, b3, b4, ?_, ?_, ?_⟩
      · rw [e2]
        exact hp1
      · rw [e2]
        exact hd1'
      · rw [e2]
        exact hm1
    · rename_i hcrop
      rw [CHECK_bind_eq_ok_iff] at hg
      obtain ⟨hc1, hg⟩ := hg
      rw [CHECK_bind_eq_ok_iff] at hg
      obtain ⟨hc2, hg⟩ := hg
      have hc1' : input.height = (shapeDestination t input dest).height := by simpa using hc1
      have hc2' : input.width = (shapeDestination t input dest).width := by simpa using hc2
      simp only [pure_eq_ok, Except.ok.injEq, Prod.mk.injEq] at hg
      obtain ⟨rfl, rfl⟩ := hg
      simp only
      refine ⟨trivial, trivial, le_refl _, by omega, le_refl _, by omega, hp1, hd1', hm1⟩
  obtain ⟨k1, k2, k3, k4, k5, k6, k7, k8, k9⟩ := key
  exact ⟨d1, td1, trivial, trivial, trivial, trivial, hN', hC', k1, k2, k3, k4, k5, k6, k7, k8, k9, hd1, hd2,
    htd1, htd2⟩

end caffe

namespace caffe

open DataTransformer

/-- C17: a returning `Transform(source tensor, destination tensor)`, for an
object whose mean blob (when a mean file is configured) is a single image and
excludes mean values, as the constructor enforces: a destination that is empty
on entry has the shape (N, C, crop_size, crop_size) when crop_size is nonzero
and (N, C, H, W) otherwise, a destination that is not empty keeps its shape,
and for every n < N, c < C, h < height, w < width the destination element at
((n*C + c)*height + h)*width + w' (w' = width-1-w when mirrored, else w) equals
(x - mean) * scale, where x is the element of the source on entry at
((n*C + c)*H + h_off + h)*W + w_off + w and mean is the mean-map value at
(c*H + h_off + h)*W + w_off + w if a mean map is configured, else the constant
of channel c if mean constants are configured, else 0. -/
theorem transform_blob_postcondition (t : DataTransformer) (input dest : Blob)
    (r : BlobTransformResult)
    (hmean : t.param_.has_mean_file = true → t.mean_values_ = [] ∧ t.data_mean_.num = 1)
    (hrun : t.TransformBlob input dest = Except.ok r) :
    (dest.count = 0 →
      r.transformed_blob.num = input.num ∧ r.transformed_blob.channels = input.channels ∧
      r.transformed_blob.height =
        (if t.param_.crop_size ≠ 0 then t.param_.crop_size else input.height) ∧
      r.transformed_blob.width =
        (if t.param_.crop_size ≠ 0 then t.param_.crop_size else input.width)) ∧
    (dest.count ≠ 0 →
      r.transformed_blob.num = dest.num ∧ r.transformed_blob.channels = dest.channels ∧
      r.transformed_blob.height = dest.height ∧ r.transformed_blob.width = dest.width) ∧
    r.crop.height = r.transformed_blob.height ∧ r.crop.width = r.transformed_blob.width ∧
    ∀ n c h w : Int, 0 ≤ n → n < input.num → 0 ≤ c → c < input.channels → 0 ≤ h →
      h < r.crop.height → 0 ≤ w → w < r.crop.width →
      ∃ x mean : Dtype,
        0 ≤ ((n * input.channels + c) * input.height + r.crop.h_off + h) * input.width +
          r.crop.w_off + w ∧
        input.data[(((n * input.channels + c) * input.height + r.crop.h_off + h) *
            input.width + r.crop.w_off + w).toNat]? = some x ∧
        specMean t input.channels c
            ((c * input.height + r.crop.h_off + h) * input.width + r.crop.w_off + w) =
          some mean ∧
        0 ≤ ((n * input.channels + c) * r.crop.height + h) * r.crop.width +
          (if r.crop.do_mirror then r.crop.width - 1 - w else w) ∧
        r.transformed_blob.data[(((n * input.channels + c) * r.crop.height + h) *
            r.crop.width + (if r.crop.do_mirror then r.crop.width - 1 - w else w)).toNat]? =
          some ((x - mean) * t.param_.scale) := by
  obtain ⟨d1, td1, s1, s2, s3, s4, hN, hC, gh, gw, b1, b2, b3, b4, hp, hdm, hmv, hsub1, hsub2,
    hcopy, hscale⟩ := TransformBlob_inv hrun
  refine ⟨?_, ?_, by rw [gh, s3], by rw [gw, s4], ?_⟩
  · intro hcount
    rw [s1, s2, s3, s4]
    unfold shapeDestination
    rw [if_pos hcount]
    split
    · rename_i hcrop
      simp only [Blob.Reshape, if_pos hcrop]
      exact ⟨trivial, trivial, trivial, trivial⟩
    · rename_i hcrop
      simp only [Blob.Reshape, if_neg hcrop]
      exact ⟨trivial, trivial, trivial, trivial⟩
  · intro hcount
    rw [s1, s2, s3, s4]
    unfold shapeDestination
    rw [if_neg hcount]
    exact ⟨rfl, rfl, rfl, rfl⟩
  · intro n c h w hn hnN hc hcC hh hhH hw hwW
    rw [← hC] at hcopy
    obtain ⟨y, hsrc0, hsrc, hdst⟩ := blobCopy_spec hcopy hn hnN hc hcC hh hhH hw hwW
    have eidx : ((n * input.channels + c) * input.height + r.crop.h_off + h) * input.width +
        r.crop.w_off + w =
        ((n * input.channels + c) * input.height + (r.crop.h_off + h)) * input.width +
          (r.crop.w_off + w) := by ring
    have emean : (c * input.height + r.crop.h_off + h) * input.width + r.crop.w_off + w =
        (c * input.height + (r.crop.h_off + h)) * input.width + (r.crop.w_off + w) := by ring
    rw [eidx] at hsrc
    obtain ⟨x1, m2, hx1, hm2, hy⟩ := subtractMeanValues_spec hsub2 hn hnN hc hcC
      (by omega : 0 ≤ r.crop.h_off + h) (by omega : r.crop.h_off + h < input.height)
      (by omega : 0 ≤ r.crop.w_off + w) (by omega : r.crop.w_off + w < input.width) hsrc
    obtain ⟨x, m1, hx, hm1, hy1⟩ := subtractMeanFile_spec hsub1
      (fun hf => (hmean (by rw [← hp]; exact hf)).2 ▸ by rw [hdm])
      hn hnN hc hcC
      (by omega : 0 ≤ r.crop.h_off + h) (by omega : r.crop.h_off + h < input.height)
      (by omega : 0 ≤ r.crop.w_off + w) (by omega : r.crop.w_off + w < input.width) hx1
    rw [hp, hdm] at hm1
    rw [hmv] at hm2
    have hbd := mirrorIndex_bounds (m := r.crop.do_mirror) (C := input.num * input.channels)
      (H := r.crop.height) (W := r.crop.width) (c := n * input.channels + c) (h := h) (w := w)
      (by
        have : 0 ≤ n * input.channels := mul_nonneg hn (by omega)
        omega)
      (by nlinarith) hh hhH hw hwW
    rw [mirrorIndex_eq] at hbd hdst
    have hmeanval : specMean t input.channels c
        ((c * input.height + r.crop.h_off + h) * input.width + r.crop.w_off + w) =
        some (m1 + m2) := by
      unfold specMean
      rw [emean]
      by_cases hf : t.param_.has_mean_file = true
      · rw [if_pos hf] at hm1 ⊢
        rw [(hmean hf).1] at hm2
        simp only [List.length_nil, gt_iff_lt, lt_self_iff_false, if_false, Option.some.injEq]
          at hm2
        rw [hm1, ← hm2]
        simp
      · rw [if_neg hf] at hm1 ⊢
        simp only [Option.some.injEq] at hm1
        rw [← hm1]
        simp only [zero_add]
        exact hm2
    refine ⟨x, m1 + m2, by rw [eidx]; omega, by rw [eidx]; exact hx, hmeanval, hbd.1, ?_⟩
    rw [hp] at hscale
    have hval : y = x - (m1 + m2) := by
      rw [hy, hy1]
      ring
    split at hscale
    · have hcnt : ((n * input.channels + c) * r.crop.height + h) * r.crop.width +
          (if r.crop.do_mirror = true then r.crop.width - 1 - w else w) <
          (shapeDestination t input dest).count := by
        have h1 : input.num * input.channels * r.crop.height * r.crop.width ≤
            (shapeDestination t input dest).count := by
          unfold Blob.count
          rw [← hC, ← gh, ← gw]
          have q1 : 0 ≤ input.channels * r.crop.height * r.crop.width :=
            mul_nonneg (mul_nonneg (by omega) (by omega)) (by omega)
          have q2 := Int.mul_le_mul_of_nonneg_right hN q1
          calc input.num * input.channels * r.crop.height * r.crop.width
              = input.num * (input.channels * r.crop.height * r.crop.width) := by ring
            _ ≤ (shapeDestination t input dest).num *
                (input.channels * r.crop.height * r.crop.width) := q2
            _ = (shapeDestination t input dest).num * input.channels * r.crop.height *
                r.crop.width := by ring
        omega
      obtain ⟨x', hx', hget⟩ := caffe_scal_spec hscale hbd.1 hcnt
      rw [hdst] at hx'
      cases hx'
      rw [hget, hval]
    · rename_i hone
      have hone' : t.param_.scale = 1 := by
        by_contra hne
        exact hone hne
      simp only [pure_eq_ok, Except.ok.injEq] at hscale
      rw [← hscale, hdst, hval, hone']
      simp

/-- The run of `cropTwo` on the source tensor `blob3x3` with an empty
destination returns `cropTwoBlobResult`, and C17 holds of it. -/
theorem transform_blob_postcondition_witness :
    (Examples.cropTwo.param_.has_mean_file = true →
      Examples.cropTwo.mean_values_ = [] ∧ Examples.cropTwo.data_mean_.num = 1) ∧
    Examples.cropTwo.TransformBlob Examples.blob3x3 Examples.emptyBlob =
      Except.ok Examples.cropTwoBlobResult ∧
    Examples.cropTwoBlobResult.transformed_blob.height = 2 ∧
    Examples.cropTwoBlobResult.transformed_blob.data[(((0 * 1 + 0) * 2 + 1) * 2 + 1 :
      Int).toNat]? = some (((5 : Dtype) - 1) * 2) := by
  have hmean : Examples.cropTwo.param_.has_mean_file = true →
      Examples.cropTwo.mean_values_ = [] ∧ Examples.cropTwo.data_mean_.num = 1 := by
    intro hf
    exact absurd hf (by decide)
  have hrun : Examples.cropTwo.TransformBlob Examples.blob3x3 Examples.emptyBlob =
      Except.ok Examples.cropTwoBlobResult := by with_unfolding_all rfl
  refine ⟨hmean, hrun, rfl, ?_⟩
  obtain ⟨-, -, -, -, hel⟩ :=
    transform_blob_postcondition Examples.cropTwo Examples.blob3x3 Examples.emptyBlob
      Examples.cropTwoBlobResult hmean hrun
  obtain ⟨x, mean, -, hx, hm, -, hget⟩ := hel 0 0 1 1 (by decide) (by decide) (by decide)
    (by decide) (by decide) (by decide) (by decide) (by decide)
  have hx' : x = 5 := by
    have h2 : Examples.blob3x3.data[4]? = some x := hx
    have : Examples.blob3x3.data[4]? = some 5 := by with_unfolding_all rfl
    rw [this] at h2
    cases h2
    rfl
  have hm' : mean = 1 := by
    have h2 : specMean Examples.cropTwo 1 0 4 = some mean := hm
    have : specMean Examples.cropTwo 1 0 4 = some 1 := by with_unfolding_all rfl
    rw [this] at h2
    cases h2
    rfl
  subst hx' hm'
  exact hget

end caffe

namespace caffe

open DataTransformer

/-- The region that lines 548-557 compute lies inside the image, and its
origin is not negative. -/
theorem attentionCrop_eq (pos_h pos_w crop_h crop_w H W : Int) :
    attentionCrop pos_h pos_w crop_h crop_w H W =
      (max (pos_h - Int.tdiv crop_h 2) 0, max (pos_w - Int.tdiv crop_w 2) 0,
        min crop_h (H - max (pos_h - Int.tdiv crop_h 2) 0),
        min crop_w (W - max (pos_w - Int.tdiv crop_w 2) 0)) := by
  unfold attentionCrop
  simp only [Prod.mk.injEq]
  refine ⟨?_, ?_, ?_, ?_⟩
  · split <;> omega
  · split <;> omega
  · split <;> split <;> omega
  · split <;> split <;> omega

theorem Randfloat_state {t t' : DataTransformer} {a b x : ℚ}
    (h : t.Randfloat a b = Except.ok (x, t')) :
    t'.param_ = t.param_ ∧ t'.phase_ = t.phase_ := by
  unfold DataTransformer.Randfloat at h
  split at h
  · simp only [pure_eq_ok, Except.ok.injEq, Prod.mk.injEq] at h
    obtain ⟨-, rfl⟩ := h
    exact ⟨rfl, rfl⟩
  · cases h

theorem Find_center_state {t t' : DataTransformer} {array array' : List ℚ} {len i : Int}
    (h : t.Find_center array len = Except.ok (i, array', t')) :
    t'.param_ = t.param_ ∧ t'.phase_ = t.phase_ := by
  unfold Find_center at h
  rw [bind_eq_ok_iff] at h
  obtain ⟨count, -, h⟩ := h
  rw [bind_eq_ok_iff] at h
  obtain ⟨⟨seed, t1⟩, hrf, h⟩ := h
  simp only at h
  rw [bind_eq_ok_iff] at h
  obtain ⟨a0, -, h⟩ := h
  have hst := Randfloat_state hrf
  split at h
  · simp only [pure_eq_ok, Except.ok.injEq, Prod.mk.injEq] at h
    obtain ⟨-, -, rfl⟩ := h
    exact hst
  · rw [bind_eq_ok_iff] at h
    obtain ⟨⟨j, arr⟩, -, h⟩ := h
    simp only [pure_eq_ok, Except.ok.injEq, Prod.mk.injEq] at h
    obtain ⟨-, -, rfl⟩ := h
    exact hst

theorem attentionCenter_state {t t' : DataTransformer} {att att' : List ℚ} {H W : Int}
    {pos : Int × Int} (h : t.attentionCenter att H W = Except.ok (pos, att', t')) :
    t'.param_ = t.param_ ∧ t'.phase_ = t.phase_ := by
  unfold attentionCenter at h
  rw [bind_eq_ok_iff] at h
  obtain ⟨ah, -, h⟩ := h
  rw [bind_eq_ok_iff] at h
  obtain ⟨⟨pos_h, arr1, t1⟩, h1, h⟩ := h
  simp only at h
  rw [bind_eq_ok_iff] at h
  obtain ⟨row, -, h⟩ := h
  rw [bind_eq_ok_iff] at h
  obtain ⟨⟨pos_w, row', t2⟩, h2, h⟩ := h
  simp only [pure_eq_ok, Except.ok.injEq, Prod.mk.injEq] at h
  obtain ⟨-, -, rfl⟩ := h
  have s1 := Find_center_state h1
  have s2 := Find_center_state h2
  exact ⟨by rw [s2.1, s1.1], by rw [s2.2, s1.2]⟩

/-- The steps of a returning `Attention_Transform` on the random-crop branch
of the TRAIN phase: the centre, the draws of the area and the aspect, the
sampled extent, the origin and extent that lines 548-553 compute from them, the
sub-matrix and resize calls made with them, and the copy. -/
theorem Attention_Transform_inv {cv : OpenCV} {t : DataTransformer} {m : Mat} {b : Blob}
    {att : List ℚ} {r : AttentionResult}
    (h : Attention_Transform cv t m b att = Except.ok r)
    (hpath : t.param_.random_crop = true ∧ t.phase_ = Phase.TRAIN) :
    ∃ (mir : Bool) (t1 t2 t3 t5 : DataTransformer) (area ratio : ℚ) (crop_h crop_w : Int)
      (tmp resized : Mat),
      t.drawMirror = Except.ok (mir, t1) ∧
      t1.replicateMeanValues 497 m.channels = Except.ok t2 ∧
      t2.attentionCenter att m.rows m.cols =
        Except.ok ((r.pos_h, r.pos_w), r.attention_array, t3) ∧
      t3.pushCropRanges = Except.ok t5 ∧
      t5.drawAreaRatio 544 545 m.rows m.cols = Except.ok ((area, ratio), r.self) ∧
      cropExtent area ratio = Except.ok (crop_h, crop_w) ∧
      (r.h_off, r.w_off,
          (attentionCrop r.pos_h r.pos_w crop_h crop_w m.rows m.cols).2.2.1,
          (attentionCrop r.pos_h r.pos_w crop_h crop_w m.rows m.cols).2.2.2) =
        attentionCrop r.pos_h r.pos_w crop_h crop_w m.rows m.cols ∧
      cv.roi m r.w_off r.h_off
          (attentionCrop r.pos_h r.pos_w crop_h crop_w m.rows m.cols).2.2.2
          (attentionCrop r.pos_h r.pos_w crop_h crop_w m.rows m.cols).2.2.1 = some tmp ∧
      cv.resize tmp t.param_.crop_size t.param_.crop_size = some resized ∧
      matCopy r.self resized m.channels m.rows m.cols
          ⟨b.height, b.width, r.h_off, r.w_off, mir⟩ b.data =
        Except.ok r.transformed_blob.data := by
  unfold Attention_Transform at h
  simp only at h
  rw [CHECK_bind_eq_ok_iff] at h
  obtain ⟨-, h⟩ := h
  rw [CHECK_bind_eq_ok_iff] at h
  obtain ⟨-, h⟩ := h
  rw [CHECK_bind_eq_ok_iff] at h
  obtain ⟨-, h⟩ := h
  rw [CHECK_bind_eq_ok_iff] at h
  obtain ⟨-, h⟩ := h
  rw [CHECK_bind_eq_ok_iff] at h
  obtain ⟨-, h⟩ := h
  rw [bind_eq_ok_iff] at h
  obtain ⟨⟨mir, t1⟩, h1, h⟩ := h
  simp only at h
  rw [CHECK_bind_eq_ok_iff] at h
  obtain ⟨hC, h⟩ := h
  rw [CHECK_bind_eq_ok_iff] at h
  obtain ⟨-, h⟩ := h
  rw [CHECK_bind_eq_ok_iff] at h
  obtain ⟨-, h⟩ := h
  rw [bind_eq_ok_iff] at h
  obtain ⟨_, -, h⟩ := h
  rw [bind_eq_ok_iff] at h
  obtain ⟨t2, h2, h⟩ := h
  rw [bind_eq_ok_iff] at h
  obtain ⟨_, -, h⟩ := h
  rw [CHECK_bind_eq_ok_iff] at h
  obtain ⟨-, h⟩ := h
  rw [bind_eq_ok_iff] at h
  obtain ⟨⟨⟨pos_h, pos_w⟩, att', t3⟩, hcen, h⟩ := h
  simp only at h
  rw [bind_eq_ok_iff] at h
  obtain ⟨⟨h_off, w_off, img, t4⟩, hbr, h⟩ := h
  simp only at h
  rw [bind_eq_ok_iff] at h
  obtain ⟨td, hcopy, h⟩ := h
  simp only [pure_eq_ok, Except.ok.injEq] at h
  subst h
  simp only
  have hC' : 0 < m.channels := by simpa using hC
  have e1 := (drawMirror_eq_ok h1).1
  have hp1 : t1.param_ = t.param_ := by rw [e1]
  have e2 := (replicateMeanValues_eq_ok hC' h2).1
  have e3 := attentionCenter_state hcen
  have hp : t3.param_ = t.param_ := by rw [e3.1, e2, e1]
  have hph : t3.phase_ = t.phase_ := by rw [e3.2, e2, e1]
  rw [if_pos (by rw [hp, hph]; exact hpath)] at hbr
  rw [bind_eq_ok_iff] at hbr
  obtain ⟨t5, h5, hbr⟩ := hbr
  rw [bind_eq_ok_iff] at hbr
  obtain ⟨⟨⟨area, ratio⟩, t6⟩, h6, hbr⟩ := hbr
  simp only at hbr
  rw [bind_eq_ok_iff] at hbr
  obtain ⟨⟨crop_h, crop_w⟩, hext, hbr⟩ := hbr
  simp only at hbr
  generalize hac : attentionCrop pos_h pos_w crop_h crop_w m.rows m.cols = ac at hbr
  obtain ⟨a1, a2, a3, a4⟩ := ac
  simp only at hbr
  rw [bind_eq_ok_iff] at hbr
  obtain ⟨tmp, htmp, hbr⟩ := hbr
  rw [bind_eq_ok_iff] at hbr
  obtain ⟨resized, hres, hbr⟩ := hbr
  simp only [pure_eq_ok, Except.ok.injEq, Prod.mk.injEq] at hbr
  obtain ⟨q1, q2, q3, q4⟩ := hbr
  rw [q4] at h6
  rw [q3] at hres
  have hroi : cv.roi m a2 a1 a4 a3 = some tmp := by
    unfold cvCall at htmp
    cases hr : cv.roi m a2 a1 a4 a3 with
    | none => rw [hr] at htmp; cases htmp
    | some x =>
      rw [hr] at htmp
      cases htmp
      rfl
  have hrs : cv.resize tmp t.param_.crop_size t.param_.crop_size = some img := by
    unfold cvCall at hres
    cases hr : cv.resize tmp t.param_.crop_size t.param_.crop_size with
    | none => rw [hr] at hres; cases hres
    | some x =>
      rw [hr] at hres
      cases hres
      rfl
  refine ⟨mir, t1, t2, t3, t5, area, ratio, crop_h, crop_w, tmp, img, h1, h2, hcen, h5, h6,
    hext, ?_, ?_, hrs, hcopy⟩
  · rw [hac]
    simp only
    rw [q1, q2]
  · rw [hac]
    simp only
    rw [← q1, ← q2]
    exact hroi

end caffe

namespace caffe

open DataTransformer

/-- C22 as stated fails: for the centre (9, 5) inside a 10 by 10 image and the
sampled extent 4 by 4, lines 548-557 give the origin (7, 3) and the extent
3 by 4, where clamp(9 - 4/2, 0, 10 - 4) is 6 and the extent would stay 4. -/
theorem attention_origin_counterexample :
    attentionCrop 9 5 4 4 10 10 = (7, 3, 3, 4) ∧
    min (max ((9 : Int) - Int.tdiv 4 2) 0) (10 - 4) = 6 ∧
    (7 : Int) ≠ 6 ∧ (3 : Int) ≠ 4 := by
  refine ⟨by decide, by decide, by decide, by decide⟩

/-- C22, amended: a returning `Attention_Transform` on the random-crop branch
of the TRAIN phase has drawn its centre (pos_h, pos_w) with `Find_center`, its
area and aspect with `Randfloat`, and has sampled the extent (crop_h, crop_w)
from them (lines 544-550); its crop origin is h_off = max(pos_h - crop_h/2, 0)
and w_off = max(pos_w - crop_w/2, 0), clamped from below only; the region it
takes from the image (the rectangle of line 557) has that origin and the
extent cut to min(crop_h, img_height - h_off) by min(crop_w, img_width - w_off),
so that it ends inside the image; that region resized to crop_size by
crop_size is what is copied to the destination.  The origin equals
clamp(pos - crop/2, 0, dim - crop) exactly when the extent is left as sampled,
which is exactly when max(pos - crop/2, 0) + crop <= dim. -/
theorem attention_crop_origin (cv : OpenCV) (t : DataTransformer) (m : Mat) (b : Blob)
    (att : List ℚ) (r : AttentionResult)
    (hrun : Attention_Transform cv t m b att = Except.ok r)
    (hpath : t.param_.random_crop = true ∧ t.phase_ = Phase.TRAIN) :
    ∃ (mir : Bool) (t1 t2 t3 t5 : DataTransformer) (area ratio : ℚ) (crop_h crop_w : Int)
      (tmp resized : Mat),
      t.drawMirror = Except.ok (mir, t1) ∧
      t1.replicateMeanValues 497 m.channels = Except.ok t2 ∧
      t2.attentionCenter att m.rows m.cols =
        Except.ok ((r.pos_h, r.pos_w), r.attention_array, t3) ∧
      t3.pushCropRanges = Except.ok t5 ∧
      t5.drawAreaRatio 544 545 m.rows m.cols = Except.ok ((area, ratio), r.self) ∧
      cropExtent area ratio = Except.ok (crop_h, crop_w) ∧
      r.h_off = max (r.pos_h - Int.tdiv crop_h 2) 0 ∧
      r.w_off = max (r.pos_w - Int.tdiv crop_w 2) 0 ∧
      cv.roi m r.w_off r.h_off (min crop_w (m.cols - r.w_off))
        (min crop_h (m.rows - r.h_off)) = some tmp ∧
      cv.resize tmp t.param_.crop_size t.param_.crop_size = some resized ∧
      matCopy r.self resized m.channels m.rows m.cols
          ⟨b.height, b.width, r.h_off, r.w_off, mir⟩ b.data =
        Except.ok r.transformed_blob.data ∧
      0 ≤ r.h_off ∧ 0 ≤ r.w_off ∧
      r.h_off + min crop_h (m.rows - r.h_off) ≤ m.rows ∧
      r.w_off + min crop_w (m.cols - r.w_off) ≤ m.cols ∧
      (r.h_off = min (max (r.pos_h - Int.tdiv crop_h 2) 0) (m.rows - crop_h) ↔
        min crop_h (m.rows - r.h_off) = crop_h) ∧
      (min crop_h (m.rows - r.h_off) = crop_h ↔
        max (r.pos_h - Int.tdiv crop_h 2) 0 + crop_h ≤ m.rows) ∧
      (r.w_off = min (max (r.pos_w - Int.tdiv crop_w 2) 0) (m.cols - crop_w) ↔
        min crop_w (m.cols - r.w_off) = crop_w) ∧
      (min crop_w (m.cols - r.w_off) = crop_w ↔
        max (r.pos_w - Int.tdiv crop_w 2) 0 + crop_w ≤ m.cols) := by
  obtain ⟨mir, t1, t2, t3, t5, area, ratio, crop_h, crop_w, tmp, resized, h1, h2, hcen, h5, h6,
    hext, hac, hroi, hrs, hcopy⟩ := Attention_Transform_inv hrun hpath
  rw [attentionCrop_eq] at hac hroi
  simp only [Prod.mk.injEq] at hac
  obtain ⟨e1, e2, -, -⟩ := hac
  simp only at hroi
  rw [← e1, ← e2] at hroi
  refine ⟨mir, t1, t2, t3, t5, area, ratio, crop_h, crop_w, tmp, resized, h1, h2, hcen, h5, h6,
    hext, e1, e2, hroi, hrs, hcopy, ?_, ?_, ?_, ?_, ?_, ?_, ?_, ?_⟩ <;> omega

/-- The run of `attentionCut` on `image3x3` with the weight map whose only
nonzero cell is (2, 2) returns `attentionCutResult`: the centre is (2, 2), the
sampled extent is 3 by 3, the origin is (1, 1) and the region taken is the
2 by 2 rectangle there, where clamp(2 - 3/2, 0, 3 - 3) is 0 and the extent
would stay 3 by 3. -/
theorem attention_crop_origin_witness :
    Attention_Transform Examples.subMatrixCodec (Examples.attentionCut 0 0)
        Examples.image3x3 ⟨1, 1, 2, 2, [0, 0, 0, 0]⟩ [0, 0, 0, 0, 0, 0, 0, 0, 1] =
      Except.ok Examples.attentionCutResult ∧
    ((Examples.attentionCut 0 0).param_.random_crop = true ∧
      (Examples.attentionCut 0 0).phase_ = Phase.TRAIN) ∧
    (Examples.attentionCut 1 2).drawAreaRatio 544 545 3 3 =
      Except.ok ((9, 1), Examples.attentionCut 1 4) ∧
    cropExtent 9 1 = Except.ok (3, 3) ∧
    Examples.attentionCutResult.h_off = 1 ∧
    min (max ((2 : Int) - Int.tdiv 3 2) 0) (3 - 3) = 0 ∧
    ∃ (mir : Bool) (t1 t2 t3 t5 : DataTransformer) (area ratio : ℚ) (crop_h crop_w : Int)
      (tmp : Mat),
      (Examples.attentionCut 0 0).drawMirror = Except.ok (mir, t1) ∧
      t1.replicateMeanValues 497 Examples.image3x3.channels = Except.ok t2 ∧
      t2.attentionCenter [0, 0, 0, 0, 0, 0, 0, 0, 1] Examples.image3x3.rows
          Examples.image3x3.cols =
        Except.ok ((Examples.attentionCutResult.pos_h, Examples.attentionCutResult.pos_w),
          Examples.attentionCutResult.attention_array, t3) ∧
      t3.pushCropRanges = Except.ok t5 ∧
      t5.drawAreaRatio 544 545 Examples.image3x3.rows Examples.image3x3.cols =
        Except.ok ((area, ratio), Examples.attentionCutResult.self) ∧
      cropExtent area ratio = Except.ok (crop_h, crop_w) ∧
      Examples.attentionCutResult.h_off =
        max (Examples.attentionCutResult.pos_h - Int.tdiv crop_h 2) 0 ∧
      Examples.attentionCutResult.w_off =
        max (Examples.attentionCutResult.pos_w - Int.tdiv crop_w 2) 0 ∧
      Examples.subMatrixCodec.roi Examples.image3x3 Examples.attentionCutResult.w_off
        Examples.attentionCutResult.h_off
        (min crop_w (Examples.image3x3.cols - Examples.attentionCutResult.w_off))
        (min crop_h (Examples.image3x3.rows - Examples.attentionCutResult.h_off)) =
        some tmp := by
  have hrun : Attention_Transform Examples.subMatrixCodec (Examples.attentionCut 0 0)
      Examples.image3x3 ⟨1, 1, 2, 2, [0, 0, 0, 0]⟩ [0, 0, 0, 0, 0, 0, 0, 0, 1] =
      Except.ok Examples.attentionCutResult := by with_unfolding_all rfl
  have hpath : (Examples.attentionCut 0 0).param_.random_crop = true ∧
      (Examples.attentionCut 0 0).phase_ = Phase.TRAIN := ⟨rfl, rfl⟩
  obtain ⟨mir, t1, t2, t3, t5, area, ratio, crop_h, crop_w, tmp, _, h1, h2, hcen, h5, h6,
    hext, e1, e2, hroi, -⟩ := attention_crop_origin Examples.subMatrixCodec
      (Examples.attentionCut 0 0) Examples.image3x3 ⟨1, 1, 2, 2, [0, 0, 0, 0]⟩
      [0, 0, 0, 0, 0, 0, 0, 0, 1] Examples.attentionCutResult hrun hpath
  exact ⟨hrun, hpath, by with_unfolding_all rfl, by with_unfolding_all rfl, rfl, by decide,
    mir, t1, t2, t3, t5, area, ratio, crop_h, crop_w, tmp, h1, h2, hcen, h5, h6,
    hext, e1, e2, hroi⟩

end caffe

namespace caffe

open DataTransformer

/-- Every index of a `C * H * W` destination is the mirror-aware index of one
iteration of the copy loop. -/
theorem mirrorIndex_surj (m : Bool) {C H W j : Int} (hH : 0 ≤ H) (hW : 0 ≤ W) (hj0 : 0 ≤ j)
    (hj : j < C * H * W) :
    ∃ c h w : Int, 0 ≤ c ∧ c < C ∧ 0 ≤ h ∧ h < H ∧ 0 ≤ w ∧ w < W ∧
      mirrorIndex m H W c h w = j := by
  have hWpos : 0 < W := by
    rcases lt_or_ge 0 W with h | h
    · exact h
    · have : W = 0 := by omega
      subst this
      simp at hj
      omega
  have hHpos : 0 < H := by
    rcases lt_or_ge 0 H with h | h
    · exact h
    · have : H = 0 := by omega
      subst this
      simp at hj
      omega
  have hq := Int.ediv_add_emod j W
  have hw0 := Int.emod_nonneg j (by omega : W ≠ 0)
  have hw1 := Int.emod_lt_of_pos j hWpos
  have hq0 : 0 ≤ j / W := Int.ediv_nonneg hj0 (by omega)
  have hqlt : j / W < C * H := by
    by_contra hge
    have h1 : C * H ≤ j / W := by omega
    have h2 : C * H * W ≤ (j / W) * W := Int.mul_le_mul_of_nonneg_right h1 (by omega)
    have h3 : W * (j / W) = (j / W) * W := by ring
    omega
  have hc := Int.ediv_add_emod (j / W) H
  have hh0 := Int.emod_nonneg (j / W) (by omega : H ≠ 0)
  have hh1 := Int.emod_lt_of_pos (j / W) hHpos
  have hc0 : 0 ≤ j / W / H := Int.ediv_nonneg hq0 (by omega)
  have hclt : j / W / H < C := by
    by_contra hge
    have h1 : C ≤ j / W / H := by omega
    have h2 : C * H ≤ (j / W / H) * H := Int.mul_le_mul_of_nonneg_right h1 (by omega)
    have h3 : H * (j / W / H) = (j / W / H) * H := by ring
    omega
  refine ⟨j / W / H, j / W % H, if m then W - 1 - j % W else j % W, hc0, hclt, hh0, hh1, ?_, ?_,
    ?_⟩
  · split <;> omega
  · split <;> omega
  · rw [mirrorIndex_eq]
    have e : (if m = true then W - 1 - (if m = true then W - 1 - j % W else j % W)
        else (if m = true then W - 1 - j % W else j % W)) = j % W := by
      cases m <;> simp
    rw [e]
    have h3 : (j / W / H * H + j / W % H) = j / W := by
      have : H * (j / W / H) = (j / W / H) * H := by ring
      omega
    rw [h3]
    have h4 : W * (j / W) = (j / W) * W := by ring
    omega

/-- C24: for a sample with 0 <= crop_size <= H, W (C > 0 is not needed), and the
extent and origin that lines 81-97 give (the centre origin, or a drawn origin,
for either value of the mirror flag): the origin satisfies
0 <= h_off <= H - height and 0 <= w_off <= W - width; every source index
(c*H + h_off + h)*W + w_off + w the copy loop reads lies in [0, C*H*W), so a
source of exactly C*H*W elements has it; the direct copy is the sequence of
stores at the mirror-aware destination indices of the iterations (c, h, w) in
loop order, no two of these indices are equal, and they are exactly the
indices in [0, C*height*width): every destination element is written exactly
once. -/
theorem direct_copy_index_safety (t : DataTransformer) (datum : Datum) (b : Bool)
    (g : CropSpec) (t' : DataTransformer)
    (hk : 0 ≤ t.param_.crop_size)
    (hH : t.param_.crop_size ≤ datum.height) (hW : t.param_.crop_size ≤ datum.width)
    (hoff : t.cropOffsets datum.height datum.width b = Except.ok (g, t')) :
    (g.do_mirror = b ∧ 0 ≤ g.h_off ∧ g.h_off + g.height ≤ datum.height ∧
      0 ≤ g.w_off ∧ g.w_off + g.width ≤ datum.width) ∧
    (∀ c h w : Int, 0 ≤ c → c < datum.channels → 0 ≤ h → h < g.height → 0 ≤ w →
      w < g.width →
      0 ≤ dataIndex datum g.h_off g.w_off c h w ∧
      dataIndex datum g.h_off g.w_off c h w < datum.channels * datum.height * datum.width ∧
      ((datum.elements.length : Int) = datum.channels * datum.height * datum.width →
        ∃ x, datumElement datum (dataIndex datum g.h_off g.w_off c h w) = Except.ok x)) ∧
    (∀ td : List Dtype, directCopy t' datum g td =
      (box datum.channels g.height g.width).foldlM
        (writeStep (copyVal t' datum g) (copyIdx g)) td) ∧
    ((box datum.channels g.height g.width).map (copyIdx g)).Nodup ∧
    (∀ j : Int, j ∈ (box datum.channels g.height g.width).map (copyIdx g) ↔
      (0 ≤ j ∧ j < datum.channels * g.height * g.width)) := by
  obtain ⟨b1, b2, b3, b4⟩ := cropOffsets_bounds hoff hH hW
  obtain ⟨-, hmir, gh, gw, -⟩ := cropOffsets_eq_ok hoff
  have hgh : 0 ≤ g.height := by
    rw [gh]
    split <;> omega
  have hgw : 0 ≤ g.width := by
    rw [gw]
    split <;> omega
  refine ⟨⟨hmir, b1, b2, b3, b4⟩, ?_, fun td => directCopy_eq_foldlM t' datum g td, ?_, ?_⟩
  · intro c h w hc hcC hh hhH hw hwW
    obtain ⟨i0, i1⟩ := dataIndex_bounds hc hcC hh hhH hw hwW b1 b2 b3 b4
    refine ⟨i0, i1, fun hlen => ?_⟩
    rw [datumElement_eq_readAt]
    exact readAt_of_lt i0 (by omega)
  · rw [List.nodup_map_iff_inj_on (nodup_box _ _ _)]
    intro p hp q hq heq
    exact copyIdx_inj g datum.channels p hp q hq heq
  · intro j
    rw [List.mem_map]
    constructor
    · rintro ⟨⟨c, h, w⟩, hp, rfl⟩
      rw [mem_box] at hp
      simp only at hp
      exact mirrorIndex_bounds (m := g.do_mirror) (C := datum.channels) (H := g.height)
        (W := g.width) (c := (c : Int)) (h := (h : Int)) (w := (w : Int))
        (by omega) hp.1 (by omega) hp.2.1 (by omega) hp.2.2
    · rintro ⟨hj0, hj1⟩
      obtain ⟨c, h, w, hc, hcC, hh, hhH, hw, hwW, heq⟩ :=
        mirrorIndex_surj g.do_mirror hgh hgw hj0 hj1
      refine ⟨(c.toNat, h.toNat, w.toNat), ?_, ?_⟩
      · rw [mem_box]
        simp only
        omega
      · have e1 : ((c.toNat : Nat) : Int) = c := Int.toNat_of_nonneg hc
        have e2 : ((h.toNat : Nat) : Int) = h := Int.toNat_of_nonneg hh
        have e3 : ((w.toNat : Nat) : Int) = w := Int.toNat_of_nonneg hw
        simp only [copyIdx, e1, e2, e3]
        exact heq

/-- The extent and origin of `cropTwo` on the 3 by 3 sample `datum3x3`: the
2 by 2 crop at the origin, and C24 holds of it. -/
theorem direct_copy_index_safety_witness :
    (0 : Int) ≤ Examples.cropTwo.param_.crop_size ∧
    Examples.cropTwo.param_.crop_size ≤ Examples.datum3x3.height ∧
    Examples.cropTwo.param_.crop_size ≤ Examples.datum3x3.width ∧
    Examples.cropTwo.cropOffsets Examples.datum3x3.height Examples.datum3x3.width false =
      Except.ok (⟨2, 2, 0, 0, false⟩, Examples.cropTwo) ∧
    (∀ j : Int, j ∈ (box 1 2 2).map (copyIdx ⟨2, 2, 0, 0, false⟩) ↔ (0 ≤ j ∧ j < 1 * 2 * 2)) := by
  have hoff : Examples.cropTwo.cropOffsets Examples.datum3x3.height Examples.datum3x3.width
      false = Except.ok (⟨2, 2, 0, 0, false⟩, Examples.cropTwo) := by with_unfolding_all rfl
  exact ⟨by decide, by decide, by decide, hoff,
    (direct_copy_index_safety Examples.cropTwo Examples.datum3x3 false ⟨2, 2, 0, 0, false⟩
      Examples.cropTwo (by decide) (by decide) (by decide) hoff).2.2.2.2⟩

end caffe

namespace caffe

open DataTransformer

theorem foldlM_invariant {ι σ : Type} (P : σ → Prop) (f : σ → ι → Except Fault σ)
    (hstep : ∀ s i s', f s i = Except.ok s' → P s → P s') (l : List ι) (s s' : σ)
    (h : l.foldlM f s = Except.ok s') (hs : P s) : P s' := by
  induction l generalizing s with
  | nil =>
    cases h
    exact hs
  | cons a l ih =>
    rw [List.foldlM_cons, bind_eq_ok_iff] at h
    obtain ⟨s1, h1, h2⟩ := h
    exact ih s1 h2 (hstep s a s1 h1 hs)

theorem pushCropRanges_mean_values {t t' : DataTransformer}
    (h : t.pushCropRanges = Except.ok t') : t'.mean_values_ = t.mean_values_ := by
  unfold pushCropRanges at h
  split at h
  · unfold forLoop at h
    refine foldlM_invariant (fun s => s.mean_values_ = t.mean_values_) _ ?_ _ _ _ h rfl
    intro s i s' hs hP
    rw [bind_eq_ok_iff] at hs
    obtain ⟨a, -, hs⟩ := hs
    simp only at hs
    rw [bind_eq_ok_iff] at hs
    obtain ⟨r, -, hs⟩ := hs
    simp only [pure_eq_ok, Except.ok.injEq] at hs
    subst hs
    exact hP
  · cases h
    rfl

theorem Randfloat_mean_values {t t' : DataTransformer} {a b x : ℚ}
    (h : t.Randfloat a b = Except.ok (x, t')) : t'.mean_values_ = t.mean_values_ := by
  unfold DataTransformer.Randfloat at h
  split at h
  · simp only [pure_eq_ok, Except.ok.injEq, Prod.mk.injEq] at h
    obtain ⟨-, rfl⟩ := h
    rfl
  · cases h

theorem drawAreaRatio_mean_values {t t' : DataTransformer} {l1 l2 : Nat} {H W : Int}
    {p : ℚ × ℚ} (h : t.drawAreaRatio l1 l2 H W = Except.ok (p, t')) :
    t'.mean_values_ = t.mean_values_ := by
  unfold drawAreaRatio at h
  rw [bind_eq_ok_iff] at h
  obtain ⟨a0, -, h⟩ := h
  rw [bind_eq_ok_iff] at h
  obtain ⟨a1, -, h⟩ := h
  rw [CHECK_bind_eq_ok_iff] at h
  obtain ⟨-, h⟩ := h
  rw [bind_eq_ok_iff] at h
  obtain ⟨r0, -, h⟩ := h
  rw [bind_eq_ok_iff] at h
  obtain ⟨r1, -, h⟩ := h
  rw [CHECK_bind_eq_ok_iff] at h
  obtain ⟨-, h⟩ := h
  rw [bind_eq_ok_iff] at h
  obtain ⟨⟨x, s1⟩, hx, h⟩ := h
  simp only at h
  rw [bind_eq_ok_iff] at h
  obtain ⟨⟨y, s2⟩, hy, h⟩ := h
  simp only [pure_eq_ok, Except.ok.injEq, Prod.mk.injEq] at h
  obtain ⟨-, rfl⟩ := h
  rw [Randfloat_mean_values hy, Randfloat_mean_values hx]

theorem randomAreaCrop_mean_values {t : DataTransformer} {datum : Datum} {g : CropSpec}
    {buf : List Dtype} {r : TransformResult}
    (h : randomAreaCrop t datum g buf = Except.ok r) :
    r.self.mean_values_ = t.mean_values_ := by
  unfold randomAreaCrop at h
  rw [bind_eq_ok_iff] at h
  obtain ⟨s1, h1, h⟩ := h
  rw [bind_eq_ok_iff] at h
  obtain ⟨⟨⟨area, ratio⟩, s2⟩, h2, h⟩ := h
  simp only at h
  rw [bind_eq_ok_iff] at h
  obtain ⟨⟨crop_h, crop_w⟩, -, h⟩ := h
  simp only at h
  rw [bind_eq_ok_iff] at h
  obtain ⟨⟨g', s3⟩, hg, h⟩ := h
  simp only at h
  rw [bind_eq_ok_iff] at h
  obtain ⟨tmp, -, h⟩ := h
  rw [bind_eq_ok_iff] at h
  obtain ⟨td, -, h⟩ := h
  cases h
  simp only
  have e12 : s2.mean_values_ = t.mean_values_ := by
    rw [drawAreaRatio_mean_values h2, pushCropRanges_mean_values h1]
  split at hg
  · rw [bind_eq_ok_iff] at hg
    obtain ⟨⟨r1, u1⟩, hr1, hg⟩ := hg
    simp only at hg
    rw [bind_eq_ok_iff] at hg
    obtain ⟨⟨r2, u2⟩, hr2, hg⟩ := hg
    simp only [pure_eq_ok, Except.ok.injEq, Prod.mk.injEq] at hg
    obtain ⟨-, rfl⟩ := hg
    have a1 := (Rand_eq_ok hr1).1
    have a2 := (Rand_eq_ok hr2).1
    rw [a2, a1]
    exact e12
  · simp only [pure_eq_ok, Except.ok.injEq, Prod.mk.injEq] at hg
    obtain ⟨-, rfl⟩ := hg
    exact e12

/-- What a returning `Transform(datum, flat buffer)`, on either path, has
checked and leaves in the list of mean constants. -/
theorem Transform_mean_values {t : DataTransformer} {datum : Datum} {buf : List Dtype}
    {r : TransformResult} (h : t.Transform datum buf = Except.ok r) :
    0 < datum.channels ∧
    r.self.mean_values_ = expandMeanValues t.mean_values_ datum.channels ∧
    (t.mean_values_.length > 0 →
      (t.mean_values_.length = 1 ∨ (t.mean_values_.length : Int) = datum.channels)) := by
  unfold Transform at h
  rw [bind_eq_ok_iff] at h
  obtain ⟨⟨b, t1⟩, h1, h⟩ := h
  simp only at h
  rw [bind_eq_ok_iff] at h
  obtain ⟨_, h2, h⟩ := h
  rw [bind_eq_ok_iff] at h
  obtain ⟨t2, h3, h⟩ := h
  unfold cropAndCopy at h
  rw [bind_eq_ok_iff] at h
  obtain ⟨⟨g, t3⟩, h4, h⟩ := h
  simp only at h
  have e1 := (drawMirror_eq_ok h1).1
  have hC := (checkDatum_eq_ok_iff.1 h2).1
  obtain ⟨e2, hlen⟩ := replicateMeanValues_eq_ok hC h3
  have e3 := (cropOffsets_eq_ok h4).1
  have hm1 : t1.mean_values_ = t.mean_values_ := by rw [e1]
  have hm3 : t3.mean_values_ = expandMeanValues t.mean_values_ datum.channels := by
    rw [e3, e2, hm1]
  refine ⟨hC, ?_, fun hpos => hlen (by rw [hm1]; exact hpos) |>.imp (by rw [hm1]; exact id)
    (by rw [hm1]; exact id)⟩
  split at h
  · rw [randomAreaCrop_mean_values h]
    exact hm3
  · rw [bind_eq_ok_iff] at h
    obtain ⟨td, -, h⟩ := h
    cases h
    exact hm3

theorem expandMeanValues_replicate {C : Int} (m : Dtype) (hC : 1 < C) :
    expandMeanValues (List.replicate C.toNat m) C = List.replicate C.toNat m := by
  unfold expandMeanValues
  rw [if_neg]
  simp only [List.length_replicate]
  omega

theorem expandMeanValues_singleton {C : Int} (m : Dtype) :
    expandMeanValues [m] C = List.replicate C.toNat m := by
  unfold expandMeanValues
  simp

/-- C23: the only change `Transform(datum, flat buffer)` makes to the list of
mean constants is the broadcast-expansion.  After a returning Transform of a
C-channel sample (C > 1) with the one configured constant m the list has
exactly C entries all equal to m; every later returning Transform of a
C-channel sample leaves the list unchanged; and a later Transform of a sample
whose channel count differs from C (a 1-channel sample included) never
returns: once its mirror draw and its checks of lines 59-67 have passed it
fails the check of the number of mean constants at line 71. -/
theorem mean_constant_cache (t : DataTransformer) (datum : Datum) (buf : List Dtype)
    (r : TransformResult) (m : Dtype) (hone : t.mean_values_ = [m])
    (hC : 1 < datum.channels) (hrun : t.Transform datum buf = Except.ok r) :
    (∀ (t0 : DataTransformer) (d0 : Datum) (b0 : List Dtype) (r0 : TransformResult),
      t0.Transform d0 b0 = Except.ok r0 →
      r0.self.mean_values_ = expandMeanValues t0.mean_values_ d0.channels) ∧
    r.self.mean_values_ = List.replicate datum.channels.toNat m ∧
    (r.self.mean_values_.length : Int) = datum.channels ∧
    (∀ x ∈ r.self.mean_values_, x = m) ∧
    (∀ (datum2 : Datum) (buf2 : List Dtype) (r2 : TransformResult),
      datum2.channels = datum.channels → r.self.Transform datum2 buf2 = Except.ok r2 →
      r2.self.mean_values_ = r.self.mean_values_) ∧
    (∀ (datum2 : Datum) (buf2 : List Dtype), datum2.channels ≠ datum.channels →
      (∀ r2 : TransformResult, r.self.Transform datum2 buf2 ≠ Except.ok r2) ∧
      (∀ (b : Bool) (t2 : DataTransformer), r.self.drawMirror = Except.ok (b, t2) →
        checkDatum t2 datum2 = Except.ok () →
        r.self.Transform datum2 buf2 = Except.error (Fault.check 71))) := by
  have hmv : r.self.mean_values_ = List.replicate datum.channels.toNat m := by
    rw [(Transform_mean_values hrun).2.1, hone, expandMeanValues_singleton]
  have hlen : (r.self.mean_values_.length : Int) = datum.channels := by
    rw [hmv, List.length_replicate]
    omega
  refine ⟨fun t0 d0 b0 r0 h0 => (Transform_mean_values h0).2.1, hmv, hlen, ?_, ?_, ?_⟩
  · intro x hx
    rw [hmv] at hx
    exact List.eq_of_mem_replicate hx
  · intro datum2 buf2 r2 hch h2
    rw [(Transform_mean_values h2).2.1, hch, hmv, expandMeanValues_replicate m hC]
  · intro datum2 buf2 hne
    constructor
    · intro r2 h2
      obtain ⟨-, -, hchk⟩ := Transform_mean_values h2
      have hpos : r.self.mean_values_.length > 0 := by omega
      rcases hchk hpos with h1 | h1
      · omega
      · omega
    · intro b t2 hdm hcd
      have hC2 := (checkDatum_eq_ok_iff.1 hcd).1
      have e1 := (drawMirror_eq_ok hdm).1
      have hm2 : t2.mean_values_ = r.self.mean_values_ := by rw [e1]
      unfold Transform
      rw [hdm, bind_ok_eq]
      simp only
      rw [hcd, bind_ok_eq, replicateMeanValues_eq t2 71 hC2, if_pos, bind_error_eq]
      rw [hm2]
      refine ⟨by omega, by omega, by omega⟩

/-- A three-channel sample with the single constant [2]: the call returns and
leaves the constants [2, 2, 2]; a following call on a one-channel sample fails
the check of line 71. -/
theorem mean_constant_cache_witness :
    ({ Examples.mirrorOn Examples.zeroRng with mean_values_ := [2] } :
        DataTransformer).mean_values_ = [2] ∧
    (1 : Int) < Examples.datum3ch.channels ∧
    ({ Examples.mirrorOn Examples.zeroRng with mean_values_ := [2] } :
        DataTransformer).Transform Examples.datum3ch [0, 0, 0] =
      Except.ok ⟨{ Examples.mirrorOn ⟨fun _ => 0, 1⟩ with mean_values_ := [2, 2, 2] },
        [5, 6, 7], ⟨1, 1, 0, 0, false⟩⟩ ∧
    ({ Examples.mirrorOn ⟨fun _ => 0, 1⟩ with mean_values_ := [2, 2, 2] } :
        DataTransformer).Transform Examples.datum1x2 [0, 0] =
      Except.error (Fault.check 71) := by
  have hrun : ({ Examples.mirrorOn Examples.zeroRng with mean_values_ := [2] } :
      DataTransformer).Transform Examples.datum3ch [0, 0, 0] =
      Except.ok ⟨{ Examples.mirrorOn ⟨fun _ => 0, 1⟩ with mean_values_ := [2, 2, 2] },
        [5, 6, 7], ⟨1, 1, 0, 0, false⟩⟩ := by with_unfolding_all rfl
  have h := (mean_constant_cache
    ({ Examples.mirrorOn Examples.zeroRng with mean_values_ := [2] } : DataTransformer)
    Examples.datum3ch [0, 0, 0] _ 2 rfl (by decide) hrun).2.2.2.2.2 Examples.datum1x2 [0, 0]
    (by decide)
  exact ⟨rfl, by decide, hrun,
    h.2 false ({ Examples.mirrorOn ⟨fun _ => 0, 2⟩ with mean_values_ := [2, 2, 2] })
      (by with_unfolding_all rfl) (by with_unfolding_all rfl)⟩

end caffe

namespace caffe

open DataTransformer

theorem caffe_sub_length {n : Int} {d d' : List Dtype} {off : Int} {b : List Dtype}
    (h : caffe_sub n d off b = Except.ok d') : d'.length = d.length := by
  rw [caffe_sub_eq] at h
  exact (foldlM_modStep_spec _ _ _ _ _ h).1

theorem caffe_add_scalar_length {n : Int} {alpha : Dtype} {d d' : List Dtype} {off : Int}
    (h : caffe_add_scalar n alpha d off = Except.ok d') : d'.length = d.length := by
  rw [caffe_add_scalar_eq] at h
  exact (foldlM_modStep_spec _ _ _ _ _ h).1

theorem subtractMeanFile_length {t : DataTransformer} {input : Blob} {d1 : List Dtype}
    (h : subtractMeanFile t input = Except.ok d1) : d1.length = input.data.length := by
  unfold subtractMeanFile at h
  split at h
  · rw [CHECK_bind_eq_ok_iff] at h
    obtain ⟨-, h⟩ := h
    rw [CHECK_bind_eq_ok_iff] at h
    obtain ⟨-, h⟩ := h
    rw [CHECK_bind_eq_ok_iff] at h
    obtain ⟨-, h⟩ := h
    unfold forLoop at h
    refine foldlM_invariant (fun d => d.length = input.data.length) _ ?_ _ _ _ h rfl
    intro s i s' hs hP
    rw [caffe_sub_length hs]
    exact hP
  · cases h
    rfl

theorem subtractMeanValues_length {t : DataTransformer} {input : Blob} {d1 d2 : List Dtype}
    (h : subtractMeanValues t input d1 = Except.ok d2) : d2.length = d1.length := by
  unfold subtractMeanValues at h
  split at h
  · rw [CHECK_bind_eq_ok_iff] at h
    obtain ⟨-, h⟩ := h
    split at h
    · rw [bind_eq_ok_iff] at h
      obtain ⟨m0, -, h⟩ := h
      exact caffe_add_scalar_length h
    · unfold forLoop at h
      refine foldlM_invariant (fun d => d.length = d1.length) _ ?_ _ _ _ h rfl
      intro s i s' hs hP
      refine foldlM_invariant (fun d => d.length = d1.length) _ ?_ _ _ _ hs hP
      intro u c u' hu hQ
      rw [bind_eq_ok_iff] at hu
      obtain ⟨mc, -, hu⟩ := hu
      rw [caffe_add_scalar_length hu]
      exact hQ
  · cases h
    rfl

/-- What a returning `Transform(Blob, Blob)` leaves in its source tensor. -/
theorem TransformBlob_source {t : DataTransformer} {input dest : Blob}
    {r : BlobTransformResult}
    (hmean : t.param_.has_mean_file = true → t.mean_values_ = [] ∧ t.data_mean_.num = 1)
    (hrun : t.TransformBlob input dest = Except.ok r) :
    r.input_blob.num = input.num ∧ r.input_blob.channels = input.channels ∧
    r.input_blob.height = input.height ∧ r.input_blob.width = input.width ∧
    r.input_blob.data.length = input.data.length ∧
    (t.param_.has_mean_file = false → t.mean_values_ = [] → r.input_blob = input) ∧
    ∀ n c h w : Int, 0 ≤ n → n < input.num → 0 ≤ c → c < input.channels → 0 ≤ h →
      h < input.height → 0 ≤ w → w < input.width → ∀ y : Dtype,
      r.input_blob.data[(((n * input.channels + c) * input.height + h) * input.width +
        w).toNat]? = some y →
      ∃ x mean : Dtype,
        input.data[(((n * input.channels + c) * input.height + h) * input.width +
          w).toNat]? = some x ∧
        specMean t input.channels c ((c * input.height + h) * input.width + w) = some mean ∧
        y = x - mean := by
  obtain ⟨d1, td1, -, -, -, -, -, -, -, -, -, -, -, -, hp, hdm, hmv, hsub1, hsub2, -, -⟩ :=
    TransformBlob_inv hrun
  have hshape : r.input_blob.num = input.num ∧ r.input_blob.channels = input.channels ∧
      r.input_blob.height = input.height ∧ r.input_blob.width = input.width := by
    unfold TransformBlob at hrun
    simp only at hrun
    rw [CHECK_bind_eq_ok_iff] at hrun
    obtain ⟨-, hrun⟩ := hrun
    rw [CHECK_bind_eq_ok_iff] at hrun
    obtain ⟨-, hrun⟩ := hrun
    rw [CHECK_bind_eq_ok_iff] at hrun
    obtain ⟨-, hrun⟩ := hrun
    rw [CHECK_bind_eq_ok_iff] at hrun
    obtain ⟨-, hrun⟩ := hrun
    rw [bind_eq_ok_iff] at hrun
    obtain ⟨⟨mir, t1⟩, -, hrun⟩ := hrun
    simp only at hrun
    rw [bind_eq_ok_iff] at hrun
    obtain ⟨⟨g, t2⟩, -, hrun⟩ := hrun
    simp only at hrun
    rw [bind_eq_ok_iff] at hrun
    obtain ⟨e1, -, hrun⟩ := hrun
    rw [bind_eq_ok_iff] at hrun
    obtain ⟨e2, -, hrun⟩ := hrun
    rw [bind_eq_ok_iff] at hrun
    obtain ⟨e3, -, hrun⟩ := hrun
    rw [bind_eq_ok_iff] at hrun
    obtain ⟨e4, -, hrun⟩ := hrun
    simp only [pure_eq_ok, Except.ok.injEq] at hrun
    subst hrun
    exact ⟨rfl, rfl, rfl, rfl⟩
  obtain ⟨s1, s2, s3, s4⟩ := hshape
  refine ⟨s1, s2, s3, s4, ?_, ?_, ?_⟩
  · rw [subtractMeanValues_length hsub2, subtractMeanFile_length hsub1]
  · intro hf hv
    have h1 : d1 = input.data := by
      unfold subtractMeanFile at hsub1
      rw [hp, hf] at hsub1
      simp only [Bool.false_eq_true, if_false, pure_eq_ok, Except.ok.injEq] at hsub1
      exact hsub1.symm
    have h2 : r.input_blob.data = d1 := by
      unfold subtractMeanValues at hsub2
      rw [hmv, hv] at hsub2
      simp only [List.length_nil, gt_iff_lt, lt_self_iff_false, if_false, pure_eq_ok,
        Except.ok.injEq] at hsub2
      exact hsub2.symm
    cases hr : r.input_blob with
    | mk rn rc rh rw rd =>
      rw [hr] at s1 s2 s3 s4 h2
      simp only at s1 s2 s3 s4 h2
      cases hi : input with
      | mk n c h w d =>
        rw [hi] at s1 s2 s3 s4 h1
        simp only at s1 s2 s3 s4 h1
        rw [s1, s2, s3, s4, h2, h1]
  · intro n c h w hn hnN hc hcC hh hhH hw hwW y hy
    obtain ⟨x1, m2, hx1, hm2, hy2⟩ := subtractMeanValues_spec hsub2 hn hnN hc hcC hh hhH hw hwW hy
    obtain ⟨x, m1, hx, hm1, hy1⟩ := subtractMeanFile_spec hsub1
      (fun hf => (hmean (by rw [← hp]; exact hf)).2 ▸ by rw [hdm])
      hn hnN hc hcC hh hhH hw hwW hx1
    rw [hp, hdm] at hm1
    rw [hmv] at hm2
    refine ⟨x, m1 + m2, hx, ?_, by rw [hy2, hy1]; ring⟩
    unfold specMean
    by_cases hf : t.param_.has_mean_file = true
    · rw [if_pos hf] at hm1 ⊢
      rw [(hmean hf).1] at hm2
      simp only [List.length_nil, gt_iff_lt, lt_self_iff_false, if_false, Option.some.injEq]
        at hm2
      rw [hm1, ← hm2]
      simp
    · rw [if_neg hf] at hm1 ⊢
      simp only [Option.some.injEq] at hm1
      rw [← hm1]
      simp only [zero_add]
      exact hm2

/-- The destination of a returning `Transform(Blob, Blob)` in terms of the
source tensor it leaves behind: the scaled copy of the crop. -/
theorem TransformBlob_output {t : DataTransformer} {input dest : Blob}
    {r : BlobTransformResult} (hrun : t.TransformBlob input dest = Except.ok r)
    {n c h w : Int} (hn : 0 ≤ n) (hnN : n < input.num) (hc : 0 ≤ c) (hcC : c < input.channels)
    (hh : 0 ≤ h) (hhH : h < r.crop.height) (hw : 0 ≤ w) (hwW : w < r.crop.width) :
    0 ≤ r.crop.h_off + h ∧ r.crop.h_off + h < input.height ∧
    0 ≤ r.crop.w_off + w ∧ r.crop.w_off + w < input.width ∧
    ∃ y : Dtype,
      r.input_blob.data[(((n * input.channels + c) * input.height + (r.crop.h_off + h)) *
        input.width + (r.crop.w_off + w)).toNat]? = some y ∧
      r.transformed_blob.data[(((n * input.channels + c) * r.crop.height + h) *
          r.crop.width + (if r.crop.do_mirror then r.crop.width - 1 - w else w)).toNat]? =
        some (y * t.param_.scale) := by
  obtain ⟨d1, td1, s1, s2, s3, s4, hN, hC, gh, gw, b1, b2, b3, b4, hp, hdm, hmv, hsub1, hsub2,
    hcopy, hscale⟩ := TransformBlob_inv hrun
  refine ⟨by omega, by omega, by omega, by omega, ?_⟩
  rw [← hC] at hcopy
  obtain ⟨y, hsrc0, hsrc, hdst⟩ := blobCopy_spec hcopy hn hnN hc hcC hh hhH hw hwW
  have eidx : ((n * input.channels + c) * input.height + r.crop.h_off + h) * input.width +
      r.crop.w_off + w =
      ((n * input.channels + c) * input.height + (r.crop.h_off + h)) * input.width +
        (r.crop.w_off + w) := by ring
  rw [eidx] at hsrc
  have hbd := mirrorIndex_bounds (m := r.crop.do_mirror) (C := input.num * input.channels)
    (H := r.crop.height) (W := r.crop.width) (c := n * input.channels + c) (h := h) (w := w)
    (by
      have : 0 ≤ n * input.channels := mul_nonneg hn (by omega)
      omega)
    (by nlinarith) hh hhH hw hwW
  rw [mirrorIndex_eq] at hbd hdst
  refine ⟨y, hsrc, ?_⟩
  rw [hp] at hscale
  split at hscale
  · have hcnt : ((n * input.channels + c) * r.crop.height + h) * r.crop.width +
        (if r.crop.do_mirror = true then r.crop.width - 1 - w else w) <
        (shapeDestination t input dest).count := by
      have h1 : input.num * input.channels * r.crop.height * r.crop.width ≤
          (shapeDestination t input dest).count := by
        unfold Blob.count
        rw [← hC, ← gh, ← gw]
        have q1 : 0 ≤ input.channels * r.crop.height * r.crop.width :=
          mul_nonneg (mul_nonneg (by omega) (by omega)) (by omega)
        have q2 := Int.mul_le_mul_of_nonneg_right hN q1
        calc input.num * input.channels * r.crop.height * r.crop.width
            = input.num * (input.channels * r.crop.height * r.crop.width) := by ring
          _ ≤ (shapeDestination t input dest).num *
              (input.channels * r.crop.height * r.crop.width) := q2
          _ = (shapeDestination t input dest).num * input.channels * r.crop.height *
              r.crop.width := by ring
      omega
    obtain ⟨x', hx', hget⟩ := caffe_scal_spec hscale hbd.1 hcnt
    rw [hdst] at hx'
    cases hx'
    exact hget
  · rename_i hone
    have hone' : t.param_.scale = 1 := by
      by_contra hne
      exact hone hne
    simp only [pure_eq_ok, Except.ok.injEq] at hscale
    rw [← hscale, hdst, hone']
    simp

end caffe

namespace caffe

open DataTransformer

/-- C25 as stated fails: with `scale` 0 and the non-zero mean constant 1, the
first call on the source [5, 6] leaves the source [4, 5] and the output
[0, 0]; the second call on that source leaves the source [3, 4] and the same
output [0, 0]. -/
theorem transform_blob_twice_counterexample :
    Examples.zeroScale.TransformBlob Examples.blob1x2 Examples.emptyBlob =
      Except.ok ⟨Examples.zeroScale, ⟨1, 1, 1, 2, [4, 5]⟩, ⟨1, 1, 1, 2, [0, 0]⟩,
        ⟨1, 2, 0, 0, false⟩⟩ ∧
    Examples.zeroScale.TransformBlob ⟨1, 1, 1, 2, [4, 5]⟩ ⟨1, 1, 1, 2, [0, 0]⟩ =
      Except.ok ⟨Examples.zeroScale, ⟨1, 1, 1, 2, [3, 4]⟩, ⟨1, 1, 1, 2, [0, 0]⟩,
        ⟨1, 2, 0, 0, false⟩⟩ ∧
    Examples.zeroScale.mean_values_ = [1] ∧ (1 : Dtype) ≠ 0 :=
  ⟨by with_unfolding_all rfl, by with_unfolding_all rfl, rfl, by norm_num⟩

/-- C25, amended: a returning `Transform(source tensor, destination tensor)`,
for an object whose mean blob (when a mean file is configured) is a single
image and excludes mean values, keeps the shape and length of its source
tensor and leaves every element of it equal to its value on entry minus the
configured mean (the mean-map value at the same (channel, row, col), else the
per-channel constant, else 0); the source is unchanged when no mean is
configured.  A second returning call on the source the first call left
subtracts the mean a second time: every destination element of it is
((x - mean) - mean) * scale, x being the element of the source before the
first call. -/
theorem transform_blob_overwrites_source (t : DataTransformer) (input dest : Blob)
    (r : BlobTransformResult)
    (hmean : t.param_.has_mean_file = true → t.mean_values_ = [] ∧ t.data_mean_.num = 1)
    (hrun : t.TransformBlob input dest = Except.ok r) :
    (r.input_blob.num = input.num ∧ r.input_blob.channels = input.channels ∧
      r.input_blob.height = input.height ∧ r.input_blob.width = input.width ∧
      r.input_blob.data.length = input.data.length) ∧
    (t.param_.has_mean_file = false → t.mean_values_ = [] → r.input_blob = input) ∧
    (∀ n c h w : Int, 0 ≤ n → n < input.num → 0 ≤ c → c < input.channels → 0 ≤ h →
      h < input.height → 0 ≤ w → w < input.width → ∀ y : Dtype,
      r.input_blob.data[(((n * input.channels + c) * input.height + h) * input.width +
        w).toNat]? = some y →
      ∃ x mean : Dtype,
        input.data[(((n * input.channels + c) * input.height + h) * input.width +
          w).toNat]? = some x ∧
        specMean t input.channels c ((c * input.height + h) * input.width + w) = some mean ∧
        y = x - mean) ∧
    (∀ (dest2 : Blob) (r2 : BlobTransformResult),
      r.self.TransformBlob r.input_blob dest2 = Except.ok r2 →
      ∀ n c h w : Int, 0 ≤ n → n < input.num → 0 ≤ c → c < input.channels → 0 ≤ h →
        h < r2.crop.height → 0 ≤ w → w < r2.crop.width →
        ∃ x mean : Dtype,
          input.data[(((n * input.channels + c) * input.height + (r2.crop.h_off + h)) *
            input.width + (r2.crop.w_off + w)).toNat]? = some x ∧
          specMean t input.channels c
              ((c * input.height + (r2.crop.h_off + h)) * input.width + (r2.crop.w_off + w)) =
            some mean ∧
          r2.transformed_blob.data[(((n * input.channels + c) * r2.crop.height + h) *
              r2.crop.width +
              (if r2.crop.do_mirror then r2.crop.width - 1 - w else w)).toNat]? =
            some ((x - mean - mean) * t.param_.scale)) := by
  obtain ⟨s1, s2, s3, s4, hlen, hnone, hel⟩ := TransformBlob_source hmean hrun
  obtain ⟨-, -, -, -, -, -, -, -, -, -, -, -, -, -, hp, hdm, hmv, -, -, -, -⟩ :=
    TransformBlob_inv hrun
  refine ⟨⟨s1, s2, s3, s4, hlen⟩, hnone, hel, ?_⟩
  intro dest2 r2 hrun2 n c h w hn hnN hc hcC hh hhH hw hwW
  have hmean2 : r.self.param_.has_mean_file = true →
      r.self.mean_values_ = [] ∧ r.self.data_mean_.num = 1 := by
    rw [hp, hmv, hdm]
    exact hmean
  obtain ⟨c1, c2, c3, c4, y2, hy2, hout⟩ := TransformBlob_output hrun2 (n := n) (c := c)
    (h := h) (w := w) hn (by rw [s1]; exact hnN) hc (by rw [s2]; exact hcC) hh hhH hw hwW
  simp only [s2, s3, s4] at hy2 hout c2 c4
  obtain ⟨-, -, -, -, -, -, hel2⟩ := TransformBlob_source hmean2 hrun2
  rw [s1, s2, s3, s4] at hel2
  obtain ⟨x1, mean2, hx1, hm2, e2⟩ := hel2 n c (r2.crop.h_off + h) (r2.crop.w_off + w)
    hn hnN hc hcC c1 c2 c3 c4 y2 hy2
  obtain ⟨x, mean, hx, hm, e1⟩ := hel n c (r2.crop.h_off + h) (r2.crop.w_off + w)
    hn hnN hc hcC c1 c2 c3 c4 x1 hx1
  have hsame : mean2 = mean := by
    have : specMean r.self input.channels c
        ((c * input.height + (r2.crop.h_off + h)) * input.width + (r2.crop.w_off + w)) =
        specMean t input.channels c
        ((c * input.height + (r2.crop.h_off + h)) * input.width + (r2.crop.w_off + w)) := by
      unfold specMean
      rw [hp, hdm, hmv]
    rw [this, hm] at hm2
    cases hm2
    rfl
  subst hsame
  refine ⟨x, mean2, hx, hm, ?_⟩
  rw [hout, hp, e2, e1]

/-- The two runs of `cropTwo` on the source tensor `blob3x3`: the first leaves
the source [0, ..., 8], the second the source [-1, ..., 7] and the output
[-2, 0, 4, 6], whose last element is (5 - 1 - 1) * 2. -/
theorem transform_blob_overwrites_source_witness :
    (Examples.cropTwo.param_.has_mean_file = true →
      Examples.cropTwo.mean_values_ = [] ∧ Examples.cropTwo.data_mean_.num = 1) ∧
    Examples.cropTwo.TransformBlob Examples.blob3x3 Examples.emptyBlob =
      Except.ok Examples.cropTwoBlobResult ∧
    Examples.cropTwoBlobResult.self.TransformBlob Examples.cropTwoBlobResult.input_blob
        Examples.emptyBlob = Except.ok Examples.cropTwoBlobSecond ∧
    Examples.cropTwoBlobSecond.transformed_blob.data[(((0 * 1 + 0) * 2 + 1) * 2 + 1 :
      Int).toNat]? = some (((5 : Dtype) - 1 - 1) * 2) := by
  have hmean : Examples.cropTwo.param_.has_mean_file = true →
      Examples.cropTwo.mean_values_ = [] ∧ Examples.cropTwo.data_mean_.num = 1 := by
    intro hf
    exact absurd hf (by decide)
  have hrun : Examples.cropTwo.TransformBlob Examples.blob3x3 Examples.emptyBlob =
      Except.ok Examples.cropTwoBlobResult := by with_unfolding_all rfl
  have hrun2 : Examples.cropTwoBlobResult.self.TransformBlob
      Examples.cropTwoBlobResult.input_blob Examples.emptyBlob =
      Except.ok Examples.cropTwoBlobSecond := by with_unfolding_all rfl
  refine ⟨hmean, hrun, hrun2, ?_⟩
  obtain ⟨-, -, -, hsecond⟩ :=
    transform_blob_overwrites_source Examples.cropTwo Examples.blob3x3 Examples.emptyBlob
      Examples.cropTwoBlobResult hmean hrun
  obtain ⟨x, mean, hx, hm, hget⟩ := hsecond Examples.emptyBlob Examples.cropTwoBlobSecond
    hrun2 0 0 1 1 (by decide) (by decide) (by decide) (by decide) (by decide) (by decide)
    (by decide) (by decide)
  have hx' : x = 5 := by
    have h2 : Examples.blob3x3.data[4]? = some x := hx
    have : Examples.blob3x3.data[4]? = some 5 := by with_unfolding_all rfl
    rw [this] at h2
    cases h2
    rfl
  have hm' : mean = 1 := by
    have h2 : specMean Examples.cropTwo 1 0 4 = some mean := hm
    have : specMean Examples.cropTwo 1 0 4 = some 1 := by with_unfolding_all rfl
    rw [this] at h2
    cases h2
    rfl
  subst hx' hm'
  exact hget

end caffe

namespace caffe

open DataTransformer

/-- C16: with `rand()` returning 0 the seed of `Find_center` is 0, and
`seed <= array[0]` (line 444) selects index 0 whatever the weight there.  On
the 1 by 2 weight map [0, 1], whose only nonzero cell is (0, 1), the centre
computed is (0, 0); on the 2 by 2 weight map [0, 0, 0, 1], whose only nonzero
cell is (1, 1), the row selected is row 0, whose weights sum to 0, and the
second `Find_center` calls `Randfloat(0, 0)`, which fails the check of line
819: `Attention_Transform` does not return. -/
theorem attention_one_hot_zero_seed :
    Examples.evalCropFour.attentionCenter [0, 1] 1 2 =
      Except.ok ((0, 0), [0, 1],
        { Examples.evalCropFour with libc_rand := ⟨fun _ => 0, 2⟩ }) ∧
    ((0 : Int), (0 : Int)) ≠ (0, 1) ∧
    Examples.evalCropFour.attentionCenter [0, 0, 0, 1] 2 2 =
      Except.error (Fault.check 819) ∧
    Attention_Transform Examples.subMatrixCodec (Examples.attentionWhole 0 0)
        Examples.image2x2 ⟨1, 1, 2, 2, [0, 0, 0, 0]⟩ [0, 0, 0, 1] =
      Except.error (Fault.check 819) := by
  refine ⟨by with_unfolding_all rfl, by decide, by with_unfolding_all rfl,
    by with_unfolding_all rfl⟩

end caffe

namespace caffe

open DataTransformer

/-- C21: on a 2 by 3 single-channel source whose draw gives the 1 by 1 crop at
row 1, column 0 (the sample 40), with the mean constant 1 and `scale` 2, the
random-area path of `Transform(datum, flat buffer)` returns the destination
[78, 78, 78, 78, 78, 0]: destination element 5 is not written.  The raw crop
is [40], and interpolating it and then normalising, each value written to
(c * height + h2) * width + w2, gives (40 - 1) * 2 = 78 at all six
destination elements. -/
theorem random_area_normalization_unwritten :
    (Examples.randomAreaMean 0 0 0).Transform Examples.datum2x3 [0, 0, 0, 0, 0, 0] =
      Except.ok ⟨Examples.randomAreaMean 1 3 2, [78, 78, 78, 78, 78, 0],
        ⟨2, 3, 1, 0, false⟩⟩ ∧
    directCopy (Examples.randomAreaMean 1 3 2).unnormalized Examples.datum2x3
      ⟨1, 1, 1, 0, false⟩ [0] = Except.ok [40] ∧
    resampleThenNormalize (Examples.randomAreaMean 1 3 2) 1 1 1 2 3 [40]
      [0, 0, 0, 0, 0, 0] = Except.ok [78, 78, 78, 78, 78, 78] ∧
    ([78, 78, 78, 78, 78, 0] : List Dtype)[5]? = some 0 ∧
    ([78, 78, 78, 78, 78, 78] : List Dtype)[5]? = some (((40 : Dtype) - 1) * 2) := by
  refine ⟨by with_unfolding_all rfl, by with_unfolding_all rfl, by with_unfolding_all rfl,
    rfl, by with_unfolding_all rfl⟩

end caffe

namespace caffe

open DataTransformer

theorem replicateMeanValues_with_rng (t : DataTransformer) (g : Option RNG) (line : Nat)
    (C : Int) :
    ({ t with rng_ := g } : DataTransformer).replicateMeanValues line C =
      (t.replicateMeanValues line C >>= fun t2 => pure { t2 with rng_ := g }) := by
  unfold replicateMeanValues
  simp only
  split
  · cases hc : CHECK line (decide (t.mean_values_.length = 1 ∨
        (t.mean_values_.length : Int) = C)) with
    | error e => rfl
    | ok u =>
      simp only [bind_ok_eq]
      split <;> rfl
  · rfl

/-- A call that needs no random draw has the same outcome for every state of
the generator, and leaves the generator as it was. -/
theorem Transform_with_rng {t : DataTransformer} (hphase : t.phase_ ≠ Phase.TRAIN)
    (hmirror : t.param_.mirror = false) (datum : Datum) (buf : List Dtype) (g : Option RNG) :
    ({ t with rng_ := g } : DataTransformer).Transform datum buf =
      (t.Transform datum buf >>= fun r =>
        pure ⟨{ r.self with rng_ := g }, r.transformed_data, r.crop⟩) := by
  rw [Transform_noRand_eq (t := { t with rng_ := g }) hphase hmirror,
    Transform_noRand_eq hphase hmirror, replicateMeanValues_with_rng]
  have h1 : checkDatum ({ t with rng_ := g } : DataTransformer) datum = checkDatum t datum := rfl
  rw [h1]
  cases checkDatum t datum with
  | error e => rfl
  | ok u =>
    simp only [bind_ok_eq]
    cases t.replicateMeanValues 71 datum.channels with
    | error e => rfl
    | ok t2 =>
      simp only [bind_ok_eq, pure_eq_ok]
      have h3 : directCopy ({ t2 with rng_ := g } : DataTransformer) datum
          (centerCrop t.param_.crop_size datum.height datum.width) buf =
          directCopy t2 datum (centerCrop t.param_.crop_size datum.height datum.width) buf := rfl
      rw [h3]
      cases directCopy t2 datum (centerCrop t.param_.crop_size datum.height datum.width) buf with
      | error e => rfl
      | ok td => rfl

/-- The failed checks of a call that needs no random draw are those of lines
59-71. -/
theorem Transform_noRand_check {t : DataTransformer} (hphase : t.phase_ ≠ Phase.TRAIN)
    (hmirror : t.param_.mirror = false) {datum : Datum} {buf : List Dtype} {l : Nat}
    (h : t.Transform datum buf = Except.error (Fault.check l)) :
    l ∈ [59, 60, 61, 65, 66, 67, 71] := by
  rw [Transform_noRand_eq hphase hmirror] at h
  cases hcd : checkDatum t datum with
  | error e =>
    rw [hcd, bind_error_eq] at h
    cases h
    rcases checkDatum_error hcd with h | h | h | h | h | h <;> cases h <;> decide
  | ok u =>
    have hC := (checkDatum_eq_ok_iff.1 hcd).1
    rw [hcd, bind_ok_eq, replicateMeanValues_eq t 71 hC] at h
    split at h
    · rw [bind_error_eq] at h
      cases h
      decide
    · rw [bind_ok_eq] at h
      exfalso
      cases hdc : directCopy
          ({ t with mean_values_ := expandMeanValues t.mean_values_ datum.channels } :
            DataTransformer) datum
          (centerCrop t.param_.crop_size datum.height datum.width) buf with
      | error e =>
        rw [hdc, bind_error_eq] at h
        cases h
        exact avoids_directCopy [l] _ _ _ _ l hdc (List.mem_singleton.2 rfl)
      | ok td =>
        rw [hdc, bind_ok_eq] at h
        cases h

/-- A returning call that needs no random draw has the generator it was
called with and the centre origin. -/
theorem Transform_noRand_ok {t : DataTransformer} (hphase : t.phase_ ≠ Phase.TRAIN)
    (hmirror : t.param_.mirror = false) {datum : Datum} {buf : List Dtype}
    {r : TransformResult} (h : t.Transform datum buf = Except.ok r) :
    r.self.rng_ = t.rng_ ∧ r.crop = centerCrop t.param_.crop_size datum.height datum.width ∧
      t.param_.crop_size ≤ datum.height ∧ t.param_.crop_size ≤ datum.width := by
  rw [Transform_noRand_eq hphase hmirror] at h
  rw [bind_eq_ok_iff] at h
  obtain ⟨_, hcd, h⟩ := h
  obtain ⟨hC, hH, hW, -⟩ := checkDatum_eq_ok_iff.1 hcd
  rw [bind_eq_ok_iff] at h
  obtain ⟨t2, h2, h⟩ := h
  rw [bind_eq_ok_iff] at h
  obtain ⟨td, -, h⟩ := h
  simp only [pure_eq_ok, Except.ok.injEq] at h
  subst h
  have e := (replicateMeanValues_eq_ok hC h2).1
  refine ⟨?_, rfl, hH, hW⟩
  simp only
  rw [e]

/-- A call that needs no random draw returns on a datum, a mean and a
destination that hold the elements their shapes announce and pass the checks
of lines 59-71. -/
theorem Transform_noRand_returns {t : DataTransformer} (hphase : t.phase_ ≠ Phase.TRAIN)
    (hmirror : t.param_.mirror = false) {datum : Datum} {buf : List Dtype}
    (hC : 0 < datum.channels) (hH : t.param_.crop_size ≤ datum.height)
    (hW : t.param_.crop_size ≤ datum.width)
    (hsrc : datum.channels * datum.height * datum.width ≤ datum.elements.length)
    (hbuf : datum.channels * (centerCrop t.param_.crop_size datum.height datum.width).height *
      (centerCrop t.param_.crop_size datum.height datum.width).width ≤ buf.length)
    (hmf : t.param_.has_mean_file = true →
      (datum.channels = t.data_mean_.channels ∧ datum.height = t.data_mean_.height ∧
        datum.width = t.data_mean_.width) ∧
      t.data_mean_.channels * t.data_mean_.height * t.data_mean_.width ≤
        t.data_mean_.data.length)
    (hmv : t.mean_values_.length > 0 →
      (t.mean_values_.length = 1 ∨ (t.mean_values_.length : Int) = datum.channels)) :
    ∃ r, t.Transform datum buf = Except.ok r := by
  rw [Transform_noRand_eq hphase hmirror]
  have hcd : checkDatum t datum = Except.ok () :=
    checkDatum_eq_ok_iff.2 ⟨hC, hH, hW, fun hm => (hmf hm).1⟩
  rw [hcd, bind_ok_eq, replicateMeanValues_eq t 71 hC, if_neg, bind_ok_eq]
  · have hcb := centerCrop_bounds hH hW
    obtain ⟨td, htd⟩ := @directCopy_ok
      ({ t with mean_values_ := expandMeanValues t.mean_values_ datum.channels } :
        DataTransformer) datum
      (centerCrop t.param_.crop_size datum.height datum.width) buf
      (by
        intro c h w hc hcC hh hhH hw hwW
        have hb := dataIndex_bounds hc hcC hh hhH hw hwW hcb.1 hcb.2.1 hcb.2.2.1
          hcb.2.2.2
        apply normalized_ok hb.1 (by omega) _ hc
        · intro hpos
          simp only at hpos
          rw [expandMeanValues_length_pos hC] at hpos
          have := expandMeanValues_length (hmv hpos)
          simp only
          omega
        · intro hm
          simp only at hm ⊢
          obtain ⟨⟨h1, h2, h3⟩, h4⟩ := hmf hm
          rw [← h1, ← h2, ← h3] at h4
          omega)
      hbuf
    rw [htd, bind_ok_eq]
    exact ⟨_, rfl⟩
  · rintro ⟨h1, h2, h3⟩
    rcases hmv h1 with h | h
    · exact h2 h
    · exact h3 h

/-- C2: in EVAL mode (phase not TRAIN) with crop_size = k > 0 and mirror
disabled, for every scale and mean configuration: `Transform(datum, flat
buffer)` has the same outcome for every state of the generator, the
uninitialised one (`none`) included, and leaves the generator as it was; it
never fails a check of `Rand` (lines 811, 812); a returning call has the crop
origin ((H-k)/2, (W-k)/2) with integer division and the extent k by k; and it
returns, whatever the generator, on a datum, a mean and a destination that
hold the elements their shapes announce and pass the checks of lines 59-71.
With scale 1 and no mean every output element (c, h, w) is the source element
(c, (H-k)/2 + h, (W-k)/2 + w). -/
theorem eval_center_crop_deterministic (t : DataTransformer) (datum : Datum)
    (buf : List Dtype) (k : Int)
    (hphase : t.phase_ ≠ Phase.TRAIN) (hk : t.param_.crop_size = k) (hkpos : 0 < k)
    (hmirror : t.param_.mirror = false) :
    (∀ g : Option RNG,
      ({ t with rng_ := g } : DataTransformer).Transform datum buf =
        (t.Transform datum buf >>= fun r =>
          pure ⟨{ r.self with rng_ := g }, r.transformed_data, r.crop⟩)) ∧
    (∀ (g : Option RNG) (r : TransformResult),
      ({ t with rng_ := g } : DataTransformer).Transform datum buf = Except.ok r →
      r.self.rng_ = g ∧
        r.crop = ⟨k, k, (datum.height - k) / 2, (datum.width - k) / 2, false⟩) ∧
    (∀ g : Option RNG,
      ({ t with rng_ := g } : DataTransformer).Transform datum buf ≠
          Except.error (Fault.check 811) ∧
        ({ t with rng_ := g } : DataTransformer).Transform datum buf ≠
          Except.error (Fault.check 812)) ∧
    (0 < datum.channels → k ≤ datum.height → k ≤ datum.width →
      datum.channels * datum.height * datum.width ≤ datum.elements.length →
      datum.channels * k * k ≤ buf.length →
      (t.param_.has_mean_file = true →
        (datum.channels = t.data_mean_.channels ∧ datum.height = t.data_mean_.height ∧
          datum.width = t.data_mean_.width) ∧
        t.data_mean_.channels * t.data_mean_.height * t.data_mean_.width ≤
          t.data_mean_.data.length) →
      (t.mean_values_.length > 0 →
        (t.mean_values_.length = 1 ∨ (t.mean_values_.length : Int) = datum.channels)) →
      ∀ g : Option RNG, ∃ r : TransformResult,
        ({ t with rng_ := g } : DataTransformer).Transform datum buf = Except.ok r ∧
        r.self.rng_ = g ∧
        r.crop = ⟨k, k, (datum.height - k) / 2, (datum.width - k) / 2, false⟩) ∧
    (t.param_.scale = 1 → t.param_.has_mean_file = false → t.mean_values_ = [] →
      0 < datum.channels → k ≤ datum.height → k ≤ datum.width →
      datum.channels * datum.height * datum.width ≤ datum.elements.length →
      datum.channels * k * k ≤ buf.length →
      ∃ out : List Dtype,
        (∀ g : Option RNG,
          ({ t with rng_ := g } : DataTransformer).Transform datum buf =
            Except.ok ⟨{ t with rng_ := g }, out,
              ⟨k, k, (datum.height - k) / 2, (datum.width - k) / 2, false⟩⟩) ∧
        ∀ c h w : Int, 0 ≤ c → c < datum.channels → 0 ≤ h → h < k → 0 ≤ w → w < k →
          ∃ x : Dtype,
            datumElement datum
                ((c * datum.height + (datum.height - k) / 2 + h) * datum.width +
                  (datum.width - k) / 2 + w) = Except.ok x ∧
            out[((c * k + h) * k + w).toNat]? = some x) := by
  have hk0 : k ≠ 0 := by omega
  have hg : k ≤ datum.height → k ≤ datum.width → centerCrop k datum.height datum.width =
      ⟨k, k, (datum.height - k) / 2, (datum.width - k) / 2, false⟩ := by
    intro hH hW
    unfold centerCrop
    rw [if_pos hk0, Int.tdiv_eq_ediv (by omega) (by decide),
      Int.tdiv_eq_ediv (by omega) (by decide)]
  have hok : ∀ (g : Option RNG) (r : TransformResult),
      ({ t with rng_ := g } : DataTransformer).Transform datum buf = Except.ok r →
      r.self.rng_ = g ∧
        r.crop = ⟨k, k, (datum.height - k) / 2, (datum.width - k) / 2, false⟩ := by
    intro g r hr
    obtain ⟨h1, h2, h3, h4⟩ := Transform_noRand_ok (t := { t with rng_ := g }) hphase hmirror hr
    simp only [hk] at h2 h3 h4
    exact ⟨h1, by rw [h2, hg h3 h4]⟩
  refine ⟨fun g => Transform_with_rng hphase hmirror datum buf g, hok, ?_, ?_, ?_⟩
  · intro g
    constructor
    · intro h
      have := Transform_noRand_check (t := { t with rng_ := g }) hphase hmirror h
      revert this
      decide
    · intro h
      have := Transform_noRand_check (t := { t with rng_ := g }) hphase hmirror h
      revert this
      decide
  · intro hC hH hW hsrc hbuf hmf hmv g
    obtain ⟨r, hr⟩ := Transform_noRand_returns (t := { t with rng_ := g }) hphase hmirror
      hC (by simp only [hk]; exact hH)
      (by simp only [hk]; exact hW) hsrc
      (by
        simp only [hk]
        rw [hg hH hW]
        exact hbuf)
      hmf hmv
    exact ⟨r, hr, hok g r hr⟩
  · intro hscale hmf hmv hC hH hW hsrc hbuf
    exact eval_center_crop_copy t datum buf k hphase hk hkpos hmirror hscale hmf hmv hC hH hW
      hsrc hbuf

/-- The example of the specification: a 10 by 10 single-channel source with
crop_size 4 in EVAL mode, with the generator uninitialised, gives origin (3, 3)
and copies rows and columns 3..6; with a generator the outcome is the same. -/
theorem eval_center_crop_deterministic_witness :
    Examples.evalCropFour.phase_ ≠ Phase.TRAIN ∧
    Examples.evalCropFour.param_.crop_size = 4 ∧
    Examples.evalCropFour.param_.mirror = false ∧
    (Examples.evalCropFour.Transform Examples.datum10x10 (List.replicate 16 0) =
      Except.ok ⟨Examples.evalCropFour,
        [33, 34, 35, 36, 43, 44, 45, 46, 53, 54, 55, 56, 63, 64, 65, 66],
        ⟨4, 4, 3, 3, false⟩⟩) ∧
    ({ Examples.evalCropFour with rng_ := some Examples.zeroRng } :
        DataTransformer).Transform Examples.datum10x10 (List.replicate 16 0) =
      Except.ok ⟨{ Examples.evalCropFour with rng_ := some Examples.zeroRng },
        [33, 34, 35, 36, 43, 44, 45, 46, 53, 54, 55, 56, 63, 64, 65, 66],
        ⟨4, 4, 3, 3, false⟩⟩ := by
  have hrun : Examples.evalCropFour.Transform Examples.datum10x10 (List.replicate 16 0) =
      Except.ok ⟨Examples.evalCropFour,
        [33, 34, 35, 36, 43, 44, 45, 46, 53, 54, 55, 56, 63, 64, 65, 66],
        ⟨4, 4, 3, 3, false⟩⟩ := by with_unfolding_all rfl
  have h := (eval_center_crop_deterministic Examples.evalCropFour Examples.datum10x10
    (List.replicate 16 0) 4 (by decide) rfl (by decide) rfl).1 (some Examples.zeroRng)
  rw [hrun] at h
  exact ⟨by decide, rfl, rfl, hrun, h⟩

end caffe
